import Mathlib

/-!
Verification development for the cryptominisat repository sources:
`src/Solver/FailedVarSearcher.cpp` (failed-literal probing, useless-binary
removal; 2.x-era solver) and `src/cmsat/Solver.cpp` (clause addition, counter
bookkeeping, DIMACS dumping; 3.x-era solver).

The two source files belong to two different generations of the solver, so
the development keeps two shallow embeddings:

* namespace `CS2` — the state and routines around `FailedVarSearcher`
  (probing via `tryBoth`, `search`, `orderLits`, useless-binary removal);
* namespace `CS3` — the state and routines of `cmsat/Solver.cpp`
  (`addClauseInt`, attach/detach counter updates, `checkStats`,
  `addClauseHelper`/`addClause`/`solve`, `dumpIrredClauses`).

Routines of the repository that are referenced but whose definitions are not
part of these two files (the propagation engine `propagate`,
`propagateBin`, `propagateBinOneLevel`, `uncheckedEnqueue`, `cancelUntil`,
the variable replacer queue) are modelled from the specification; each such
definition carries a doc comment starting with `Modelled from the spec:`.
-/

namespace CS2

/-- A literal of the 2.x solver: variable index plus sign bit
(`sign = true` is the negated literal), as in `Solver/SolverTypes.h`'s
`Lit(var, sign)`. -/
structure CLit where
  v : Nat
  sgn : Bool
deriving DecidableEq, Repr

/-- Literal negation: a one-bit flip of the sign. -/
def CLit.neg (l : CLit) : CLit := ⟨l.v, !l.sgn⟩

/-- Solver state for the 2.x-era solver, merged with the `FailedVarSearcher`
member fields it manipulates.  `assigns` maps each variable to its current
truth value (`none` = l_Undef); `trail`/`trailLim` are the assignment trail
and the per-decision-level start indices; `bins` holds the binary clauses
(each pair is the clause `p.1 ∨ p.2`) and `clauses` the remaining clauses.
`orderHeap` models the variable order heap by its membership list. -/
structure S2 where
  numVars : Nat
  assigns : List (Option Bool)
  trail : List CLit
  trailLim : List Nat
  ok : Bool
  props : Nat
  clauses : List (List CLit)
  bins : List (CLit × CLit)
  activity : List Nat
  polarity : List Bool
  varInc : Nat
  orderHeap : List Nat
  decisionVar : List Bool
  litDegrees : List Nat
  randStream : List Nat
  removedLearnts : List (List CLit)
  readdOldLearnts : Bool
  addExtraBins : Bool
  replaceQueue : List (CLit × CLit × Bool)
  numFailed : Nat
  goodBothSame : Nat
  lastTimeFoundTruths : Nat
  numPropsMultiplier : Rat
  finishedLastTimeVar : Bool
  lastTimeWentUntilVar : Nat
deriving DecidableEq

/-- Value of a literal under the current assignment
(`value(l) = assigns[var(l)] ^ sign(l)`). -/
def S2.value (s : S2) (l : CLit) : Option Bool :=
  match s.assigns.getD l.v none with
  | none => none
  | some b => some (xor b l.sgn)

/-- Modelled from the spec: `Solver::uncheckedEnqueue` (propagation engine,
not under src/) — record the literal as true, append it to the trail; the
propagation counter is bumped once per enqueued literal (the spec expresses
resource budgets as propagation counts). -/
def S2.enqueue (s : S2) (l : CLit) : S2 :=
  { s with assigns := s.assigns.set l.v (some (!l.sgn))
           trail := s.trail ++ [l]
           props := s.props + 1 }

/-- Modelled from the spec: `Solver::newDecisionLevel` — push the current
trail size on the decision-level stack. -/
def S2.newDecisionLevel (s : S2) : S2 :=
  { s with trailLim := s.trailLim ++ [s.trail.length] }

/-- Decision level = depth of the decision-level stack. -/
def S2.decisionLevel (s : S2) : Nat := s.trailLim.length

/-- Modelled from the spec: `Solver::insertVarOrder` — re-insert an
unassigned variable in the order heap if it is a decision variable and not
already a member. -/
def S2.insertVarOrder (s : S2) (x : Nat) : S2 :=
  if s.decisionVar.getD x false && !(s.orderHeap.contains x) then
    { s with orderHeap := s.orderHeap ++ [x] }
  else s

/-- One literal of the backtracking loop: unassign its variable and
re-insert it in the order heap. -/
def S2.cancelStep (t : S2) (l : CLit) : S2 :=
  S2.insertVarOrder { t with assigns := t.assigns.set l.v none } l.v

/-- Modelled from the spec: `Solver::cancelUntil(0)` — unassign every trail
entry above the first decision level, re-insert those variables in the order
heap, truncate the trail, and clear the decision-level stack. -/
def S2.cancelUntil0 (s : S2) : S2 :=
  match s.trailLim with
  | [] => s
  | k :: _ =>
    let s' := (s.trail.drop k).foldl S2.cancelStep s
    { s' with trail := s.trail.take k, trailLim := [] }

/-- Status of a clause under a partial assignment: satisfied, conflicting
(all literals false), unit (exactly one unassigned literal, rest false), or
unresolved. -/
inductive CStatus where
  | sat : CStatus
  | confl : CStatus
  | unit (l : CLit) : CStatus
  | unres : CStatus
deriving DecidableEq, Repr

/-- Compute the status of one clause under the current assignment. -/
def clauseStatus (s : S2) (cl : List CLit) : CStatus :=
  if cl.any (fun l => s.value l = some true) then .sat
  else
    match cl.filter (fun l => s.value l = none) with
    | [] => .confl
    | [l] => .unit l
    | _ => .unres

/-- First clause of the list that is unit or conflicting, scanning in order. -/
def firstUnitConfl (s : S2) : List (List CLit) → Option CStatus
  | [] => none
  | c :: rest =>
    match clauseStatus s c with
    | .confl => some .confl
    | .unit l => some (.unit l)
    | _ => firstUnitConfl s rest

/-- All clauses seen by full propagation: the binary clauses plus the rest. -/
def S2.allClauses (s : S2) : List (List CLit) :=
  s.bins.map (fun p => [p.1, p.2]) ++ s.clauses

/-- Modelled from the spec: the unit-propagation fixpoint loop (§4.2) — given
a clause selector, repeatedly enqueue the unit literal of the first unit
clause until no clause is unit, or report a conflict when a clause has all
literals false.  Fuel bounds the recursion; `numVars + 1` always suffices. -/
def propagateAux (getCls : S2 → List (List CLit)) : Nat → S2 → Bool × S2
  | 0, s => (false, s)
  | fuel + 1, s =>
    match firstUnitConfl s (getCls s) with
    | none => (false, s)
    | some .confl => (true, s)
    | some (.unit l) => propagateAux getCls fuel (s.enqueue l)
    | some _ => (false, s)

/-- Modelled from the spec: `Solver::propagate` — unit propagation to
fixpoint over all clauses; returns (conflict?, new state). -/
def S2.propagate (s : S2) : Bool × S2 :=
  propagateAux S2.allClauses (s.numVars + 1) s

/-- Clause view of the binary clauses only. -/
def S2.binOnly (s : S2) : List (List CLit) :=
  s.bins.map (fun p => [p.1, p.2])

/-- Modelled from the spec: `Solver::propagateBin` — unit propagation to
fixpoint following only binary clauses. -/
def S2.propagateBin (s : S2) : Bool × S2 :=
  propagateAux S2.binOnly (s.numVars + 1) s

/-- Literals directly implied by `l` through the binary clauses, in watch
list (clause list) order: clause `(a ∨ b)` implies `b` once `a` is false. -/
def S2.binImplied (s : S2) (l : CLit) : List CLit :=
  s.bins.filterMap (fun p =>
    if p.1 = l.neg then some p.2 else if p.2 = l.neg then some p.1 else none)

/-- Modelled from the spec: `Solver::propagateBinOneLevel` — propagate only
the one literal just enqueued, following only its binary watch list: each
implied literal is skipped when true, enqueued when unassigned, and a false
implied literal is a conflict. -/
def S2.propagateBinOneLevel (s : S2) (l0 : CLit) : Bool × S2 :=
  go (s.binImplied l0) s
where
  go : List CLit → S2 → Bool × S2
    | [], s => (false, s)
    | m :: rest, s =>
      match s.value m with
      | some true => go rest s
      | some false => (true, s)
      | none => go rest (s.enqueue m)

/-- Index of a literal in literal-indexed arrays (`Lit::toInt() = 2*var + sign`). -/
def CLit.idx (l : CLit) : Nat := 2 * l.v + (if l.sgn then 1 else 0)

/-- Embedding of `FailedVarSearcher::fillBinImpliesMinusLast`: probe `l` with
binary-only propagation; on conflict return failure (without backtracking, as
in the source).  Otherwise, unless propagation assigned `origLit`'s variable
(a cycle), walk the trail strictly above the decision literal from the top
down, moving every literal whose `setOneHop` bit is set into `wrong` and
clearing its bit; then backtrack to level 0. -/
def fillBinImpliesMinusLast (origLit m : CLit) (s : S2) (oneHop : List Bool)
    (wrong : List CLit) : Bool × S2 × List Bool × List CLit :=
  let s1 := (s.newDecisionLevel).enqueue m
  let r := s1.propagateBin
  if r.1 then (false, r.2, oneHop, wrong)
  else
    let s2 := r.2
    if (s2.assigns.getD origLit.v none).isNone then
      let k := s2.trailLim.getD 0 0
      let seg := (s2.trail.drop (k + 1)).reverse
      let acc := seg.foldl
        (fun (a : List Bool × List CLit) x =>
          if a.1.getD x.idx false then (a.1.set x.idx false, a.2 ++ [x])
          else a)
        (oneHop, wrong)
      (true, s2.cancelUntil0, acc.1, acc.2)
    else (true, s2.cancelUntil0, oneHop, wrong)

/-- Embedding of `FailedVarSearcher::removeBin(lit1, lit2)`: locate the
binary clause `(lit1 ∨ lit2)` through `lit1`'s watch list and remove it from
the clause database (the model removes one matching clause). -/
def removeFirstBin : List (CLit × CLit) → CLit → CLit → List (CLit × CLit)
  | [], _, _ => []
  | p :: rest, l1, l2 =>
    if (p.1 = l1 ∧ p.2 = l2) ∨ (p.1 = l2 ∧ p.2 = l1) then rest
    else p :: removeFirstBin rest l1 l2

/-- State update of `FailedVarSearcher::removeBin`. -/
def removeBin (l1 l2 : CLit) (s : S2) : S2 :=
  { s with bins := removeFirstBin s.bins l1 l2 }

/-- The loop of `FailedVarSearcher::removeUselessBinaries` over the one-hop
literals: each is probed by `fillBinImpliesMinusLast`; on failure the source's
cleanup loop repeatedly clears the bit of the FAILING element (the loop body
indexes `oneHopAway[i]` with the outer variable `i`, not the loop's own `i2`),
which the model reproduces by a single clear. -/
def rubFillLoop (origLit : CLit) :
    List CLit → S2 → List Bool → List CLit → Bool × S2 × List Bool × List CLit
  | [], s, oneHop, wrong => (true, s, oneHop, wrong)
  | m :: rest, s, oneHop, wrong =>
    let r := fillBinImpliesMinusLast origLit m s oneHop wrong
    if r.1 then rubFillLoop origLit rest r.2.1 r.2.2.1 r.2.2.2
    else (false, r.2.1, r.2.2.1.set m.idx false, r.2.2.2)

/-- Embedding of `FailedVarSearcher::removeUselessBinaries(lit)` (source
lines 718-763): probe `lit` by one-level binary propagation, record the
one-hop literals (top-down trail order) in `oneHopAway` and set their
`setOneHop` bits; probe each with `fillBinImpliesMinusLast` collecting
`wrong`; then — exactly as the source — remove `(¬lit ∨ oneHopAway[i])` for
each `i < wrong.size()` (the source indexes `oneHopAway`, not `wrong`), and
clear all `setOneHop` bits. -/
def removeUselessBinaries (l : CLit) (s : S2) (oneHop : List Bool) :
    Bool × S2 × List Bool :=
  let s1 := (s.newDecisionLevel).enqueue l
  let r := s1.propagateBinOneLevel l
  if r.1 then (false, r.2, oneHop)
  else
    let s2 := r.2
    let k := s2.trailLim.getD 0 0
    let oneHopAway := (s2.trail.drop (k + 1)).reverse
    let oneHop1 := oneHopAway.foldl (fun a x => a.set x.idx true) oneHop
    let s3 := s2.cancelUntil0
    let res := rubFillLoop l oneHopAway s3 oneHop1 []
    if res.1 then
      let wrong := res.2.2.2
      let s5 := (List.range wrong.length).foldl
        (fun t i => removeBin l.neg (oneHopAway.getD i ⟨0, false⟩) t) res.2.1
      let oneHop3 := oneHopAway.foldl (fun a x => a.set x.idx false) res.2.2.1
      (true, s5, oneHop3)
    else (false, res.2.1, res.2.2.1)

/-- The probe-2 trail walk of `FailedVarSearcher::tryBoth` (source lines
524-555), top-down, with the XOR side-channel and hyper-binary branches
omitted (configuration `binXorFind = false`, `addExtraBins = false`).  Each
walk item is `(c, lit)` where `c` is the trail index relative to
`trail_lim[0]` (so `c = 0` is the probed decision literal itself).  For a
variable propagated in probe 1: equal values push a both-same pair
`(x, !propValue[x])`; opposite values (except at `c = 0`) push a replacement
item for the variable replacer queue.  In both cases `propValue[x]` is then
overwritten with the probe-2 value. -/
def probe2Walk (sE : S2) (lit1 lit2 : CLit) (propagated : List Bool) :
    List (Nat × CLit) → List Bool → List (Nat × Bool) → List (CLit × CLit × Bool) →
      List Bool × List (Nat × Bool) × List (CLit × CLit × Bool)
  | [], pv, bs, rq => (pv, bs, rq)
  | (c, l) :: rest, pv, bs, rq =>
    let xb := (sE.assigns.getD l.v none).getD false
    let pv' := pv.set l.v xb
    if propagated.getD l.v false then
      if pv.getD l.v false = xb then
        probe2Walk sE lit1 lit2 propagated rest pv' (bs ++ [(l.v, !(pv.getD l.v false))]) rq
      else if c ≠ 0 then
        let item :=
          if lit1.v = lit2.v then ((⟨lit1.v, false⟩ : CLit), (⟨l.v, false⟩ : CLit), pv.getD l.v false)
          else ((⟨lit1.v, false⟩ : CLit), (⟨lit2.v, false⟩ : CLit), xor lit1.sgn lit2.sgn)
        probe2Walk sE lit1 lit2 propagated rest pv' bs (rq ++ [item])
      else probe2Walk sE lit1 lit2 propagated rest pv' bs rq
    else probe2Walk sE lit1 lit2 propagated rest pv' bs rq

/-- The failed-probe handler of `tryBoth` (both occurrences, source lines
473-479 and 515-521): backtrack to level 0, count the failure, enqueue the
probed literal's negation, propagate at level 0 and record the result in
`ok`; the return value is `ok`.  `s1` is the state right after the
conflicting propagation. -/
def tryBothFailStep (s1 : S2) (l : CLit) : Bool × S2 :=
  let sC := s1.cancelUntil0
  let sD := ({ sC with numFailed := sC.numFailed + 1 }).enqueue l.neg
  let r2 := sD.propagate
  (!r2.1, { r2.2 with ok := !r2.1 })

/-- The `(propValue, bothSame, replace items)` triple produced by the
probe-2 trail walk, starting from the probe-2 result state `sE`. -/
def walkResults (sE : S2) (lit1 lit2 : CLit)
    (propagated propValue0 : List Bool) :
    List Bool × List (Nat × Bool) × List (CLit × CLit × Bool) :=
  probe2Walk sE lit1 lit2 propagated
    ((sE.trail.drop (sE.trailLim.getD 0 0)).enum).reverse propValue0 [] []

/-- The solver state right before the final level-0 propagation of
`tryBoth`'s success path: after the walk, backtrack to level 0, append the
replacement items to the replacer queue, enqueue every both-same pair, and
count them in `goodBothSame`. -/
def successState (sE : S2) (lit1 lit2 : CLit)
    (propagated propValue0 : List Bool) : S2 :=
  let w := walkResults sE lit1 lit2 propagated propValue0
  let sF := sE.cancelUntil0
  let sG := { sF with replaceQueue := sF.replaceQueue ++ w.2.2 }
  let sH := w.2.1.foldl (fun t p => t.enqueue ⟨p.1, p.2⟩) sG
  { sH with goodBothSame := sH.goodBothSame + w.2.1.length }

/-- The both-probes-succeeded tail of `tryBoth` (source lines 522-591):
walk the probe-2 trail, backtrack, queue the replacement items, enqueue the
both-same pairs at level 0 and propagate to fixpoint, recording the result
in `ok`.  `sE` is the state right after the successful probe-2
propagation. -/
def tryBothSuccessEnd (sE : S2) (lit1 lit2 : CLit)
    (propagated propValue0 : List Bool) : Bool × S2 :=
  let r4 := (successState sE lit1 lit2 propagated propValue0).propagate
  (!r4.1, { r4.2 with ok := !r4.1 })

/-- Embedding of `FailedVarSearcher::tryBoth(lit1, lit2)` (source lines
453-592) in the configuration `binXorFind = false`, `addExtraBins = false`
(XOR side-channel and hyper-binary resolution disabled): probe `lit1` at a
new decision level; on conflict handle the failure (`tryBothFailStep`).
Otherwise record the propagated variables and their values, backtrack, and
probe `lit2` the same way.  If both probes succeed, run
`tryBothSuccessEnd` (`VarReplacer::replace` is modelled from the spec as
queueing the equivalence). -/
def S2.tryBoth (s0 : S2) (lit1 lit2 : CLit) : Bool × S2 :=
  let r1 := ((s0.newDecisionLevel).enqueue lit1).propagate
  if r1.1 then tryBothFailStep r1.2 lit1
  else
    let sB := r1.2
    let k1 := sB.trailLim.getD 0 0
    let seg1 := sB.trail.drop k1
    let propagated := seg1.foldl (fun a l => a.set l.v true)
      (List.replicate s0.numVars false)
    let propValue0 := seg1.foldl
      (fun a l => a.set l.v ((sB.assigns.getD l.v none).getD false))
      (List.replicate s0.numVars false)
    let r2 := (((sB.cancelUntil0).newDecisionLevel).enqueue lit2).propagate
    if r2.1 then tryBothFailStep r2.2 lit2
    else tryBothSuccessEnd r2.2 lit1 lit2 propagated propValue0

/-- The set `H` of spec §4.6: the literals set by one-level binary
propagation of `L` (beyond `L` itself). -/
def specOneHopSet (s : S2) (l : CLit) : List CLit :=
  let s1 := (s.newDecisionLevel).enqueue l
  let r := s1.propagateBinOneLevel l
  let k := r.2.trailLim.getD 0 0
  r.2.trail.drop (k + 1)

/-- The set `H_M` of spec §4.6: the literals set by full binary propagation
of `M` (beyond `M` itself). -/
def specBinReachSet (s : S2) (m : CLit) : List CLit :=
  let s1 := (s.newDecisionLevel).enqueue m
  let r := s1.propagateBin
  let k := r.2.trailLim.getD 0 0
  r.2.trail.drop (k + 1)

end CS2

/-! ## C8 — the `numPropsMultiplier` update in `FailedVarSearcher::search`

Source lines 145-148 of `Solver/FailedVarSearcher.cpp`:

  if (lastTimeFoundTruths > 500 || (double)lastTimeFoundTruths >
      (double)solver.order_heap.size() * 0.03)
    std::max(numPropsMultiplier*1.7, 5.0);
  else numPropsMultiplier = 1.0;
  numProps = (uint64_t) ((double)numProps * numPropsMultiplier);

In the first branch the computed `std::max` value is an expression statement
whose result is discarded; `numPropsMultiplier` is only ever assigned `1.0`.
Floating-point arithmetic is modelled over `Rat`. -/

namespace CS2

/-- The growth expression `std::max(numPropsMultiplier*1.7, 5.0)` computed
(and discarded) by the source. -/
def multiplierGrowthValue (m : Rat) : Rat := max (m * (17 / 10)) 5

/-- The productivity test guarding the growth branch:
`lastTimeFoundTruths > 500 || lastTimeFoundTruths > heapSize * 0.03`. -/
def numPropsMultiplierCond (lastTruths heapSize : Nat) : Bool :=
  decide (500 < lastTruths) || decide ((heapSize : Rat) * (3 / 100) < (lastTruths : Rat))

/-- The `numPropsMultiplier` update exactly as the source executes it: in the
growth branch the `std::max` expression's value is discarded, so the field
keeps its previous value; otherwise it is assigned `1.0`. -/
def updateNumPropsMultiplier (lastTruths heapSize : Nat) (m : Rat) : Rat :=
  if numPropsMultiplierCond lastTruths heapSize then m else 1

/-- The effective propagation budget
`numProps = (uint64_t)((double)numProps * numPropsMultiplier)`. -/
def scaledNumProps (numProps : Nat) (m : Rat) : Nat :=
  (Int.floor ((numProps : Rat) * m)).toNat

/-- The multiplier over a whole sequence of `search` calls, starting from the
constructor's initial value `1.0`; each call supplies the
(`lastTimeFoundTruths`, heap size) pair the update reads. -/
def iterateMultiplierUpdates (calls : List (Nat × Nat)) : Rat :=
  calls.foldl (fun acc c => updateNumPropsMultiplier c.1 c.2 acc) 1

end CS2

/-! ## C3 — useless-binary removal removes the wrong clause

`FailedVarSearcher::removeUselessBinaries` (source line 755) iterates
`for (i = 0; i < wrong.size(); i++) removeBin(~lit, oneHopAway[i]);`
— it indexes `oneHopAway`, not `wrong`.  On the three binary clauses
`(¬L ∨ A)`, `(¬L ∨ B)`, `(¬B ∨ A)` the redundant direct binary is
`(¬L ∨ A)` (chain `L → B → A`), but the code removes `(¬L ∨ B)`, which is
not redundant. -/

namespace CS2

/-- Concrete three-variable solver state for the C3 evaluation: variables
`L = 0`, `A = 1`, `B = 2`; binary clauses `(¬L ∨ A)`, `(¬L ∨ B)`,
`(¬B ∨ A)`; everything unassigned at decision level 0. -/
def ex3 : S2 :=
  { numVars := 3
    assigns := [none, none, none]
    trail := []
    trailLim := []
    ok := true
    props := 0
    clauses := []
    bins := [(⟨0, true⟩, ⟨1, false⟩), (⟨0, true⟩, ⟨2, false⟩), (⟨2, true⟩, ⟨1, false⟩)]
    activity := [0, 0, 0]
    polarity := [false, false, false]
    varInc := 0
    orderHeap := [0, 1, 2]
    decisionVar := [true, true, true]
    litDegrees := []
    randStream := []
    removedLearnts := []
    readdOldLearnts := false
    addExtraBins := false
    replaceQueue := []
    numFailed := 0
    goodBothSame := 0
    lastTimeFoundTruths := 0
    numPropsMultiplier := 1
    finishedLastTimeVar := true
    lastTimeWentUntilVar := 0 }

/-- A fresh solver state over `n` unassigned decision variables with the
given clause lists (used for concrete evaluations). -/
def mkS2 (n : Nat) (cls : List (List CLit)) (bs : List (CLit × CLit)) : S2 :=
  { numVars := n
    assigns := List.replicate n none
    trail := []
    trailLim := []
    ok := true
    props := 0
    clauses := cls
    bins := bs
    activity := List.replicate n 0
    polarity := List.replicate n false
    varInc := 0
    orderHeap := List.range n
    decisionVar := List.replicate n true
    litDegrees := List.replicate (2 * n) 0
    randStream := []
    removedLearnts := []
    readdOldLearnts := false
    addExtraBins := false
    replaceQueue := []
    numFailed := 0
    goodBothSame := 0
    lastTimeFoundTruths := 0
    numPropsMultiplier := 1
    finishedLastTimeVar := true
    lastTimeWentUntilVar := 0 }

/-- One variable, one unit clause `(¬x0)`: probing `x0 = true` conflicts. -/
def exC2a : S2 := mkS2 1 [[⟨0, true⟩]] []

/-- One variable, one unit clause `(x0)`: probing `x0 = false` conflicts. -/
def exC2b : S2 := mkS2 1 [[⟨0, false⟩]] []

/-- Two variables with binary clauses `(¬x0 ∨ x1)` and `(x0 ∨ x1)`: both
probes of `x0` force `x1 = true`. -/
def exC1 : S2 := mkS2 2 [] [(⟨0, true⟩, ⟨1, false⟩), (⟨0, false⟩, ⟨1, false⟩)]

/-- Projection of the state fields untouched by the backtracking loop
(`cancelStep` changes only `assigns` and `orderHeap`); used to state its
frame property as a single equation. -/
def S2.core (s : S2) : Nat × Bool × Nat × List (List CLit) × List (CLit × CLit) ×
    List CLit × List Nat × Nat × Nat × List (CLit × CLit × Bool) × List Nat ×
    List Bool × Nat × List Bool × Nat :=
  (s.numVars, s.ok, s.props, s.clauses, s.bins, s.trail, s.trailLim, s.numFailed,
   s.goodBothSame, s.replaceQueue, s.activity, s.polarity, s.varInc, s.decisionVar,
   s.assigns.length)

/-- Number of unassigned variables (termination measure for propagation). -/
def S2.undefCount (s : S2) : Nat := s.assigns.count none

/-- Propagation fixpoint: no clause is unit or conflicting under the current
assignment. -/
def S2.NoUnit (s : S2) : Prop := firstUnitConfl s s.allClauses = none

/-- Well-formedness of a solver state: the assignment vector has one slot
per variable; every trail literal is in range and true under the current
assignment; no variable occurs twice on the trail; every clause literal is
in range. -/
def S2.WFp (s : S2) : Prop :=
  s.assigns.length = s.numVars ∧
  (∀ l ∈ s.trail, l.v < s.numVars ∧ s.assigns.getD l.v none = some (!l.sgn)) ∧
  (s.trail.map CLit.v).Nodup ∧
  (∀ cl ∈ s.allClauses, ∀ l ∈ cl, l.v < s.numVars)

end CS2

/-! ## CS3 — the 3.x-era solver of `src/cmsat/Solver.cpp` -/

namespace CS3

/-- A literal of the 3.x solver (`cmsat/SolverTypes.h`): variable index plus
sign (`sgn = true` is the negated literal); `toInt() = 2*var + sign`. -/
structure L3 where
  v : Nat
  sgn : Bool
deriving DecidableEq, Repr

/-- Literal negation. -/
def L3.neg (l : L3) : L3 := ⟨l.v, !l.sgn⟩

/-- The packed integer value used for literal ordering (`x = var+var+sign`). -/
def L3.toNat (l : L3) : Nat := 2 * l.v + (if l.sgn then 1 else 0)

/-- A clause of the arena: literal list plus learnt flag. -/
structure Clause3 where
  lits : List L3
  learnt : Bool
deriving DecidableEq, Repr

/-- Solver state of the 3.x solver restricted to the fields the embedded
routines read and write.  The watch index is modelled by explicit entry
lists: `binWatch`/`triWatch` hold one entry per watching literal (two per
binary, three per ternary clause, first component = watching literal), and
`longWatches` holds (blocker-free) long-clause watchers as
(literal, arena offset) pairs.  The arena is a list of clauses indexed by
offset; `longIrredCls`/`longRedCls` are the offset lists. -/
structure St3 where
  nv : Nat
  assigns : List (Option Bool)
  trail : List L3
  trailLim : List Nat
  ok : Bool
  binWatch : List (L3 × L3 × Bool)
  triWatch : List (L3 × L3 × L3 × Bool)
  longWatches : List (L3 × Nat)
  arena : List Clause3
  longIrredCls : List Nat
  longRedCls : List Nat
  irredLits : Nat
  redLits : Nat
  irredBins : Nat
  redBins : Nat
  irredTris : Nat
  redTris : Nat
  numNewBinsSinceSCC : Nat
  replaceTable : List L3
  elimed : List Bool
  blockedClauses : List (List L3)
  randS : List Nat
  startClean : Nat
  nextCleanLimit : Nat
  nextCleanLimitInc : Nat
  assumptions : List L3
  zeroLevAssignsByCNF : Nat
deriving DecidableEq

/-- Value of a literal under the current assignment. -/
def St3.value (s : St3) (l : L3) : Option Bool :=
  match s.assigns.getD l.v none with
  | none => none
  | some b => some (xor b l.sgn)

/-- Modelled from the spec: `PropEngine::enqueue` — record the literal as
true and append it to the trail. -/
def St3.enqueue (s : St3) (l : L3) : St3 :=
  { s with assigns := s.assigns.set l.v (some (!l.sgn))
           trail := s.trail ++ [l] }

/-- Embedding of `Solver::attachBinClause` (source lines 275-293): bump the
literal counters and the bins-since-SCC counter, then (modelled from the
spec) store the two symmetric binary watcher entries. -/
def attachBinClause3 (lit1 lit2 : L3) (learnt : Bool) (s : St3) : St3 :=
  let s1 := if learnt then { s with redLits := s.redLits + 2, redBins := s.redBins + 1 }
            else { s with irredLits := s.irredLits + 2, irredBins := s.irredBins + 1 }
  { s1 with numNewBinsSinceSCC := s1.numNewBinsSinceSCC + 1
            binWatch := s1.binWatch ++ [(lit1, lit2, learnt), (lit2, lit1, learnt)] }

/-- Embedding of `Solver::attachTriClause` (source lines 256-273). -/
def attachTriClause3 (lit1 lit2 lit3 : L3) (learnt : Bool) (s : St3) : St3 :=
  let s1 := if learnt then { s with redLits := s.redLits + 3, redTris := s.redTris + 1 }
            else { s with irredLits := s.irredLits + 3, irredTris := s.irredTris + 1 }
  { s1 with triWatch := s1.triWatch
      ++ [(lit1, lit2, lit3, learnt), (lit2, lit1, lit3, learnt), (lit3, lit1, lit2, learnt)] }

/-- Remove one binary watcher entry (spec-modelled `removeWBin`). -/
def removeBinEntry : List (L3 × L3 × Bool) → L3 → L3 → Bool → List (L3 × L3 × Bool)
  | [], _, _, _ => []
  | e :: rest, w, o, lrnt =>
    if e = (w, o, lrnt) then rest else e :: removeBinEntry rest w o lrnt

/-- Remove one ternary watcher entry (spec-modelled `removeWTri`). -/
def removeTriEntry : List (L3 × L3 × L3 × Bool) → L3 × L3 × L3 × Bool →
    List (L3 × L3 × L3 × Bool)
  | [], _ => []
  | e :: rest, t => if e = t then rest else e :: removeTriEntry rest t

/-- Embedding of `Solver::detachBinClause` (source lines 312-326). -/
def detachBinClause3 (lit1 lit2 : L3) (learnt : Bool) (s : St3) : St3 :=
  let s1 := if learnt then { s with redLits := s.redLits - 2, redBins := s.redBins - 1 }
            else { s with irredLits := s.irredLits - 2, irredBins := s.irredBins - 1 }
  { s1 with binWatch :=
      removeBinEntry (removeBinEntry s1.binWatch lit1 lit2 learnt) lit2 lit1 learnt }

/-- Embedding of `Solver::detachTriClause` (source lines 295-310). -/
def detachTriClause3 (lit1 lit2 lit3 : L3) (learnt : Bool) (s : St3) : St3 :=
  let s1 := if learnt then { s with redLits := s.redLits - 3, redTris := s.redTris - 1 }
            else { s with irredLits := s.irredLits - 3, irredTris := s.irredTris - 1 }
  { s1 with triWatch :=
      removeTriEntry (removeTriEntry (removeTriEntry s1.triWatch
        (lit1, lit2, lit3, learnt)) (lit2, lit1, lit3, learnt)) (lit3, lit1, lit2, learnt) }

/-- Embedding of `Solver::attachClause` (source lines 244-254): bump the
literal counter by the clause size, then (modelled from the spec) watch the
clause's first two literals by offset. -/
def attachClause3 (idx : Nat) (s : St3) : St3 :=
  let cl := s.arena.getD idx ⟨[], false⟩
  let s1 := if cl.learnt then { s with redLits := s.redLits + cl.lits.length }
            else { s with irredLits := s.irredLits + cl.lits.length }
  { s1 with longWatches := s1.longWatches
      ++ [(cl.lits.getD 0 ⟨0, false⟩, idx), (cl.lits.getD 1 ⟨0, false⟩, idx)] }

/-- Embedding of `Solver::detachModifiedClause` (source lines 334-348)
specialised by `Solver::detachClause`: decrease the literal counter by the
clause size and (modelled from the spec) drop the two long watchers. -/
def detachClause3 (idx : Nat) (s : St3) : St3 :=
  let cl := s.arena.getD idx ⟨[], false⟩
  let s1 := if cl.learnt then { s with redLits := s.redLits - cl.lits.length }
            else { s with irredLits := s.irredLits - cl.lits.length }
  { s1 with longWatches := s1.longWatches.filter (fun w => w.2 ≠ idx) }

/-- The two counter equalities of `Solver::checkStats` (source lines
2210-2262, no freed clauses in the model):
`irredBins*2 + irredTris*3 + Σ|c| over longIrredCls = irredLits` and the
learnt counterpart. -/
def sumSizesA (arena : List Clause3) (idxs : List Nat) : Nat :=
  (idxs.map (fun i => (arena.getD i ⟨[], false⟩).lits.length)).sum

def checkStats3 (s : St3) : Prop :=
  s.irredBins * 2 + s.irredTris * 3 + sumSizesA s.arena s.longIrredCls = s.irredLits
  ∧ s.redBins * 2 + s.redTris * 3 + sumSizesA s.arena s.longRedCls = s.redLits

/-- The attach/detach operations whose sequences `checkStats` guards: the
binary/ternary attach/detach calls and the long-clause add/remove pairs
(`addClause`/`addLearntClause` push the offset and attach;
`detachClause` plus erasing the offset removes one). -/
inductive Op3 where
  | attachBin (l1 l2 : L3) (learnt : Bool) : Op3
  | detachBin (l1 l2 : L3) (learnt : Bool) : Op3
  | attachTri (l1 l2 l3 : L3) (learnt : Bool) : Op3
  | detachTri (l1 l2 l3 : L3) (learnt : Bool) : Op3
  | addLong (lits : List L3) (learnt : Bool) : Op3
  | remLong (idx : Nat) : Op3
deriving DecidableEq, Repr

/-- Apply one operation, using the embedded attach/detach routines. -/
def applyOp3 (s : St3) : Op3 → St3
  | .attachBin l1 l2 lrnt => attachBinClause3 l1 l2 lrnt s
  | .detachBin l1 l2 lrnt => detachBinClause3 l1 l2 lrnt s
  | .attachTri l1 l2 l3 lrnt => attachTriClause3 l1 l2 l3 lrnt s
  | .detachTri l1 l2 l3 lrnt => detachTriClause3 l1 l2 l3 lrnt s
  | .addLong lits lrnt =>
    let idx := s.arena.length
    let s1 := { s with arena := s.arena ++ [⟨lits, lrnt⟩] }
    let s2 := attachClause3 idx s1
    if lrnt then { s2 with longRedCls := s2.longRedCls ++ [idx] }
    else { s2 with longIrredCls := s2.longIrredCls ++ [idx] }
  | .remLong idx =>
    let s1 := detachClause3 idx s
    if (s.arena.getD idx ⟨[], false⟩).learnt then
      { s1 with longRedCls := s1.longRedCls.erase idx }
    else { s1 with longIrredCls := s1.longIrredCls.erase idx }

def applyOps3 (s : St3) (ops : List Op3) : St3 := ops.foldl applyOp3 s

/-- An operation is valid when detach is applied to an attached clause: the
matching counter is positive, and a removed long offset is present in its
offset list (each offset occurring at most once) and within the arena. -/
def Op3.valid (s : St3) : Op3 → Bool
  | .attachBin _ _ _ => true
  | .detachBin _ _ lrnt => if lrnt then 1 ≤ s.redBins else 1 ≤ s.irredBins
  | .attachTri _ _ _ _ => true
  | .detachTri _ _ _ lrnt => if lrnt then 1 ≤ s.redTris else 1 ≤ s.irredTris
  | .addLong _ _ => true
  | .remLong idx =>
    idx < s.arena.length &&
      (if (s.arena.getD idx ⟨[], false⟩).learnt
       then s.longRedCls.count idx = 1
       else s.longIrredCls.count idx = 1)

/-- Validity of a whole operation sequence, each op checked in the state it
runs in. -/
def validOps3 (s : St3) : List Op3 → Bool
  | [] => true
  | op :: rest => op.valid s && validOps3 (applyOp3 s op) rest

/-- Offset sanity: every stored long-clause offset points into the arena. -/
def offsetsOk (s : St3) : Prop :=
  (∀ i ∈ s.longIrredCls, i < s.arena.length) ∧ (∀ i ∈ s.longRedCls, i < s.arena.length)

/-- A fresh 3.x solver state over `n` variables with no clauses. -/
def mkSt3 (n : Nat) : St3 :=
  { nv := n
    assigns := List.replicate n none
    trail := []
    trailLim := []
    ok := true
    binWatch := []
    triWatch := []
    longWatches := []
    arena := []
    longIrredCls := []
    longRedCls := []
    irredLits := 0
    redLits := 0
    irredBins := 0
    redBins := 0
    irredTris := 0
    redTris := 0
    numNewBinsSinceSCC := 0
    replaceTable := (List.range n).map (fun v => ⟨v, false⟩)
    elimed := List.replicate n false
    blockedClauses := []
    randS := []
    startClean := 0
    nextCleanLimit := 0
    nextCleanLimitInc := 0
    assumptions := []
    zeroLevAssignsByCNF := 0 }

/-- The three-valued `lbool` answer type (`l_True` / `l_False` / `l_Undef`). -/
inductive LB3 where
  | t : LB3
  | f : LB3
  | undef : LB3
deriving DecidableEq, Repr

/-- The `std::sort(ps.begin(), ps.end())` call of `addClauseInt`: literals
are ordered by their packed integer value `2*var + sign` (insertion sort;
any comparison sort embeds `std::sort`). -/
def sortL3 (lits : List L3) : List L3 :=
  List.insertionSort (fun a b => L3.toNat a ≤ L3.toNat b) lits

instance : IsTotal L3 (fun a b => L3.toNat a ≤ L3.toNat b) :=
  ⟨fun a b => Nat.le_total a.toNat b.toNat⟩

instance : IsTrans L3 (fun a b => L3.toNat a ≤ L3.toNat b) :=
  ⟨fun _ _ _ h1 h2 => Nat.le_trans h1 h2⟩

/-- The literal-scanning loop of `addClauseInt` (source lines 175-197):
walk the sorted literals keeping the last kept literal `p`; return `none`
(the C++ `return NULL`) when a literal is true at level 0 or equals `~p`,
drop a literal that is false at level 0 or equals `p`, keep the rest. -/
def scanPs (s : St3) : List L3 → Option L3 → Option (List L3)
  | [], _ => some []
  | l :: rest, p =>
    if s.value l = some true ∨ some l = p.map L3.neg then none
    else if s.value l ≠ some false ∧ some l ≠ p then
      match scanPs s rest (some l) with
      | none => none
      | some qs => some (l :: qs)
    else scanPs s rest p

/-- Sort then scan: the full literal clean-up of `addClauseInt` before the
length dispatch. -/
def cleanPs (s : St3) (lits : List L3) : Option (List L3) :=
  scanPs s (sortL3 lits) none

/-- Modelled from the spec: the set of currently attached clauses as plain
literal lists (each binary and ternary clause appears once per watcher,
which is harmless for propagation). -/
def attachedClauses3 (s : St3) : List (List L3) :=
  s.binWatch.map (fun e => [e.1, e.2.1])
  ++ s.triWatch.map (fun e => [e.1, e.2.1, e.2.2.1])
  ++ (s.longIrredCls ++ s.longRedCls).map (fun i => (s.arena.getD i ⟨[], false⟩).lits)

/-- A clause is satisfied when some literal is true. -/
def clauseSat3 (s : St3) (c : List L3) : Bool :=
  c.any (fun l => s.value l = some true)

/-- The unassigned literals of a clause. -/
def unassignedLits3 (s : St3) (c : List L3) : List L3 :=
  c.filter (fun l => s.value l = none)

/-- First unit or conflicting attached clause: `some none` is a conflict,
`some (some l)` a unit literal to enqueue, `none` a fixpoint. -/
def firstUnitConfl3 (s : St3) : List (List L3) → Option (Option L3)
  | [] => none
  | c :: rest =>
    if clauseSat3 s c then firstUnitConfl3 s rest
    else
      match unassignedLits3 s c with
      | [] => some none
      | [l] => some (some l)
      | _ => firstUnitConfl3 s rest

/-- Modelled from the spec: `PropEngine::propagate` as fuel-bounded unit
propagation to fixpoint over the attached clauses; the Boolean is
`propagate().isNULL()`, i.e. `true` iff no conflict was found. -/
def propagate3Aux : Nat → St3 → Bool × St3
  | 0, s => (true, s)
  | fuel + 1, s =>
    match firstUnitConfl3 s (attachedClauses3 s) with
    | none => (true, s)
    | some none => (false, s)
    | some (some l) => propagate3Aux fuel (s.enqueue l)

def propagate3 (s : St3) : Bool × St3 := propagate3Aux (s.nv + 1) s

/-- Embedding of `Solver::addClauseInt` (source lines 157-242): sort and
clean the literals, give up (returning the C++ `NULL`, here `none`, with the
state untouched) on a satisfied or tautological clause, then dispatch on the
remaining length: 0 sets `ok := false`; 1 enqueues (and, when `attach`,
propagates, recording the conflict-freeness in `ok`); 2 and 3 go to the
binary/ternary watch index only; length ≥ 4 is stored in the arena, watched
(or counter-bumped) when requested.  The result is (arena offset of the new
long clause if any, final literals, new state). -/
def addClauseInt (s : St3) (lits : List L3) (learnt : Bool) (attach : Bool) :
    Option Nat × List L3 × St3 :=
  match cleanPs s lits with
  | none => (none, [], s)
  | some ps =>
    match ps with
    | [] => (none, [], { s with ok := false })
    | [l] =>
      let s1 := s.enqueue l
      if attach then
        let r := propagate3 s1
        (none, [l], { r.2 with ok := r.1 })
      else (none, [l], s1)
    | [l1, l2] => (none, [l1, l2], attachBinClause3 l1 l2 learnt s)
    | [l1, l2, l3] => (none, [l1, l2, l3], attachTriClause3 l1 l2 l3 learnt s)
    | _ =>
      let idx := s.arena.length
      let s1 := { s with arena := s.arena ++ [⟨ps, learnt⟩] }
      let s2 :=
        if attach then attachClause3 idx s1
        else if learnt then { s1 with redLits := s1.redLits + ps.length }
        else { s1 with irredLits := s1.irredLits + ps.length }
      (some idx, ps, s2)

/-- `ps[i] = varReplacer->getReplaceTable()[ps[i].var()] ^ ps[i].sign()`. -/
def St3.litReplace (s : St3) (l : L3) : L3 :=
  let r := s.replaceTable.getD l.v ⟨l.v, false⟩
  ⟨r.v, xor r.sgn l.sgn⟩

/-- One step of the randomising shuffle of `addClauseHelper`: swap position
`i` with position `r % (size - i) + i`. -/
def shuffleStep (ps : List L3) (i : Nat) (r : Nat) : List L3 :=
  let j := r % (ps.length - i) + i
  let a := ps.getD i ⟨0, false⟩
  let b := ps.getD j ⟨0, false⟩
  (ps.set i b).set j a

/-- The shuffle loop, consuming one pseudo-random number (modelled as a
stream) per position. -/
def shuffleAux : Nat → List L3 → Nat → List Nat → List L3 × List Nat
  | 0, ps, _, rs => (ps, rs)
  | k + 1, ps, i, rs => shuffleAux k (shuffleStep ps i (rs.headD 0)) (i + 1) rs.tail

/-- Embedding of `Solver::addClauseHelper` (source lines 350-385): when `ok`
is already false, return `false` at once with the state untouched; otherwise
map every literal through the variable-replacement table and shuffle the
clause, consuming the random stream. -/
def addClauseHelper (s : St3) (ps : List L3) : Bool × List L3 × St3 :=
  if !s.ok then (false, ps, s)
  else
    let ps1 := ps.map s.litReplace
    let r := shuffleAux ps1.length ps1 0 s.randS
    (true, r.1, { s with randS := r.2 })

/-- Embedding of `Solver::addClause` (source lines 395-415): run
`addClauseHelper` (returning `false` immediately when it fails), call
`addClauseInt` with attach, push the offset of a new long clause onto
`longIrredCls`, account the level-0 assignments, and return `ok`. -/
def addClause (s : St3) (lits : List L3) : Bool × St3 :=
  let origTrailSize := s.trail.length
  match addClauseHelper s lits with
  | (false, _, s1) => (false, s1)
  | (true, ps, s1) =>
    let r := addClauseInt s1 ps false true
    let s3 :=
      match r.1 with
      | some idx => { r.2.2 with longIrredCls := r.2.2.longIrredCls ++ [idx] }
      | none => r.2.2
    let s4 := { s3 with zeroLevAssignsByCNF :=
      s3.zeroLevAssignsByCNF + (s3.trail.length - origTrailSize) }
    (s4.ok, s4)

/-- The `while (status == l_Undef)` loop of `Solver::solve` (source lines
909-952), fuel-bounded; one `burst` call stands for the external
clean/search/reduce sequence of a loop body and `simplify` for
`simplifyProblem`, both outside this repository. -/
def solveLoop (simplify burst : St3 → LB3 × St3) : Nat → LB3 → St3 → LB3 × St3
  | 0, status, s => (status, s)
  | fuel + 1, status, s =>
    if status = LB3.undef then
      let r1 := burst s
      let r2 := if r1.1 = LB3.undef then simplify r1.2 else r1
      solveLoop simplify burst fuel r2.1 r2.2
    else (status, s)

/-- Embedding of `Solver::solve` (source lines 888-967): initialise the
clean limits and assumptions, short-circuit the status to `l_False` when
`ok` is false, otherwise simplify once (when there are variables) and run
the search loop; the solution-extension phase on `l_True` is external and
leaves the returned status unchanged. -/
def solve (simplify burst : St3 → LB3 × St3) (fuel : Nat)
    (s : St3) (assumps : Option (List L3)) : LB3 × St3 :=
  let s0 := { s with nextCleanLimitInc := s.startClean
                     nextCleanLimit := s.nextCleanLimit + s.startClean }
  let s1 : St3 :=
    match assumps with
    | some a => { s0 with assumptions := a }
    | none => s0
  let status : LB3 := if s1.ok then LB3.undef else LB3.f
  let r : LB3 × St3 :=
    if status = LB3.undef then
      if 0 < s1.nv then simplify s1 else (status, s1)
    else (status, s1)
  solveLoop simplify burst fuel r.1 r.2

/-- A one-variable solver state already marked unsatisfiable. -/
def exOkFalse : St3 := { mkSt3 1 with ok := false }

/-- Concrete inputs for the `addClauseInt` length dispatch: a fresh
five-variable state and an unsorted four-literal clause. -/
def exC6st : St3 := mkSt3 5

def exC6lits : List L3 := [⟨3, false⟩, ⟨1, false⟩, ⟨0, false⟩, ⟨2, false⟩]

def exC6qs : List L3 := [⟨0, false⟩, ⟨1, false⟩, ⟨2, false⟩, ⟨3, false⟩]

/-- The literal clean-up as the spec words it (reference definition for the
refinement claim about `addClauseInt`): after sorting and removing
level-0-false literals, drop every literal equal to the last kept one. -/
def dedupAdj : List L3 → Option L3 → List L3
  | [], _ => []
  | l :: rest, p =>
    if some l = p then dedupAdj rest p else l :: dedupAdj rest (some l)

/-- Spec-side final literal set: sort, remove level-0-false literals, remove
duplicate literals. -/
def specCleanLits (s : St3) (lits : List L3) : List L3 :=
  dedupAdj ((sortL3 lits).filter (fun l => decide (¬ s.value l = some false))) none

/-- Concrete inputs for the satisfied/tautology drop: a three-variable state
with variable 2 false at level 0 and a clause with a false literal and a
duplicate. -/
def exC10st : St3 := { mkSt3 3 with assigns := [none, none, some false] }

def exC10lits : List L3 := [⟨2, false⟩, ⟨1, false⟩, ⟨1, false⟩, ⟨0, false⟩]

/-- The integer printed for a literal in DIMACS output
(`operator<<(ostream, Lit)`): sign as minus, variable 1-based. -/
def litInt (l : L3) : Int :=
  if l.sgn then -(Int.ofNat (l.v + 1)) else Int.ofNat (l.v + 1)

/-- Embedding of `Solver::dumpBinClauses` (source lines 1565-1586): one line
per binary watcher entry whose watching literal is smaller than the stored
one (so each clause prints once), subject to the learnt filter; every line
is `lit1 lit 0`. -/
def dumpBinClauses (alsoLearnt alsoNonLearnt : Bool) (s : St3) : List (List Int) :=
  (s.binWatch.filter (fun e =>
      decide (L3.toNat e.1 < L3.toNat e.2.1)
        && (if e.2.2 then alsoLearnt else alsoNonLearnt))).map
    (fun e => [litInt e.2.1, litInt e.1, 0])

/-- The unitary section of `dumpIrredClauses` (source lines 1741-1743):
the level-0 prefix of the trail, each literal with a closing `0`. -/
def dumpUnitLines (s : St3) : List (List Int) :=
  (s.trail.take (match s.trailLim with | [] => s.trail.length | e :: _ => e)).map
    (fun l => [litInt l, 0])

/-- The equivalence (2-long XOR) section of `dumpIrredClauses` (source lines
1750-1759): for every variable replaced by another literal, the two binary
clauses are printed by `os << litP1 << " " << litP2 << endl` — with no
closing `0`. -/
def dumpEquivLines (s : St3) : List (List Int) :=
  ((List.range s.replaceTable.length).map (fun var =>
    let lit := s.replaceTable.getD var ⟨var, false⟩
    if lit.v = var then []
    else [[litInt lit.neg, litInt ⟨var, false⟩],
          [litInt lit.neg.neg, litInt (L3.neg ⟨var, false⟩)]])).join

/-- The normal-clauses section (source lines 1771-1779): each long
irredundant clause with a closing `0`. -/
def dumpLongLines (s : St3) : List (List Int) :=
  s.longIrredCls.map (fun i => ((s.arena.getD i ⟨[], false⟩).lits.map litInt) ++ [0])

/-- The previously-eliminated section (source lines 1785-1790): each blocked
clause with a closing `0`. -/
def dumpBlockedLines (s : St3) : List (List Int) :=
  s.blockedClauses.map (fun c => (c.map litInt) ++ [0])

/-- Embedding of `Solver::dumpIrredClauses` (source lines 1706-1792) as the
list of emitted clause lines, comment lines and the `p cnf` header omitted:
unit assignments, equivalence pairs, irredundant binary clauses, long
irredundant clauses, blocked clauses. -/
def dumpIrredClauses (s : St3) : List (List Int) :=
  dumpUnitLines s ++ dumpEquivLines s ++ dumpBinClauses false true s
    ++ dumpLongLines s ++ dumpBlockedLines s

/-- A two-variable state exercising every dump section: x1 replaced by x0,
a level-0 unit x0, one binary, one long and one blocked clause. -/
def exDump : St3 := { mkSt3 2 with
  replaceTable := [⟨0, false⟩, ⟨0, false⟩]
  trail := [⟨0, false⟩]
  assigns := [some true, none]
  binWatch := [(⟨0, false⟩, ⟨1, true⟩, false), (⟨1, true⟩, ⟨0, false⟩, false)]
  arena := [⟨[⟨0, false⟩, ⟨1, false⟩, ⟨0, true⟩, ⟨1, true⟩], false⟩]
  longIrredCls := [0]
  blockedClauses := [[⟨1, true⟩]] }

end CS3

/-! ## C7 — `FailedVarSearcher::search`: state backup and restore -/

namespace CS2

/-- The fields of the branching state that `search` promises to preserve:
activities, polarities, `var_inc`, the order heap, plus the (never written)
decision flags. -/
def S2.frameOk (s t : S2) : Prop :=
  t.activity = s.activity ∧ t.polarity = s.polarity ∧ t.varInc = s.varInc
  ∧ t.orderHeap = s.orderHeap ∧ t.decisionVar = s.decisionVar

/-- Heap invariant: every decision variable is a member of the order heap
(under it `insertVarOrder` never grows the heap). -/
def S2.heapH (s : S2) : Prop :=
  ∀ x, x < s.decisionVar.length → s.decisionVar.getD x false = true →
    x ∈ s.orderHeap

/-- Modelled from the spec: the 2.x `Solver::addClauseInt` clean-up — drop
literals false at level 0, give up on a clause with a true literal. -/
def cleanClause2 (s : S2) : List CLit → Option (List CLit)
  | [] => some []
  | l :: rest =>
    match s.value l with
    | some true => none
    | some false => cleanClause2 s rest
    | none => (cleanClause2 s rest).map (fun q => l :: q)

/-- Modelled from the spec: the 2.x `Solver::addClauseInt` (propagation
engine, not under `src/`) — clean the clause; empty → `ok := false`; unit →
enqueue and propagate at level 0, recording a conflict in `ok`; binary →
store in the binary list; longer → store in the clause list and return it. -/
def addClauseInt2 (s : S2) (c : List CLit) : Option (List CLit) × S2 :=
  match cleanClause2 s c with
  | none => (none, s)
  | some [] => (none, { s with ok := false })
  | some [l] =>
    let r := (s.enqueue l).propagate
    (none, { r.2 with ok := !r.1 })
  | some [l1, l2] => (none, { s with bins := s.bins ++ [(l1, l2)] })
  | some q => (some q, { s with clauses := s.clauses ++ [q] })

/-- The re-adding loop of `FailedVarSearcher::readdRemovedLearnts` (source
lines 376-405) in the `toRemove = 0` configuration (fewer stored learnts
than the cap): add each clause back, keep the pointer of each stored long
clause, stop adding once `ok` is false. -/
def readdLoop : S2 → List (List CLit) → List (List CLit) → List (List CLit) × S2
  | s, [], kept => (kept, s)
  | s, c :: rest, kept =>
    let r := addClauseInt2 s c
    let kept2 := match r.1 with | some cl => kept ++ [cl] | none => kept
    if r.2.ok then readdLoop r.2 rest kept2 else (kept2, r.2)

/-- Embedding of `FailedVarSearcher::readdRemovedLearnts`: run the loop over
the stored removed learnts and return `solver.ok`. -/
def readdRemovedLearnts (s : S2) : Bool × S2 :=
  let r := readdLoop s s.removedLearnts []
  (r.2.ok, { r.2 with removedLearnts := r.1 })

/-- Modelled from the spec: `order_heap.filter(Solver::VarFilter)` — keep
only unassigned decision variables. -/
def heapFilter (s : S2) : S2 :=
  let keep := fun v => (s.assigns.getD v none == none) && s.decisionVar.getD v false
  { s with orderHeap := s.orderHeap.filter keep }

/-- One round plus recursion of the sampling loop of
`FailedVarSearcher::orderLits` (source lines 322-359), fuel-bounded by the
source's `i < 1000000` counter: sample a random heap variable and a random
sign (consuming the random stream), skip assigned or non-decision variables,
probe the literal with binary-only propagation; on conflict backtrack,
enqueue the negation and fully propagate, failing when `ok` turns false;
otherwise count one binary degree per implied trail literal and backtrack. -/
def orderLitsLoop (oldProps : Nat) : Nat → S2 → Bool × S2
  | 0, s => (true, s)
  | fuel + 1, s =>
    if 500000 < s.props - oldProps then (true, s)
    else
      let r1 := s.randStream.headD 0
      let s0 := { s with randStream := s.randStream.tail }
      let var := s0.orderHeap.getD (r1 % s0.orderHeap.length) 0
      if !(s0.assigns.getD var none == none) || !(s0.decisionVar.getD var false) then
        orderLitsLoop oldProps fuel s0
      else
        let r2 := s0.randStream.headD 0
        let s1 := { s0 with randStream := s0.randStream.tail }
        let randLit : CLit := ⟨var, r2 % 2 = 1⟩
        let pb := ((s1.newDecisionLevel).enqueue randLit).propagateBin
        if pb.1 then
          let pr := ((pb.2.cancelUntil0).enqueue randLit.neg).propagate
          let s4 := { pr.2 with ok := !pr.1 }
          if !s4.ok then (false, s4)
          else orderLitsLoop oldProps fuel s4
        else
          let k := pb.2.trailLim.getD 0 0
          let seg := pb.2.trail.drop (k + 1)
          let deg := seg.foldl (fun d x => d.set x.idx (d.getD x.idx 0 + 1))
            pb.2.litDegrees
          let s3 := { pb.2 with litDegrees := deg }
          orderLitsLoop oldProps fuel s3.cancelUntil0

/-- Embedding of `FailedVarSearcher::orderLits`: run the sampling loop; on
normal completion restore the propagation counter (`solver.propagations =
oldProps`); the `return false` path restores nothing. -/
def orderLits (s : S2) : Bool × S2 :=
  match orderLitsLoop s.props 1000000 s with
  | (false, s1) => (false, s1)
  | (true, s1) => (true, { s1 with props := s.props })

/-- The main probing loop of `search` (source lines 197-208), fuel = number
of remaining variables: for each unassigned decision variable, stop once the
propagation budget is spent (recording where to resume), otherwise probe
both polarities with `tryBoth` and jump to the end block when it fails. -/
def searchLoop (origProps numProps : Nat) : Nat → Nat → S2 → S2
  | 0, _, s => s
  | fuel + 1, var, s =>
    if (s.assigns.getD var none == none) && s.decisionVar.getD var false then
      if numProps ≤ s.props - origProps then
        { s with finishedLastTimeVar := false, lastTimeWentUntilVar := var }
      else
        let r := s.tryBoth ⟨var, false⟩ ⟨var, true⟩
        if r.1 then searchLoop origProps numProps fuel (var + 1) r.2
        else r.2
    else searchLoop origProps numProps fuel (var + 1) s

/-- The `end:` block of `search` (source lines 253-289): filter the order
heap, run the clean-ups (`ClauseCleaner::removeAndCleanAll`,
`completelyDetachAndReattach` and `removeOldLearnts` reattach through
external modules and are taken as parameters), set `lastTimeFoundTruths`,
then restore `var_inc`, the activities, the order heap and the polarities
from the entry backups and filter the restored heap. -/
def searchEnd (removeAndCleanAll detachReattach removeOldLearntsFn : S2 → S2)
    (origHeapSize origTrailSize : Nat) (backupHeap : List Nat)
    (backupPol : List Bool) (backupAct : List Nat) (backupVarInc : Nat)
    (s : S2) : Bool × S2 :=
  let s1 := heapFilter s
  let big := decide (s1.orderHeap.length + origHeapSize / 15 < origHeapSize)
    && decide (500000 < s1.clauses.length)
  let s2 := if s1.ok && (decide (s1.numFailed ≠ 0) || decide (s1.goodBothSame ≠ 0))
    then (if big then detachReattach s1 else removeAndCleanAll s1) else s1
  let removedOld := s1.ok
    && (decide (s1.numFailed ≠ 0) || decide (s1.goodBothSame ≠ 0)) && big
  let s3 := if s2.ok && s2.readdOldLearnts && !removedOld
    then removeOldLearntsFn s2 else s2
  let s4 := { s3 with lastTimeFoundTruths := s3.trail.length - origTrailSize }
  let s5 := { s4 with varInc := backupVarInc
                      activity := backupAct
                      orderHeap := backupHeap
                      polarity := backupPol }
  let s6 := heapFilter s5
  (s6.ok, s6)

/-- The re-add step at the top of `search` (source line 141): when
`readdOldLearnts` is configured, re-add the removed learnts (the `false`
result jumps to the end block). -/
def searchPre (s : S2) : Bool × S2 :=
  if s.readdOldLearnts then readdRemovedLearnts s else (true, s)

/-- The statistics reset and `numPropsMultiplier` update of `search`
(source lines 143-148). -/
def searchMid (s : S2) : S2 :=
  let sB := { s with numFailed := 0, goodBothSame := 0 }
  let m2 := updateNumPropsMultiplier sB.lastTimeFoundTruths
    sB.orderHeap.length sB.numPropsMultiplier
  { sB with numPropsMultiplier := m2 }

/-- The resume-point bookkeeping, main probing loop and end block of
`search` (source lines 186-289). -/
def searchMain (removeAndCleanAll detachReattach removeOldLearntsFn : S2 → S2)
    (numProps2 origHeapSize origTrailSize origProps : Nat) (bH : List Nat)
    (bP : List Bool) (bA : List Nat) (bV : Nat) (sD : S2) : Bool × S2 :=
  let fromVar :=
    if sD.finishedLastTimeVar || sD.numVars ≤ sD.lastTimeWentUntilVar then 0
    else sD.lastTimeWentUntilVar
  let sE := { sD with finishedLastTimeVar := true
                      lastTimeWentUntilVar := sD.numVars }
  searchEnd removeAndCleanAll detachReattach removeOldLearntsFn
    origHeapSize origTrailSize bH bP bA bV
    (searchLoop origProps numProps2 (sE.numVars - fromVar) fromVar sE)

/-- Embedding of `FailedVarSearcher::search` (source lines 124-290) in the
configuration `binXorFind = false` (the XOR side channel and its clause
cleaning are disabled, as for `tryBoth`); the external clean-up routines are
function parameters.  Back up the order heap, polarities, activities and
`var_inc`; re-add the removed learnts when configured (jumping to the end
block on failure); reset the statistics and update the propagation budget;
when `addExtraBins` is set run `orderLits`, returning `false` directly —
without the end block — when it fails; then run the main probing loop and
the end block. -/
def search (removeAndCleanAll detachReattach removeOldLearntsFn : S2 → S2)
    (numProps : Nat) (s : S2) : Bool × S2 :=
  let rd := searchPre s
  if !rd.1 then
    searchEnd removeAndCleanAll detachReattach removeOldLearntsFn
      s.orderHeap.length rd.2.trail.length s.orderHeap s.polarity s.activity
      s.varInc rd.2
  else
    let sC := searchMid rd.2
    let numProps2 := scaledNumProps numProps sC.numPropsMultiplier
    match (if sC.addExtraBins then orderLits sC else (true, sC)) with
    | (false, sD) => (false, sD)
    | (true, sD) =>
      searchMain removeAndCleanAll detachReattach removeOldLearntsFn
        numProps2 s.orderHeap.length sC.trail.length sC.props s.orderHeap
        s.polarity s.activity s.varInc sD

end CS2

/-! ## Theorems

Everything below this point is a theorem; all definitions are above. -/

namespace CS2

theorem CLit.neg_v (l : CLit) : l.neg.v = l.v := rfl

theorem CLit.neg_sgn (l : CLit) : l.neg.sgn = (!l.sgn) := rfl

theorem CLit.neg_neg (l : CLit) : l.neg.neg = l := by
  cases l with
  | mk v s => simp [CLit.neg]

theorem listGetD_set_ne {α : Type} (l : List α) (i j : Nat) (a d : α) (h : i ≠ j) :
    (l.set i a).getD j d = l.getD j d := by
  unfold List.getD
  rw [List.get?_set_ne a l h]

theorem listGetD_set_self {α : Type} (l : List α) (i : Nat) (a d : α)
    (h : i < l.length) :
    (l.set i a).getD i d = a := by
  unfold List.getD
  rw [List.get?_set_eq_of_lt a h]
  rfl

theorem listGetD_oob {α : Type} (l : List α) (i : Nat) (d : α) (h : l.length ≤ i) :
    l.getD i d = d :=
  List.getD_eq_default l d h

theorem value_none_iff (s : S2) (l : CLit) :
    s.value l = none ↔ s.assigns.getD l.v none = none := by
  unfold S2.value
  cases h : s.assigns.getD l.v none <;> simp

theorem value_some_of_assigns (s : S2) (l : CLit) (b : Bool)
    (h : s.assigns.getD l.v none = some b) :
    s.value l = some (xor b l.sgn) := by
  unfold S2.value
  rw [h]

theorem clauseStatus_unit_value (s : S2) (cl : List CLit) (l : CLit)
    (h : clauseStatus s cl = .unit l) : s.value l = none := by
  unfold clauseStatus at h
  split at h
  · exact absurd h (by simp)
  · split at h
    · exact absurd h (by simp)
    · rename_i a hf
      have hla : a = l := by simpa using h
      have ha : a ∈ cl.filter (fun l => s.value l = none) := by
        rw [hf]; exact List.mem_singleton_self a
      have := List.of_mem_filter ha
      rw [← hla]
      simpa using this
    · exact absurd h (by simp)

theorem clauseStatus_unit_mem (s : S2) (cl : List CLit) (l : CLit)
    (h : clauseStatus s cl = .unit l) : l ∈ cl := by
  unfold clauseStatus at h
  split at h
  · exact absurd h (by simp)
  · split at h
    · exact absurd h (by simp)
    · rename_i a hf
      have hla : a = l := by simpa using h
      have ha : a ∈ cl.filter (fun l => s.value l = none) := by
        rw [hf]; exact List.mem_singleton_self a
      rw [← hla]
      exact List.mem_of_mem_filter ha
    · exact absurd h (by simp)

theorem firstUnitConfl_unit_value (s : S2) (l : CLit) :
    ∀ cls : List (List CLit), firstUnitConfl s cls = some (.unit l) →
      s.value l = none := by
  intro cls
  induction cls with
  | nil => intro h; exact absurd h (by simp [firstUnitConfl])
  | cons c rest ih =>
    intro h
    unfold firstUnitConfl at h
    cases hc : clauseStatus s c with
    | confl => rw [hc] at h; exact absurd h (by simp)
    | unit m =>
      rw [hc] at h
      simp at h
      rw [← h]
      exact clauseStatus_unit_value s c m hc
    | sat => rw [hc] at h; exact ih h
    | unres => rw [hc] at h; exact ih h

theorem firstUnitConfl_unit_mem (s : S2) (l : CLit) :
    ∀ cls : List (List CLit), firstUnitConfl s cls = some (.unit l) →
      ∃ cl ∈ cls, l ∈ cl := by
  intro cls
  induction cls with
  | nil => intro h; exact absurd h (by simp [firstUnitConfl])
  | cons c rest ih =>
    intro h
    unfold firstUnitConfl at h
    cases hc : clauseStatus s c with
    | confl => rw [hc] at h; exact absurd h (by simp)
    | unit m =>
      rw [hc] at h
      simp at h
      exact ⟨c, List.mem_cons_self c rest, h ▸ clauseStatus_unit_mem s c m hc⟩
    | sat =>
      rw [hc] at h
      obtain ⟨cl, hcl, hl⟩ := ih h
      exact ⟨cl, List.mem_cons_of_mem c hcl, hl⟩
    | unres =>
      rw [hc] at h
      obtain ⟨cl, hcl, hl⟩ := ih h
      exact ⟨cl, List.mem_cons_of_mem c hcl, hl⟩

theorem propagateAux_frame (g : S2 → List (List CLit)) :
    ∀ (fuel : Nat) (s : S2),
      (propagateAux g fuel s).2.numVars = s.numVars ∧
      (propagateAux g fuel s).2.trailLim = s.trailLim ∧
      (propagateAux g fuel s).2.numFailed = s.numFailed ∧
      (propagateAux g fuel s).2.ok = s.ok ∧
      (propagateAux g fuel s).2.clauses = s.clauses ∧
      (propagateAux g fuel s).2.bins = s.bins ∧
      (propagateAux g fuel s).2.activity = s.activity ∧
      (propagateAux g fuel s).2.polarity = s.polarity ∧
      (propagateAux g fuel s).2.varInc = s.varInc ∧
      (propagateAux g fuel s).2.orderHeap = s.orderHeap ∧
      (propagateAux g fuel s).2.decisionVar = s.decisionVar ∧
      (propagateAux g fuel s).2.goodBothSame = s.goodBothSame ∧
      (propagateAux g fuel s).2.replaceQueue = s.replaceQueue ∧
      (propagateAux g fuel s).2.assigns.length = s.assigns.length := by
  intro fuel
  induction fuel with
  | zero => intro s; simp [propagateAux]
  | succ fuel ih =>
    intro s
    unfold propagateAux
    cases hc : firstUnitConfl s (g s) with
    | none => simp
    | some st =>
      cases st with
      | confl => simp
      | sat => simp
      | unres => simp
      | unit l =>
        simp only
        have h2 := ih (s.enqueue l)
        simp only [S2.enqueue, List.length_set] at h2
        exact h2

theorem propagateAux_mono (g : S2 → List (List CLit)) :
    ∀ (fuel : Nat) (s : S2) (x : Nat) (b : Bool),
      s.assigns.getD x none = some b →
      (propagateAux g fuel s).2.assigns.getD x none = some b := by
  intro fuel
  induction fuel with
  | zero => intro s x b h; simpa [propagateAux] using h
  | succ fuel ih =>
    intro s x b h
    unfold propagateAux
    cases hc : firstUnitConfl s (g s) with
    | none => simpa using h
    | some st =>
      cases st with
      | confl => simpa using h
      | sat => simpa using h
      | unres => simpa using h
      | unit l =>
        simp only
        apply ih
        have hval := firstUnitConfl_unit_value s l (g s) hc
        have hnone := (value_none_iff s l).mp hval
        have hne : l.v ≠ x := by
          intro heq
          rw [heq] at hnone
          rw [hnone] at h
          exact absurd h (by simp)
        simp only [S2.enqueue]
        rw [listGetD_set_ne _ _ _ _ _ hne]
        exact h

theorem propagateAux_trail_prefix (g : S2 → List (List CLit)) :
    ∀ (fuel : Nat) (s : S2),
      ∃ ext, (propagateAux g fuel s).2.trail = s.trail ++ ext := by
  intro fuel
  induction fuel with
  | zero => intro s; exact ⟨[], by simp [propagateAux]⟩
  | succ fuel ih =>
    intro s
    unfold propagateAux
    cases hc : firstUnitConfl s (g s) with
    | none => exact ⟨[], by simp⟩
    | some st =>
      cases st with
      | confl => exact ⟨[], by simp⟩
      | sat => exact ⟨[], by simp⟩
      | unres => exact ⟨[], by simp⟩
      | unit l =>
        obtain ⟨ext, hext⟩ := ih (s.enqueue l)
        refine ⟨[l] ++ ext, ?_⟩
        simp only
        rw [hext]
        simp [S2.enqueue]

theorem wfp_newDecisionLevel (s : S2) (h : s.WFp) : s.newDecisionLevel.WFp := by
  obtain ⟨h1, h2, h3, h4⟩ := h
  exact ⟨h1, h2, h3, h4⟩

theorem wfp_enqueue (s : S2) (l : CLit) (h : s.WFp)
    (hnone : s.assigns.getD l.v none = none) (hlt : l.v < s.numVars) :
    (s.enqueue l).WFp := by
  obtain ⟨h1, h2, h3, h4⟩ := h
  refine ⟨?_, ?_, ?_, ?_⟩
  · simp [S2.enqueue, h1]
  · intro m hm
    simp only [S2.enqueue, List.mem_append, List.mem_singleton] at hm
    rcases hm with hm | hm
    · obtain ⟨hma, hmb⟩ := h2 m hm
      have hne : l.v ≠ m.v := by
        intro he
        rw [← he] at hmb
        rw [hnone] at hmb
        cases hmb
      refine ⟨hma, ?_⟩
      show (s.assigns.set l.v (some (!l.sgn))).getD m.v none = some (!m.sgn)
      rw [listGetD_set_ne _ _ _ _ _ hne]
      exact hmb
    · rw [hm]
      refine ⟨hlt, ?_⟩
      show (s.assigns.set l.v (some (!l.sgn))).getD l.v none = some (!l.sgn)
      rw [listGetD_set_self]
      rw [h1]
      exact hlt
  · have hnotmem : l.v ∉ s.trail.map CLit.v := by
      intro hmem
      obtain ⟨m, hm, hmv⟩ := List.mem_map.mp hmem
      obtain ⟨_, hmb⟩ := h2 m hm
      rw [hmv] at hmb
      rw [hnone] at hmb
      cases hmb
    show ((s.trail ++ [l]).map CLit.v).Nodup
    rw [List.map_append]
    refine List.Nodup.append h3 (List.nodup_singleton _) ?_
    intro a ha hb
    simp only [List.map_cons, List.map_nil, List.mem_singleton] at hb
    rw [hb] at ha
    exact hnotmem ha
  · intro cl hcl m hm
    exact h4 cl hcl m hm

theorem propagateAux_wfp (g : S2 → List (List CLit))
    (hg : ∀ (t : S2) (cl : List CLit), cl ∈ g t → cl ∈ t.allClauses) :
    ∀ (fuel : Nat) (s : S2), s.WFp → (propagateAux g fuel s).2.WFp := by
  intro fuel
  induction fuel with
  | zero => intro s h; simpa [propagateAux] using h
  | succ fuel ih =>
    intro s h
    unfold propagateAux
    cases hc : firstUnitConfl s (g s) with
    | none => simpa using h
    | some st =>
      cases st with
      | confl => simpa using h
      | sat => simpa using h
      | unres => simpa using h
      | unit l =>
        simp only
        apply ih
        have hval := firstUnitConfl_unit_value s l (g s) hc
        have hnone := (value_none_iff s l).mp hval
        obtain ⟨cl, hcl, hl⟩ := firstUnitConfl_unit_mem s l (g s) hc
        have hrange := h.2.2.2 cl (hg s cl hcl) l hl
        exact wfp_enqueue s l h hnone hrange

theorem count_none_set_some :
    ∀ (xs : List (Option Bool)) (i : Nat) (b : Bool),
      i < xs.length → xs.getD i none = none →
      (xs.set i (some b)).count none + 1 = xs.count none := by
  intro xs
  induction xs with
  | nil => intro i b h; simp at h
  | cons x t ih =>
    intro i b hlt hget
    cases i with
    | zero =>
      have hx : x = none := by simpa using hget
      subst hx
      simp [List.count_cons]
    | succ j =>
      have hlt' : j < t.length := by simpa using hlt
      have hget' : t.getD j none = none := by simpa using hget
      have hrec := ih j b hlt' hget'
      simp only [List.set_cons_succ, List.count_cons]
      by_cases hx : x = none
      · simp [hx]
        omega
      · simp [hx]
        omega

theorem firstUnitConfl_cases (s : S2) :
    ∀ cls : List (List CLit),
      firstUnitConfl s cls = none ∨ firstUnitConfl s cls = some .confl ∨
        ∃ l, firstUnitConfl s cls = some (.unit l) := by
  intro cls
  induction cls with
  | nil => exact Or.inl rfl
  | cons c rest ih =>
    unfold firstUnitConfl
    cases hc : clauseStatus s c with
    | confl => exact Or.inr (Or.inl rfl)
    | unit l => exact Or.inr (Or.inr ⟨l, rfl⟩)
    | sat => exact ih
    | unres => exact ih

theorem propagateAux_fixpoint :
    ∀ (fuel : Nat) (s : S2), s.WFp → s.undefCount < fuel →
      (propagateAux S2.allClauses fuel s).1 = false →
      (propagateAux S2.allClauses fuel s).2.NoUnit := by
  intro fuel
  induction fuel with
  | zero => intro s _ h; exact absurd h (Nat.not_lt_zero _)
  | succ fuel ih =>
    intro s hwf hcnt hfl
    unfold propagateAux at hfl ⊢
    cases hc : firstUnitConfl s s.allClauses with
    | none =>
      simp only [hc]
      exact hc
    | some st =>
      cases st with
      | confl =>
        rw [hc] at hfl
        simp at hfl
      | sat =>
        rcases firstUnitConfl_cases s s.allClauses with h | h | ⟨m, h⟩ <;>
          rw [h] at hc <;> cases hc
      | unres =>
        rcases firstUnitConfl_cases s s.allClauses with h | h | ⟨m, h⟩ <;>
          rw [h] at hc <;> cases hc
      | unit l =>
        rw [hc] at hfl
        simp only [hc]
        have hval := firstUnitConfl_unit_value s l s.allClauses hc
        have hnone := (value_none_iff s l).mp hval
        obtain ⟨cl, hcl, hl⟩ := firstUnitConfl_unit_mem s l s.allClauses hc
        have hrange := hwf.2.2.2 cl hcl l hl
        have hltlen : l.v < s.assigns.length := by
          rw [hwf.1]
          exact hrange
        have hcount := count_none_set_some s.assigns l.v (!l.sgn) hltlen hnone
        have hcnt' : (s.enqueue l).undefCount < fuel := by
          have hb : s.undefCount = s.assigns.count none := rfl
          have ha : (s.enqueue l).undefCount
              = (s.assigns.set l.v (some (!l.sgn))).count none := rfl
          omega
        exact ih (s.enqueue l) (wfp_enqueue s l hwf hnone hrange) hcnt' hfl

theorem cancelStep_core (s : S2) (l : CLit) : (S2.cancelStep s l).core = s.core := by
  unfold S2.cancelStep S2.insertVarOrder
  split <;> simp [S2.core]

theorem cancelFold_core :
    ∀ (L : List CLit) (s : S2), (L.foldl S2.cancelStep s).core = s.core := by
  intro L
  induction L with
  | nil => intro s; rfl
  | cons l t ih =>
    intro s
    rw [List.foldl_cons, ih, cancelStep_core]

theorem cancelUntil0_fields (s : S2) (k : Nat) (tl : List Nat)
    (h : s.trailLim = k :: tl) :
    (s.cancelUntil0).trail = s.trail.take k ∧
    (s.cancelUntil0).trailLim = [] ∧
    (s.cancelUntil0).numVars = s.numVars ∧
    (s.cancelUntil0).ok = s.ok ∧
    (s.cancelUntil0).clauses = s.clauses ∧
    (s.cancelUntil0).bins = s.bins ∧
    (s.cancelUntil0).numFailed = s.numFailed ∧
    (s.cancelUntil0).goodBothSame = s.goodBothSame ∧
    (s.cancelUntil0).replaceQueue = s.replaceQueue ∧
    (s.cancelUntil0).props = s.props ∧
    (s.cancelUntil0).activity = s.activity ∧
    (s.cancelUntil0).polarity = s.polarity ∧
    (s.cancelUntil0).varInc = s.varInc ∧
    (s.cancelUntil0).decisionVar = s.decisionVar ∧
    (s.cancelUntil0).assigns.length = s.assigns.length := by
  have hcore := cancelFold_core (s.trail.drop k) s
  simp only [S2.core, Prod.mk.injEq] at hcore
  obtain ⟨c1, c2, c3, c4, c5, c6, c7, c8, c9, c10, c11, c12, c13, c14, c15⟩ := hcore
  unfold S2.cancelUntil0
  rw [h]
  exact ⟨rfl, rfl, c1, c2, c4, c5, c8, c9, c10, c3, c11, c12, c13, c14, c15⟩

theorem cancelFold_assigns_getD :
    ∀ (L : List CLit) (s : S2) (y : Nat),
      (L.foldl S2.cancelStep s).assigns.getD y none
        = if y ∈ L.map CLit.v then none else s.assigns.getD y none := by
  intro L
  induction L with
  | nil => intro s y; simp
  | cons l t ih =>
    intro s y
    rw [List.foldl_cons, ih]
    have hstep : (S2.cancelStep s l).assigns = s.assigns.set l.v none := by
      unfold S2.cancelStep S2.insertVarOrder
      split <;> rfl
    by_cases hmem : y ∈ t.map CLit.v
    · rw [if_pos hmem, if_pos (by simp [List.map_cons, hmem])]
    · rw [if_neg hmem]
      by_cases hy : l.v = y
      · rw [if_pos (by rw [List.map_cons]; rw [← hy]; exact List.mem_cons_self _ _)]
        rw [hstep, ← hy]
        by_cases hlen : l.v < s.assigns.length
        · exact listGetD_set_self _ _ _ _ hlen
        · rw [listGetD_oob _ _ _ (by rw [List.length_set]; omega)]
      · rw [if_neg (by
          rw [List.map_cons]
          simp only [List.mem_cons]
          push_neg
          exact ⟨fun he => hy he.symm, hmem⟩)]
        rw [hstep]
        exact listGetD_set_ne _ _ _ _ _ hy

theorem cancelUntil0_assigns_getD (s : S2) (k : Nat) (tl : List Nat)
    (h : s.trailLim = k :: tl) (y : Nat) :
    (s.cancelUntil0).assigns.getD y none
      = if y ∈ (s.trail.drop k).map CLit.v then none
        else s.assigns.getD y none := by
  unfold S2.cancelUntil0
  simp only [h]
  exact cancelFold_assigns_getD (s.trail.drop k) s y

theorem wfp_cancelUntil0 (s : S2) (h : s.WFp) : (s.cancelUntil0).WFp := by
  cases htl : s.trailLim with
  | nil =>
    unfold S2.cancelUntil0
    simp only [htl]
    exact h
  | cons k tl =>
    obtain ⟨h1, h2, h3, h4⟩ := h
    obtain ⟨f1, f2, f3, f4, f5, f6, f7, f8, f9, f10, f11, f12, f13, f14, f15⟩ :=
      cancelUntil0_fields s k tl htl
    have hsplit : s.trail.map CLit.v
        = (s.trail.take k).map CLit.v ++ (s.trail.drop k).map CLit.v := by
      rw [← List.map_append, List.take_append_drop]
    have hnd := h3
    rw [hsplit] at hnd
    have hdisj := List.disjoint_of_nodup_append hnd
    have hall : (s.cancelUntil0).allClauses = s.allClauses := by
      unfold S2.allClauses
      rw [f5, f6]
    refine ⟨?_, ?_, ?_, ?_⟩
    · rw [f15, f3, h1]
    · intro m hm
      rw [f1] at hm
      have hmem : m ∈ s.trail := List.take_subset k s.trail hm
      obtain ⟨hma, hmb⟩ := h2 m hmem
      refine ⟨by rw [f3]; exact hma, ?_⟩
      rw [cancelUntil0_assigns_getD s k tl htl m.v]
      rw [if_neg ?_]
      · exact hmb
      · intro hmd
        exact hdisj (List.mem_map_of_mem CLit.v hm) hmd
    · rw [f1]
      exact List.Nodup.sublist (List.Sublist.map CLit.v (List.take_sublist k s.trail)) h3
    · intro cl hcl m hm
      rw [hall] at hcl
      rw [f3]
      exact h4 cl hcl m hm

theorem foldSet_getD (f : Nat → Bool) :
    ∀ (L : List CLit) (acc : List Bool) (y : Nat),
      (L.foldl (fun a l => a.set l.v (f l.v)) acc).getD y false
        = if y ∈ L.map CLit.v ∧ y < acc.length then f y
          else acc.getD y false := by
  intro L
  induction L with
  | nil => intro acc y; simp
  | cons l t ih =>
    intro acc y
    rw [List.foldl_cons, ih, List.length_set]
    by_cases hmem : y ∈ t.map CLit.v
    · by_cases hlen : y < acc.length
      · rw [if_pos ⟨hmem, hlen⟩, if_pos ⟨by simp [List.map_cons, hmem], hlen⟩]
      · rw [if_neg (fun hh => hlen hh.2), if_neg (fun hh => hlen hh.2)]
        rw [listGetD_oob _ _ _ (by rw [List.length_set]; omega),
            listGetD_oob _ _ _ (by omega)]
    · rw [if_neg (fun hh => hmem hh.1)]
      by_cases hy : l.v = y
      · by_cases hlen : y < acc.length
        · rw [if_pos ⟨by rw [List.map_cons]; rw [← hy]; exact List.mem_cons_self _ _, hlen⟩]
          rw [← hy]
          rw [← hy] at hlen
          exact listGetD_set_self _ _ _ _ hlen
        · rw [if_neg (fun hh => hlen hh.2)]
          rw [listGetD_oob _ _ _ (by rw [List.length_set]; omega),
              listGetD_oob _ _ _ (by omega)]
      · rw [if_neg (by
          intro hh
          rcases hh with ⟨hin, _⟩
          rw [List.map_cons] at hin
          rcases List.mem_cons.mp hin with he | ht
          · exact hy he.symm
          · exact hmem ht)]
        rw [listGetD_set_ne _ _ _ _ _ hy]

theorem propagate_numVars (s : S2) : (s.propagate).2.numVars = s.numVars :=
  (propagateAux_frame S2.allClauses (s.numVars + 1) s).1

theorem propagate_trailLim (s : S2) : (s.propagate).2.trailLim = s.trailLim :=
  (propagateAux_frame S2.allClauses (s.numVars + 1) s).2.1

theorem propagate_numFailed (s : S2) : (s.propagate).2.numFailed = s.numFailed :=
  (propagateAux_frame S2.allClauses (s.numVars + 1) s).2.2.1

theorem propagate_assigns_length (s : S2) :
    (s.propagate).2.assigns.length = s.assigns.length := by
  obtain ⟨a1, a2, a3, a4, a5, a6, a7, a8, a9, a10, a11, a12, a13, a14⟩ :=
    propagateAux_frame S2.allClauses (s.numVars + 1) s
  exact a14

theorem propagate_mono (s : S2) (x : Nat) (b : Bool)
    (h : s.assigns.getD x none = some b) :
    (s.propagate).2.assigns.getD x none = some b :=
  propagateAux_mono S2.allClauses (s.numVars + 1) s x b h

theorem append_singleton_cons {α : Type} (xs : List α) (n : α) :
    ∃ k tl, xs ++ [n] = k :: tl := by
  cases xs with
  | nil => exact ⟨n, [], rfl⟩
  | cons a t => exact ⟨a, t ++ [n], by simp⟩

theorem tryBoth_eq_fail1 (s0 : S2) (lit1 lit2 : CLit)
    (hfail : (((s0.newDecisionLevel).enqueue lit1).propagate).1 = true) :
    s0.tryBoth lit1 lit2
      = tryBothFailStep (((s0.newDecisionLevel).enqueue lit1).propagate).2 lit1 := by
  unfold S2.tryBoth
  rw [if_pos hfail]

theorem tryBoth_eq_fail2 (s0 : S2) (lit1 lit2 : CLit)
    (hok1 : (((s0.newDecisionLevel).enqueue lit1).propagate).1 = false)
    (hfail :
      (((((((s0.newDecisionLevel).enqueue lit1).propagate).2.cancelUntil0).newDecisionLevel).enqueue
          lit2).propagate).1 = true) :
    s0.tryBoth lit1 lit2
      = tryBothFailStep
          (((((((s0.newDecisionLevel).enqueue lit1).propagate).2.cancelUntil0).newDecisionLevel).enqueue
              lit2).propagate).2 lit2 := by
  unfold S2.tryBoth
  rw [if_neg (by rw [hok1]; exact Bool.false_ne_true)]
  rw [if_pos hfail]

theorem tryBoth_eq_success (s0 : S2) (lit1 lit2 : CLit)
    (hok1 : (((s0.newDecisionLevel).enqueue lit1).propagate).1 = false)
    (hok2 :
      (((((((s0.newDecisionLevel).enqueue lit1).propagate).2.cancelUntil0).newDecisionLevel).enqueue
          lit2).propagate).1 = false) :
    s0.tryBoth lit1 lit2
      = tryBothSuccessEnd
          (((((((s0.newDecisionLevel).enqueue lit1).propagate).2.cancelUntil0).newDecisionLevel).enqueue
              lit2).propagate).2 lit1 lit2
          (((((s0.newDecisionLevel).enqueue lit1).propagate).2.trail.drop
              ((((s0.newDecisionLevel).enqueue lit1).propagate).2.trailLim.getD 0 0)).foldl
            (fun a l => a.set l.v true) (List.replicate s0.numVars false))
          (((((s0.newDecisionLevel).enqueue lit1).propagate).2.trail.drop
              ((((s0.newDecisionLevel).enqueue lit1).propagate).2.trailLim.getD 0 0)).foldl
            (fun a l =>
              a.set l.v
                (((((s0.newDecisionLevel).enqueue lit1).propagate).2.assigns.getD l.v
                      none).getD false))
            (List.replicate s0.numVars false)) := by
  unfold S2.tryBoth
  rw [if_neg (by rw [hok1]; exact Bool.false_ne_true)]
  rw [if_neg (by rw [hok2]; exact Bool.false_ne_true)]

theorem tryBothFailStep_spec (s1 : S2) (l : CLit)
    (hv : l.v < s1.assigns.length) (k : Nat) (tl : List Nat)
    (hk : s1.trailLim = k :: tl) :
    (tryBothFailStep s1 l).2.ok = (tryBothFailStep s1 l).1
    ∧ (tryBothFailStep s1 l).1
        = !((({ s1.cancelUntil0 with
                  numFailed := s1.cancelUntil0.numFailed + 1 }).enqueue l.neg).propagate).1
    ∧ (tryBothFailStep s1 l).2.assigns.getD l.v none = some l.sgn
    ∧ (tryBothFailStep s1 l).2.numFailed = s1.numFailed + 1
    ∧ (tryBothFailStep s1 l).2.trailLim = [] := by
  obtain ⟨f1, f2, f3, f4, f5, f6, f7, f8, f9, f10, f11, f12, f13, f14, f15⟩ :=
    cancelUntil0_fields s1 k tl hk
  refine ⟨rfl, rfl, ?_, ?_, ?_⟩
  · show ((({ s1.cancelUntil0 with
        numFailed := s1.cancelUntil0.numFailed + 1 }).enqueue l.neg).propagate).2.assigns.getD
          l.v none = some l.sgn
    apply propagate_mono
    show ((s1.cancelUntil0.assigns).set l.neg.v (some (!l.neg.sgn))).getD l.v none
        = some l.sgn
    rw [CLit.neg_v, CLit.neg_sgn, Bool.not_not]
    rw [listGetD_set_self]
    rw [f15]
    exact hv
  · show ((({ s1.cancelUntil0 with
        numFailed := s1.cancelUntil0.numFailed + 1 }).enqueue l.neg).propagate).2.numFailed
          = s1.numFailed + 1
    rw [propagate_numFailed]
    show s1.cancelUntil0.numFailed + 1 = s1.numFailed + 1
    rw [f7]
  · show ((({ s1.cancelUntil0 with
        numFailed := s1.cancelUntil0.numFailed + 1 }).enqueue l.neg).propagate).2.trailLim
          = []
    rw [propagate_trailLim]
    show s1.cancelUntil0.trailLim = []
    exact f2

theorem probe1_trailLim_cons (s : S2) (lit1 : CLit) :
    ∃ k tl,
      (((s.newDecisionLevel).enqueue lit1).propagate).2.trailLim = k :: tl := by
  obtain ⟨k, tl, h⟩ := append_singleton_cons s.trailLim s.trail.length
  refine ⟨k, tl, ?_⟩
  rw [propagate_trailLim]
  exact h

theorem probe1_assigns_length (s : S2) (lit1 : CLit) :
    (((s.newDecisionLevel).enqueue lit1).propagate).2.assigns.length
      = s.assigns.length := by
  rw [propagate_assigns_length]
  exact List.length_set s.assigns _ _

theorem propagateAux_new_on_trail (g : S2 → List (List CLit)) :
    ∀ (fuel : Nat) (s : S2) (x : Nat) (b : Bool),
      s.assigns.getD x none = none →
      (propagateAux g fuel s).2.assigns.getD x none = some b →
      ∃ ext, (propagateAux g fuel s).2.trail = s.trail ++ ext
        ∧ (CLit.mk x (!b)) ∈ ext := by
  intro fuel
  induction fuel with
  | zero =>
    intro s x b h0 h1
    simp only [propagateAux] at h1
    rw [h0] at h1
    cases h1
  | succ fuel ih =>
    intro s x b h0 h1
    unfold propagateAux at h1 ⊢
    cases hc : firstUnitConfl s (g s) with
    | none =>
      rw [hc] at h1
      simp only at h1
      rw [h0] at h1
      cases h1
    | some st =>
      cases st with
      | confl =>
        rw [hc] at h1
        simp only at h1
        rw [h0] at h1
        cases h1
      | sat =>
        rw [hc] at h1
        simp only at h1
        rw [h0] at h1
        cases h1
      | unres =>
        rw [hc] at h1
        simp only at h1
        rw [h0] at h1
        cases h1
      | unit l =>
        rw [hc] at h1
        simp only at h1
        simp only [hc]
        by_cases hvx : l.v = x
        · by_cases hlen : x < s.assigns.length
          · have henq : (s.enqueue l).assigns.getD x none = some (!l.sgn) := by
              show (s.assigns.set l.v (some (!l.sgn))).getD x none = some (!l.sgn)
              rw [hvx]
              exact listGetD_set_self _ _ _ _ hlen
            have hfin := propagateAux_mono g fuel (s.enqueue l) x (!l.sgn) henq
            rw [h1] at hfin
            have hb : b = !l.sgn := by
              cases hfin
              rfl
            obtain ⟨ext2, hext2⟩ := propagateAux_trail_prefix g fuel (s.enqueue l)
            refine ⟨l :: ext2, ?_, ?_⟩
            · rw [hext2]
              simp [S2.enqueue]
            · have hl : CLit.mk x (!b) = l := by
                rw [hb, Bool.not_not]
                rw [← hvx]
              rw [hl]
              exact List.mem_cons_self l ext2
          · have henq : (s.enqueue l).assigns.getD x none = none := by
              show (s.assigns.set l.v (some (!l.sgn))).getD x none = none
              rw [hvx]
              rw [List.set_eq_of_length_le (by omega)]
              exact h0
            obtain ⟨ext2, hext2, hm⟩ := ih (s.enqueue l) x b henq h1
            refine ⟨l :: ext2, ?_, List.mem_cons_of_mem l hm⟩
            rw [hext2]
            simp [S2.enqueue]
        · have henq : (s.enqueue l).assigns.getD x none = none := by
            show (s.assigns.set l.v (some (!l.sgn))).getD x none = none
            rw [listGetD_set_ne _ _ _ _ _ hvx]
            exact h0
          obtain ⟨ext2, hext2, hm⟩ := ih (s.enqueue l) x b henq h1
          refine ⟨l :: ext2, ?_, List.mem_cons_of_mem l hm⟩
          rw [hext2]
          simp [S2.enqueue]

theorem probe2Walk_bs_prefix (sE : S2) (l1 l2 : CLit) (pg : List Bool) :
    ∀ (L : List (Nat × CLit)) (pv : List Bool) (bs : List (Nat × Bool))
      (rq : List (CLit × CLit × Bool)),
      ∃ extra, (probe2Walk sE l1 l2 pg L pv bs rq).2.1 = bs ++ extra
        ∧ List.Sublist (extra.map Prod.fst) (L.map (fun p => p.2.v)) := by
  intro L
  induction L with
  | nil =>
    intro pv bs rq
    exact ⟨[], by simp [probe2Walk], List.nil_sublist _⟩
  | cons p rest ih =>
    intro pv bs rq
    obtain ⟨c, l⟩ := p
    unfold probe2Walk
    by_cases h1 : pg.getD l.v false = true
    · rw [if_pos h1]
      by_cases h2 : pv.getD l.v false = (sE.assigns.getD l.v none).getD false
      · rw [if_pos h2]
        obtain ⟨e2, he2, hs2⟩ := ih _ (bs ++ [(l.v, !(pv.getD l.v false))]) rq
        refine ⟨(l.v, !(pv.getD l.v false)) :: e2, ?_, ?_⟩
        · rw [he2]
          simp
        · simp only [List.map_cons]
          exact List.Sublist.cons₂ _ hs2
      · rw [if_neg h2]
        by_cases h3 : c ≠ 0
        · rw [if_pos h3]
          obtain ⟨e2, he2, hs2⟩ := ih _ bs _
          exact ⟨e2, he2, List.Sublist.cons _ hs2⟩
        · rw [if_neg h3]
          obtain ⟨e2, he2, hs2⟩ := ih _ bs rq
          exact ⟨e2, he2, List.Sublist.cons _ hs2⟩
    · rw [if_neg h1]
      obtain ⟨e2, he2, hs2⟩ := ih _ bs rq
      exact ⟨e2, he2, List.Sublist.cons _ hs2⟩

theorem probe2Walk_mem_bs (sE : S2) (l1 l2 : CLit) (pg : List Bool) (x : Nat) :
    ∀ (L : List (Nat × CLit)) (pv : List Bool) (bs : List (Nat × Bool))
      (rq : List (CLit × CLit × Bool)),
      (∃ q ∈ L, (q : Nat × CLit).2.v = x) →
      (L.map (fun p => p.2.v)).Nodup →
      pg.getD x false = true →
      pv.getD x false = (sE.assigns.getD x none).getD false →
      (x, !((sE.assigns.getD x none).getD false))
        ∈ (probe2Walk sE l1 l2 pg L pv bs rq).2.1 := by
  intro L
  induction L with
  | nil =>
    intro pv bs rq hex
    obtain ⟨q, hq, _⟩ := hex
    cases hq
  | cons p rest ih =>
    intro pv bs rq hex hnd hpg hpv
    obtain ⟨c, l⟩ := p
    unfold probe2Walk
    rcases hex with ⟨q, hq, hqx⟩
    rcases List.mem_cons.mp hq with hq1 | hq2
    · have hlx : l.v = x := by
        rw [hq1] at hqx
        exact hqx
      rw [if_pos (by rw [hlx]; exact hpg)]
      rw [if_pos (by rw [hlx]; exact hpv)]
      obtain ⟨extra, hextra, _⟩ :=
        probe2Walk_bs_prefix sE l1 l2 pg rest
          (pv.set l.v ((sE.assigns.getD l.v none).getD false))
          (bs ++ [(l.v, !(pv.getD l.v false))]) rq
      rw [hextra]
      apply List.mem_append_left
      apply List.mem_append_right
      rw [hlx, hpv]
      exact List.mem_singleton_self _
    · have hxrest : x ∈ rest.map (fun p => p.2.v) :=
        List.mem_map.mpr ⟨q, hq2, hqx⟩
      have hlne : l.v ≠ x := by
        intro he
        rw [List.map_cons] at hnd
        have := (List.nodup_cons.mp hnd).1
        rw [he] at this
        exact this hxrest
      have hnd2 : (rest.map (fun p => p.2.v)).Nodup := by
        rw [List.map_cons] at hnd
        exact (List.nodup_cons.mp hnd).2
      have hpv2 : ∀ w : Bool, (pv.set l.v w).getD x false
          = (sE.assigns.getD x none).getD false := by
        intro w
        rw [listGetD_set_ne _ _ _ _ _ hlne]
        exact hpv
      by_cases h1 : pg.getD l.v false = true
      · rw [if_pos h1]
        by_cases h2 : pv.getD l.v false = (sE.assigns.getD l.v none).getD false
        · rw [if_pos h2]
          exact ih _ _ _ ⟨q, hq2, hqx⟩ hnd2 hpg (hpv2 _)
        · rw [if_neg h2]
          by_cases h3 : c ≠ 0
          · rw [if_pos h3]
            exact ih _ _ _ ⟨q, hq2, hqx⟩ hnd2 hpg (hpv2 _)
          · rw [if_neg h3]
            exact ih _ _ _ ⟨q, hq2, hqx⟩ hnd2 hpg (hpv2 _)
      · rw [if_neg h1]
        exact ih _ _ _ ⟨q, hq2, hqx⟩ hnd2 hpg (hpv2 _)

theorem enqueueFold_getD_notmem (x : Nat) :
    ∀ (ps : List (Nat × Bool)) (s : S2), x ∉ ps.map Prod.fst →
      ((ps.foldl (fun t p => t.enqueue ⟨p.1, p.2⟩) s)).assigns.getD x none
        = s.assigns.getD x none := by
  intro ps
  induction ps with
  | nil => intro s _; rfl
  | cons p rest ih =>
    intro s hnm
    rw [List.foldl_cons]
    have hne : p.1 ≠ x := by
      intro he
      exact hnm (by rw [List.map_cons]; rw [← he]; exact List.mem_cons_self _ _)
    have hnm2 : x ∉ rest.map Prod.fst := by
      intro hm
      exact hnm (by rw [List.map_cons]; exact List.mem_cons_of_mem _ hm)
    rw [ih _ hnm2]
    show (s.assigns.set p.1 (some (!p.2))).getD x none = s.assigns.getD x none
    exact listGetD_set_ne _ _ _ _ _ hne

theorem enqueueFold_getD_mem (x : Nat) (q : Bool) :
    ∀ (ps : List (Nat × Bool)) (s : S2),
      (ps.map Prod.fst).Nodup → (x, q) ∈ ps → x < s.assigns.length →
      ((ps.foldl (fun t p => t.enqueue ⟨p.1, p.2⟩) s)).assigns.getD x none
        = some (!q) := by
  intro ps
  induction ps with
  | nil =>
    intro s _ hm
    cases hm
  | cons p rest ih =>
    intro s hnd hm hlen
    rw [List.foldl_cons]
    rcases List.mem_cons.mp hm with hm1 | hm2
    · have hx1 : p.1 = x := by rw [← hm1]
      have hq1 : p.2 = q := by rw [← hm1]
      have hnm : x ∉ rest.map Prod.fst := by
        rw [List.map_cons] at hnd
        have := (List.nodup_cons.mp hnd).1
        rw [hx1] at this
        exact this
      rw [enqueueFold_getD_notmem x rest _ hnm]
      show (s.assigns.set p.1 (some (!p.2))).getD x none = some (!q)
      rw [hx1, hq1]
      exact listGetD_set_self _ _ _ _ hlen
    · have hnd2 : (rest.map Prod.fst).Nodup := by
        rw [List.map_cons] at hnd
        exact (List.nodup_cons.mp hnd).2
      apply ih _ hnd2 hm2
      show x < (s.assigns.set p.1 (some (!p.2))).length
      rw [List.length_set]
      exact hlen

theorem enqueueFold_length :
    ∀ (ps : List (Nat × Bool)) (s : S2),
      ((ps.foldl (fun t p => t.enqueue ⟨p.1, p.2⟩) s)).assigns.length
        = s.assigns.length := by
  intro ps
  induction ps with
  | nil => intro s; rfl
  | cons p rest ih =>
    intro s
    rw [List.foldl_cons, ih]
    exact List.length_set _ _ _

theorem enqueueFold_trailLim :
    ∀ (ps : List (Nat × Bool)) (s : S2),
      ((ps.foldl (fun t p => t.enqueue ⟨p.1, p.2⟩) s)).trailLim = s.trailLim := by
  intro ps
  induction ps with
  | nil => intro s; rfl
  | cons p rest ih =>
    intro s
    rw [List.foldl_cons, ih]
    rfl

theorem enqueueFold_numVars :
    ∀ (ps : List (Nat × Bool)) (s : S2),
      ((ps.foldl (fun t p => t.enqueue ⟨p.1, p.2⟩) s)).numVars = s.numVars := by
  intro ps
  induction ps with
  | nil => intro s; rfl
  | cons p rest ih =>
    intro s
    rw [List.foldl_cons, ih]
    rfl

theorem enqueueFold_wfp :
    ∀ (ps : List (Nat × Bool)) (s : S2), s.WFp →
      (ps.map Prod.fst).Nodup →
      (∀ p ∈ ps, s.assigns.getD (p : Nat × Bool).1 none = none ∧ p.1 < s.numVars) →
      ((ps.foldl (fun t p => t.enqueue ⟨p.1, p.2⟩) s)).WFp := by
  intro ps
  induction ps with
  | nil => intro s h _ _; exact h
  | cons p rest ih =>
    intro s h hnd hall
    rw [List.foldl_cons]
    have hp := hall p (List.mem_cons_self _ _)
    apply ih
    · exact wfp_enqueue s ⟨p.1, p.2⟩ h hp.1 hp.2
    · rw [List.map_cons] at hnd
      exact (List.nodup_cons.mp hnd).2
    · intro r hr
      have hrp := hall r (List.mem_cons_of_mem _ hr)
      have hne : p.1 ≠ r.1 := by
        rw [List.map_cons] at hnd
        intro he
        exact (List.nodup_cons.mp hnd).1
          (he ▸ List.mem_map.mpr ⟨r, hr, rfl⟩)
      constructor
      · show (s.assigns.set p.1 (some (!p.2))).getD r.1 none = none
        rw [listGetD_set_ne _ _ _ _ _ hne]
        exact hrp.1
      · show r.1 < s.numVars
        exact hrp.2

theorem firstUnitConfl_ok_update (s : S2) (c : Bool) :
    ∀ cls, firstUnitConfl { s with ok := c } cls = firstUnitConfl s cls := by
  intro cls
  induction cls with
  | nil => rfl
  | cons cl rest ih =>
    have hcs : clauseStatus { s with ok := c } cl = clauseStatus s cl := rfl
    unfold firstUnitConfl
    rw [hcs, ih]

theorem noUnit_ok_update (s : S2) (c : Bool) (h : s.NoUnit) :
    ({ s with ok := c } : S2).NoUnit := by
  show firstUnitConfl { s with ok := c } ({ s with ok := c } : S2).allClauses = none
  rw [firstUnitConfl_ok_update]
  exact h

theorem successState_spec (sE : S2) (L1 L2 : CLit) (pg pv0 : List Bool)
    (x : Nat) (b : Bool) (kE : Nat)
    (hwfE : sE.WFp) (hElim : sE.trailLim = [kE])
    (hxE : sE.assigns.getD x none = some b)
    (hxseg : x ∈ (sE.trail.drop kE).map CLit.v)
    (hpg : pg.getD x false = true)
    (hpv : pv0.getD x false = b) :
    (successState sE L1 L2 pg pv0).assigns.getD x none = some b
    ∧ (successState sE L1 L2 pg pv0).trailLim = []
    ∧ (successState sE L1 L2 pg pv0).WFp := by
  have hk : sE.trailLim.getD 0 0 = kE := by rw [hElim]; rfl
  have hsegnd : ((sE.trail.drop (sE.trailLim.getD 0 0)).map CLit.v).Nodup :=
    List.Nodup.sublist (List.Sublist.map CLit.v (List.drop_sublist _ _)) hwfE.2.2.1
  have hLmap : ((((sE.trail.drop (sE.trailLim.getD 0 0)).enum).reverse).map
      (fun p => p.2.v))
        = ((sE.trail.drop (sE.trailLim.getD 0 0)).map CLit.v).reverse := by
    rw [List.map_reverse]
    congr 1
    calc ((sE.trail.drop (sE.trailLim.getD 0 0)).enum).map (fun p => p.2.v)
        = (((sE.trail.drop (sE.trailLim.getD 0 0)).enum).map Prod.snd).map CLit.v := by
          rw [List.map_map]
          rfl
      _ = (sE.trail.drop (sE.trailLim.getD 0 0)).map CLit.v := by
          rw [List.enum_map_snd]
  have hLnd : (((((sE.trail.drop (sE.trailLim.getD 0 0)).enum).reverse)).map
      (fun p => p.2.v)).Nodup := by
    rw [hLmap]
    exact List.nodup_reverse.mpr hsegnd
  have hxseg' : x ∈ (sE.trail.drop (sE.trailLim.getD 0 0)).map CLit.v := by
    rw [hk]
    exact hxseg
  have hex : ∃ q ∈ ((sE.trail.drop (sE.trailLim.getD 0 0)).enum).reverse,
      (q : Nat × CLit).2.v = x := by
    obtain ⟨lx, hlx, hlxv⟩ := List.mem_map.mp hxseg'
    have hlx2 : lx ∈ ((sE.trail.drop (sE.trailLim.getD 0 0)).enum).map Prod.snd := by
      rw [List.enum_map_snd]
      exact hlx
    obtain ⟨q, hq, hq2⟩ := List.mem_map.mp hlx2
    refine ⟨q, List.mem_reverse.mpr hq, ?_⟩
    rw [hq2]
    exact hlxv
  have hpv' : pv0.getD x false = (sE.assigns.getD x none).getD false := by
    rw [hxE]
    exact hpv
  have hval : ((sE.assigns.getD x none).getD false) = b := by
    rw [hxE]
    rfl
  have hwmem := probe2Walk_mem_bs sE L1 L2 pg x
    (((sE.trail.drop (sE.trailLim.getD 0 0)).enum).reverse) pv0 [] []
    hex hLnd hpg hpv'
  rw [hval] at hwmem
  have hwmem' : (x, !b) ∈ (walkResults sE L1 L2 pg pv0).2.1 := hwmem
  obtain ⟨extra, hex2, hsub⟩ := probe2Walk_bs_prefix sE L1 L2 pg
    (((sE.trail.drop (sE.trailLim.getD 0 0)).enum).reverse) pv0 [] []
  have hw1 : (walkResults sE L1 L2 pg pv0).2.1 = extra := by
    show (probe2Walk sE L1 L2 pg
      (((sE.trail.drop (sE.trailLim.getD 0 0)).enum).reverse) pv0 [] []).2.1 = extra
    rw [hex2]
    rfl
  have hndfst : ((walkResults sE L1 L2 pg pv0).2.1.map Prod.fst).Nodup := by
    rw [hw1]
    exact List.Nodup.sublist hsub hLnd
  have hfstseg : ∀ p ∈ (walkResults sE L1 L2 pg pv0).2.1,
      (p : Nat × Bool).1 ∈ (sE.trail.drop (sE.trailLim.getD 0 0)).map CLit.v := by
    intro p hp
    rw [hw1] at hp
    have h1 : p.1 ∈ extra.map Prod.fst := List.mem_map_of_mem Prod.fst hp
    have h2 := hsub.subset h1
    rw [hLmap] at h2
    exact List.mem_reverse.mp h2
  obtain ⟨f1, f2, f3, f4, f5, f6, f7, f8, f9, f10, f11, f12, f13, f14, f15⟩ :=
    cancelUntil0_fields sE kE [] hElim
  have hGassign : ∀ y, y ∈ (sE.trail.drop (sE.trailLim.getD 0 0)).map CLit.v →
      (sE.cancelUntil0).assigns.getD y none = none := by
    intro y hy
    have hy' : y ∈ (sE.trail.drop kE).map CLit.v := by
      rw [← hk]
      exact hy
    rw [cancelUntil0_assigns_getD sE kE [] hElim y, if_pos hy']
  have hseglt : ∀ y, y ∈ (sE.trail.drop (sE.trailLim.getD 0 0)).map CLit.v →
      y < sE.numVars := by
    intro y hy
    obtain ⟨lx, hlx, hlxv⟩ := List.mem_map.mp hy
    have hmemtrail : lx ∈ sE.trail := (List.drop_sublist _ _).subset hlx
    rw [← hlxv]
    exact (hwfE.2.1 lx hmemtrail).1
  have hwfF := wfp_cancelUntil0 sE hwfE
  have hwfG : ({ sE.cancelUntil0 with
      replaceQueue := (sE.cancelUntil0).replaceQueue
        ++ (walkResults sE L1 L2 pg pv0).2.2 } : S2).WFp := hwfF
  have hall : ∀ p ∈ (walkResults sE L1 L2 pg pv0).2.1,
      ({ sE.cancelUntil0 with
          replaceQueue := (sE.cancelUntil0).replaceQueue
            ++ (walkResults sE L1 L2 pg pv0).2.2 } : S2).assigns.getD
        (p : Nat × Bool).1 none = none
      ∧ (p : Nat × Bool).1
          < ({ sE.cancelUntil0 with
              replaceQueue := (sE.cancelUntil0).replaceQueue
                ++ (walkResults sE L1 L2 pg pv0).2.2 } : S2).numVars := by
    intro p hp
    have h1 := hfstseg p hp
    constructor
    · show (sE.cancelUntil0).assigns.getD p.1 none = none
      exact hGassign p.1 h1
    · show p.1 < (sE.cancelUntil0).numVars
      rw [f3]
      exact hseglt p.1 h1
  have hxlen : x < ({ sE.cancelUntil0 with
      replaceQueue := (sE.cancelUntil0).replaceQueue
        ++ (walkResults sE L1 L2 pg pv0).2.2 } : S2).assigns.length := by
    show x < (sE.cancelUntil0).assigns.length
    rw [f15, hwfE.1]
    exact hseglt x hxseg'
  have hHassign := enqueueFold_getD_mem x (!b) ((walkResults sE L1 L2 pg pv0).2.1)
    ({ sE.cancelUntil0 with
        replaceQueue := (sE.cancelUntil0).replaceQueue
          ++ (walkResults sE L1 L2 pg pv0).2.2 } : S2)
    hndfst hwmem' hxlen
  rw [Bool.not_not] at hHassign
  have hwfH := enqueueFold_wfp ((walkResults sE L1 L2 pg pv0).2.1)
    ({ sE.cancelUntil0 with
        replaceQueue := (sE.cancelUntil0).replaceQueue
          ++ (walkResults sE L1 L2 pg pv0).2.2 } : S2)
    hwfG hndfst hall
  refine ⟨?_, ?_, ?_⟩
  · exact hHassign
  · show (((walkResults sE L1 L2 pg pv0).2.1).foldl
        (fun t p => t.enqueue ⟨p.1, p.2⟩)
        ({ sE.cancelUntil0 with
            replaceQueue := (sE.cancelUntil0).replaceQueue
              ++ (walkResults sE L1 L2 pg pv0).2.2 } : S2)).trailLim = []
    rw [enqueueFold_trailLim]
    show (sE.cancelUntil0).trailLim = []
    exact f2
  · exact hwfH

theorem tryBothSuccessEnd_spec (sE : S2) (L1 L2 : CLit) (pg pv0 : List Bool)
    (x : Nat) (b : Bool) (kE : Nat)
    (hwfE : sE.WFp) (hElim : sE.trailLim = [kE])
    (hxE : sE.assigns.getD x none = some b)
    (hxseg : x ∈ (sE.trail.drop kE).map CLit.v)
    (hpg : pg.getD x false = true)
    (hpv : pv0.getD x false = b) :
    (tryBothSuccessEnd sE L1 L2 pg pv0).2.assigns.getD x none = some b
    ∧ (tryBothSuccessEnd sE L1 L2 pg pv0).2.trailLim = []
    ∧ ((tryBothSuccessEnd sE L1 L2 pg pv0).1 = true →
        (tryBothSuccessEnd sE L1 L2 pg pv0).2.NoUnit) := by
  obtain ⟨ha, hb, hwfI⟩ :=
    successState_spec sE L1 L2 pg pv0 x b kE hwfE hElim hxE hxseg hpg hpv
  refine ⟨?_, ?_, ?_⟩
  · show (((successState sE L1 L2 pg pv0).propagate).2).assigns.getD x none = some b
    exact propagate_mono _ x b ha
  · show (((successState sE L1 L2 pg pv0).propagate).2).trailLim = []
    rw [propagate_trailLim]
    exact hb
  · intro hflag
    have hfl : ((successState sE L1 L2 pg pv0).propagate).1 = false := by
      have h0 : (tryBothSuccessEnd sE L1 L2 pg pv0).1
          = !((successState sE L1 L2 pg pv0).propagate).1 := rfl
      rw [h0] at hflag
      simpa using hflag
    have hcnt : (successState sE L1 L2 pg pv0).undefCount
        < (successState sE L1 L2 pg pv0).numVars + 1 := by
      have h1 := List.count_le_length (none : Option Bool)
        (successState sE L1 L2 pg pv0).assigns
      have h2 := hwfI.1
      have h3 : (successState sE L1 L2 pg pv0).undefCount
          = (successState sE L1 L2 pg pv0).assigns.count none := rfl
      omega
    have hfix := propagateAux_fixpoint ((successState sE L1 L2 pg pv0).numVars + 1)
      (successState sE L1 L2 pg pv0) hwfI hcnt hfl
    show ({ ((successState sE L1 L2 pg pv0).propagate).2 with
        ok := !((successState sE L1 L2 pg pv0).propagate).1 } : S2).NoUnit
    exact noUnit_ok_update _ _ hfix

end CS2

/-- C2: in failed-literal probing, for every probed literal, if propagating
the probe at a new decision level conflicts, then the solver backtracks to
level 0, enqueues the negation of the probed literal (so its variable ends
up assigned the opposite value), propagates at level 0, counts the variable
as failed (`numFailed` is incremented), and `tryBoth` returns false exactly
when this level-0 propagation itself conflicts (`ok` is set to the returned
value).  Both probe positions are covered. -/
theorem C2_failed_probe_backtracks_enqueues_negation
    (s : CS2.S2) (lit1 lit2 : CS2.CLit)
    (hv1 : lit1.v < s.assigns.length) (hv2 : lit2.v < s.assigns.length) :
    ((((s.newDecisionLevel).enqueue lit1).propagate).1 = true →
      (s.tryBoth lit1 lit2).2.ok = (s.tryBoth lit1 lit2).1
      ∧ (s.tryBoth lit1 lit2).1
          = !((({ (((s.newDecisionLevel).enqueue lit1).propagate).2.cancelUntil0 with
                    numFailed :=
                      (((s.newDecisionLevel).enqueue
                        lit1).propagate).2.cancelUntil0.numFailed + 1 }).enqueue
                  lit1.neg).propagate).1
      ∧ (s.tryBoth lit1 lit2).2.assigns.getD lit1.v none = some lit1.sgn
      ∧ (s.tryBoth lit1 lit2).2.numFailed = s.numFailed + 1
      ∧ (s.tryBoth lit1 lit2).2.trailLim = [])
    ∧ ((((s.newDecisionLevel).enqueue lit1).propagate).1 = false →
       (((((((s.newDecisionLevel).enqueue
            lit1).propagate).2.cancelUntil0).newDecisionLevel).enqueue
              lit2).propagate).1 = true →
      (s.tryBoth lit1 lit2).2.ok = (s.tryBoth lit1 lit2).1
      ∧ (s.tryBoth lit1 lit2).2.assigns.getD lit2.v none = some lit2.sgn
      ∧ (s.tryBoth lit1 lit2).2.numFailed = s.numFailed + 1
      ∧ (s.tryBoth lit1 lit2).2.trailLim = []) := by
  constructor
  · intro hfail
    rw [CS2.tryBoth_eq_fail1 s lit1 lit2 hfail]
    obtain ⟨k, tl, hk⟩ := CS2.probe1_trailLim_cons s lit1
    obtain ⟨g1, g2, g3, g4, g5⟩ :=
      CS2.tryBothFailStep_spec _ lit1
        (by rw [CS2.probe1_assigns_length]; exact hv1) k tl hk
    refine ⟨g1, g2, g3, ?_, g5⟩
    rw [g4, CS2.propagate_numFailed]
    rfl
  · intro hok1 hfail2
    rw [CS2.tryBoth_eq_fail2 s lit1 lit2 hok1 hfail2]
    obtain ⟨k1, tl1, hk1⟩ := CS2.probe1_trailLim_cons s lit1
    obtain ⟨f1, f2, f3, f4, f5, f6, f7, f8, f9, f10, f11, f12, f13, f14, f15⟩ :=
      CS2.cancelUntil0_fields _ k1 tl1 hk1
    have hlen2 :
        (((((((s.newDecisionLevel).enqueue
            lit1).propagate).2.cancelUntil0).newDecisionLevel).enqueue
              lit2).propagate).2.assigns.length = s.assigns.length := by
      rw [CS2.propagate_assigns_length]
      show ((((s.newDecisionLevel).enqueue
          lit1).propagate).2.cancelUntil0.assigns.set lit2.v
            (some (!lit2.sgn))).length = s.assigns.length
      rw [List.length_set, f15, CS2.probe1_assigns_length]
    have hk2 :
        (((((((s.newDecisionLevel).enqueue
            lit1).propagate).2.cancelUntil0).newDecisionLevel).enqueue
              lit2).propagate).2.trailLim
          = (((s.newDecisionLevel).enqueue
              lit1).propagate).2.cancelUntil0.trail.length :: [] := by
      rw [CS2.propagate_trailLim]
      show (((s.newDecisionLevel).enqueue lit1).propagate).2.cancelUntil0.trailLim
          ++ [(((s.newDecisionLevel).enqueue
              lit1).propagate).2.cancelUntil0.trail.length] = _
      rw [f2]
      rfl
    obtain ⟨g1, g2, g3, g4, g5⟩ :=
      CS2.tryBothFailStep_spec _ lit2 (by rw [hlen2]; exact hv2) _ _ hk2
    refine ⟨g1, g3, ?_, g5⟩
    rw [g4, CS2.propagate_numFailed]
    show (((s.newDecisionLevel).enqueue
        lit1).propagate).2.cancelUntil0.numFailed + 1 = s.numFailed + 1
    rw [f7, CS2.propagate_numFailed]
    rfl

/-- Witness for C2: both failure scenarios evaluated concretely.  On `exC2a`
(unit clause `¬x0`) probing `x0 = true` conflicts, so `x0` is fixed false
and the failure is counted; on `exC2b` (unit clause `x0`) the first probe
succeeds and the second conflicts, fixing `x0` true. -/
theorem C2_witness :
    ((CS2.exC2a.tryBoth ⟨0, false⟩ ⟨0, true⟩).2.assigns.getD 0 none = some false
      ∧ (CS2.exC2a.tryBoth ⟨0, false⟩ ⟨0, true⟩).2.numFailed = 1)
    ∧ ((CS2.exC2b.tryBoth ⟨0, false⟩ ⟨0, true⟩).2.assigns.getD 0 none = some true
      ∧ (CS2.exC2b.tryBoth ⟨0, false⟩ ⟨0, true⟩).2.numFailed = 1) := by
  constructor
  · have h :=
      (C2_failed_probe_backtracks_enqueues_negation CS2.exC2a ⟨0, false⟩ ⟨0, true⟩
        (by decide) (by decide)).1 (by decide)
    exact ⟨h.2.2.1, h.2.2.2.1⟩
  · have h :=
      (C2_failed_probe_backtracks_enqueues_negation CS2.exC2b ⟨0, false⟩ ⟨0, true⟩
        (by decide) (by decide)).2 (by decide) (by decide)
    exact ⟨h.2.1, h.2.2.1⟩

namespace CS2

theorem updateNumPropsMultiplier_cases (t h : Nat) (m : Rat) :
    updateNumPropsMultiplier t h m = m ∨ updateNumPropsMultiplier t h m = 1 := by
  unfold updateNumPropsMultiplier
  by_cases hc : numPropsMultiplierCond t h = true
  · simp [hc]
  · simp [hc]

theorem multiplierGrowthValue_ne (m : Rat) : multiplierGrowthValue m ≠ m := by
  unfold multiplierGrowthValue
  rcases max_cases (m * (17 / 10)) 5 with ⟨heq, hge⟩ | ⟨heq, hlt⟩ <;> rw [heq]
  · intro h
    have hm : m ≤ 0 := by nlinarith
    nlinarith
  · intro h
    rw [h] at hlt
    nlinarith

theorem iterateMultiplierUpdates_eq_one (calls : List (Nat × Nat)) :
    iterateMultiplierUpdates calls = 1 := by
  unfold iterateMultiplierUpdates
  induction calls with
  | nil => rfl
  | cons c rest ih =>
    simp only [List.foldl_cons]
    have : updateNumPropsMultiplier c.1 c.2 1 = 1 := by
      rcases updateNumPropsMultiplier_cases c.1 c.2 1 with h | h <;> exact h
    rw [this]
    exact ih

end CS2

/-- C8: the numPropsMultiplier update in failed-variable search discards its
computed value: the update never returns the growth expression
`max(m*1.7, 5.0)`; in the growth branch the multiplier keeps its previous
value and it is set to 1.0 otherwise; consequently, starting from the
constructor's initial value 1.0, the multiplier is 1 after any sequence of
calls and the effective budget `numProps` is never scaled up. -/
theorem C8_numPropsMultiplier_discards_growth :
    ∀ (t h : Nat) (m : Rat),
      CS2.updateNumPropsMultiplier t h m ≠ CS2.multiplierGrowthValue m
      ∧ (CS2.updateNumPropsMultiplier t h m = m
          ∨ CS2.updateNumPropsMultiplier t h m = 1)
      ∧ ∀ (calls : List (Nat × Nat)) (p : Nat),
          CS2.scaledNumProps p (CS2.iterateMultiplierUpdates calls) = p := by
  intro t h m
  refine ⟨?_, CS2.updateNumPropsMultiplier_cases t h m, ?_⟩
  · rcases CS2.updateNumPropsMultiplier_cases t h m with heq | heq <;> rw [heq]
    · exact fun hbad => CS2.multiplierGrowthValue_ne m hbad.symm
    · intro hbad
      have h5 : (5 : Rat) ≤ CS2.multiplierGrowthValue m := le_max_right _ _
      rw [← hbad] at h5
      norm_num at h5
  · intro calls p
    rw [CS2.iterateMultiplierUpdates_eq_one]
    unfold CS2.scaledNumProps
    rw [mul_one]
    rw [Int.floor_natCast]
    exact Int.toNat_natCast p

namespace CS2

set_option maxHeartbeats 1600000 in
/-- C1: in failed-literal probing (`tryBoth` on the two polarities of an
unassigned decision variable `v`), if both probes propagate without
conflict, then every variable `x` that was assigned in both probes and
received the same truth value `b` in both is enqueued at level 0 with that
value (it is assigned `b` in the final state, which is at decision level
0), and propagation is run to fixpoint afterwards (whenever `tryBoth`
returns true, no clause is unit or conflicting in the final state). -/
theorem C1_tryBoth_bothSame_enqueued_level0
    (s0 : S2) (v x : Nat) (b : Bool)
    (hwf : s0.WFp) (hlim : s0.trailLim = []) (hv : v < s0.numVars)
    (hvu : s0.assigns.getD v none = none)
    (hok1 : (((s0.newDecisionLevel).enqueue (⟨v, false⟩ : CLit)).propagate).1 = false)
    (hok2 : ((((((s0.newDecisionLevel).enqueue (⟨v, false⟩ : CLit)).propagate).2.cancelUntil0.newDecisionLevel).enqueue (⟨v, true⟩ : CLit)).propagate).1 = false)
    (hx0 : s0.assigns.getD x none = none)
    (hx1 : (((s0.newDecisionLevel).enqueue (⟨v, false⟩ : CLit)).propagate).2.assigns.getD x none = some b)
    (hx2 : ((((((s0.newDecisionLevel).enqueue (⟨v, false⟩ : CLit)).propagate).2.cancelUntil0.newDecisionLevel).enqueue (⟨v, true⟩ : CLit)).propagate).2.assigns.getD x none = some b) :
    (s0.tryBoth ⟨v, false⟩ ⟨v, true⟩).2.assigns.getD x none = some b
    ∧ (s0.tryBoth ⟨v, false⟩ ⟨v, true⟩).2.trailLim = []
    ∧ ((s0.tryBoth ⟨v, false⟩ ⟨v, true⟩).1 = true →
        (s0.tryBoth ⟨v, false⟩ ⟨v, true⟩).2.NoUnit) := by
  have hlen0 : v < s0.assigns.length := by
    rw [hwf.1]
    exact hv
  have hBlim : (((s0.newDecisionLevel).enqueue (⟨v, false⟩ : CLit)).propagate).2.trailLim = [s0.trail.length] := by
    rw [propagate_trailLim]
    show s0.trailLim ++ [s0.trail.length] = _
    rw [hlim]
    rfl
  have hBlen : (((s0.newDecisionLevel).enqueue (⟨v, false⟩ : CLit)).propagate).2.assigns.length = s0.assigns.length :=
    probe1_assigns_length s0 ⟨v, false⟩
  obtain ⟨f1, f2, f3, f4, f5, f6, f7, f8, f9, f10, f11, f12, f13, f14, f15⟩ :=
    cancelUntil0_fields (((s0.newDecisionLevel).enqueue (⟨v, false⟩ : CLit)).propagate).2 s0.trail.length [] hBlim
  have hClen : (((s0.newDecisionLevel).enqueue (⟨v, false⟩ : CLit)).propagate).2.cancelUntil0.assigns.length = s0.assigns.length := by
    rw [f15]
    exact hBlen
  have hBv : (((s0.newDecisionLevel).enqueue (⟨v, false⟩ : CLit)).propagate).2.assigns.getD v none = some true := by
    apply propagate_mono
    show (s0.assigns.set v (some true)).getD v none = some true
    exact listGetD_set_self _ _ _ _ hlen0
  have hEv : ((((((s0.newDecisionLevel).enqueue (⟨v, false⟩ : CLit)).propagate).2.cancelUntil0.newDecisionLevel).enqueue (⟨v, true⟩ : CLit)).propagate).2.assigns.getD v none = some false := by
    apply propagate_mono
    show ((((s0.newDecisionLevel).enqueue (⟨v, false⟩ : CLit)).propagate).2.cancelUntil0.assigns.set v (some false)).getD v none = some false
    apply listGetD_set_self
    rw [hClen]
    exact hlen0
  have hxv : x ≠ v := by
    intro he
    rw [he] at hx1 hx2
    have h1 := hx1.symm.trans hBv
    have h2 := hx2.symm.trans hEv
    simp only [Option.some.injEq] at h1 h2
    rw [h1] at h2
    cases h2
  have hA0 : ((s0.newDecisionLevel).enqueue (⟨v, false⟩ : CLit)).assigns.getD x none = none := by
    show (s0.assigns.set v (some true)).getD x none = none
    rw [listGetD_set_ne _ _ _ _ _ (fun he => hxv he.symm)]
    exact hx0
  obtain ⟨ext1, hext1, hm1⟩ :=
    propagateAux_new_on_trail S2.allClauses (((s0.newDecisionLevel).enqueue (⟨v, false⟩ : CLit)).numVars + 1) ((s0.newDecisionLevel).enqueue (⟨v, false⟩ : CLit)) x b hA0 hx1
  have hext1' : (((s0.newDecisionLevel).enqueue (⟨v, false⟩ : CLit)).propagate).2.trail = ((s0.newDecisionLevel).enqueue (⟨v, false⟩ : CLit)).trail ++ ext1 := hext1
  have hk1 : (((s0.newDecisionLevel).enqueue (⟨v, false⟩ : CLit)).propagate).2.trailLim.getD 0 0 = s0.trail.length := by
    rw [hBlim]
    rfl
  have hseg1 : (((s0.newDecisionLevel).enqueue (⟨v, false⟩ : CLit)).propagate).2.trail.drop s0.trail.length = (⟨v, false⟩ : CLit) :: ext1 := by
    rw [hext1']
    show ((s0.trail ++ [(⟨v, false⟩ : CLit)]) ++ ext1).drop s0.trail.length = _
    rw [List.append_assoc, List.drop_left]
    rfl
  have hseg1' : (((s0.newDecisionLevel).enqueue (⟨v, false⟩ : CLit)).propagate).2.trail.drop ((((s0.newDecisionLevel).enqueue (⟨v, false⟩ : CLit)).propagate).2.trailLim.getD 0 0)
      = (⟨v, false⟩ : CLit) :: ext1 := by
    rw [hk1]
    exact hseg1
  have hxseg1 : x ∈ ((((s0.newDecisionLevel).enqueue (⟨v, false⟩ : CLit)).propagate).2.trail.drop ((((s0.newDecisionLevel).enqueue (⟨v, false⟩ : CLit)).propagate).2.trailLim.getD 0 0)).map CLit.v := by
    refine List.mem_map.mpr ⟨⟨x, !b⟩, ?_, rfl⟩
    rw [hseg1']
    exact List.mem_cons_of_mem _ hm1
  have hxseg1s : x ∈ ((((s0.newDecisionLevel).enqueue (⟨v, false⟩ : CLit)).propagate).2.trail.drop s0.trail.length).map CLit.v := by
    rw [← hk1]
    exact hxseg1
  have hwfA : ((s0.newDecisionLevel).enqueue (⟨v, false⟩ : CLit)).WFp :=
    wfp_enqueue s0.newDecisionLevel ⟨v, false⟩ (wfp_newDecisionLevel s0 hwf) hvu hv
  have hwfB : (((s0.newDecisionLevel).enqueue (⟨v, false⟩ : CLit)).propagate).2.WFp :=
    propagateAux_wfp S2.allClauses (fun _ _ h => h) (((s0.newDecisionLevel).enqueue (⟨v, false⟩ : CLit)).numVars + 1) ((s0.newDecisionLevel).enqueue (⟨v, false⟩ : CLit)) hwfA
  have hnvB : (((s0.newDecisionLevel).enqueue (⟨v, false⟩ : CLit)).propagate).2.numVars = s0.numVars := by
    rw [propagate_numVars]
    rfl
  have hxn : x < s0.numVars := by
    have hmem : (⟨x, !b⟩ : CLit) ∈ (((s0.newDecisionLevel).enqueue (⟨v, false⟩ : CLit)).propagate).2.trail := by
      rw [hext1']
      exact List.mem_append_right _ hm1
    have h2 := (hwfB.2.1 _ hmem).1
    rw [hnvB] at h2
    exact h2
  have hpgC : (((((s0.newDecisionLevel).enqueue (⟨v, false⟩ : CLit)).propagate).2.trail.drop ((((s0.newDecisionLevel).enqueue (⟨v, false⟩ : CLit)).propagate).2.trailLim.getD 0 0)).foldl (fun a l => a.set l.v true) (List.replicate s0.numVars false)).getD x false = true := by
    have h := foldSet_getD (fun _ => true)
      ((((s0.newDecisionLevel).enqueue (⟨v, false⟩ : CLit)).propagate).2.trail.drop ((((s0.newDecisionLevel).enqueue (⟨v, false⟩ : CLit)).propagate).2.trailLim.getD 0 0))
      (List.replicate s0.numVars false) x
    rw [if_pos ⟨hxseg1, by rw [List.length_replicate]; exact hxn⟩] at h
    exact h
  have hpvC : (((((s0.newDecisionLevel).enqueue (⟨v, false⟩ : CLit)).propagate).2.trail.drop ((((s0.newDecisionLevel).enqueue (⟨v, false⟩ : CLit)).propagate).2.trailLim.getD 0 0)).foldl (fun a l => a.set l.v (((((s0.newDecisionLevel).enqueue (⟨v, false⟩ : CLit)).propagate).2.assigns.getD l.v none).getD false)) (List.replicate s0.numVars false)).getD x false = b := by
    have h := foldSet_getD (fun y => (((((s0.newDecisionLevel).enqueue (⟨v, false⟩ : CLit)).propagate).2.assigns.getD y none).getD false))
      ((((s0.newDecisionLevel).enqueue (⟨v, false⟩ : CLit)).propagate).2.trail.drop ((((s0.newDecisionLevel).enqueue (⟨v, false⟩ : CLit)).propagate).2.trailLim.getD 0 0))
      (List.replicate s0.numVars false) x
    rw [if_pos ⟨hxseg1, by rw [List.length_replicate]; exact hxn⟩] at h
    rw [hx1] at h
    exact h
  have hCx : (((s0.newDecisionLevel).enqueue (⟨v, false⟩ : CLit)).propagate).2.cancelUntil0.assigns.getD x none = none := by
    rw [cancelUntil0_assigns_getD (((s0.newDecisionLevel).enqueue (⟨v, false⟩ : CLit)).propagate).2 s0.trail.length [] hBlim x, if_pos hxseg1s]
  have hvseg : v ∈ ((((s0.newDecisionLevel).enqueue (⟨v, false⟩ : CLit)).propagate).2.trail.drop s0.trail.length).map CLit.v := by
    refine List.mem_map.mpr ⟨⟨v, false⟩, ?_, rfl⟩
    rw [hseg1]
    exact List.mem_cons_self _ _
  have hCv : (((s0.newDecisionLevel).enqueue (⟨v, false⟩ : CLit)).propagate).2.cancelUntil0.assigns.getD v none = none := by
    rw [cancelUntil0_assigns_getD (((s0.newDecisionLevel).enqueue (⟨v, false⟩ : CLit)).propagate).2 s0.trail.length [] hBlim v]
    rw [if_pos hvseg]
  have hwfC : (((s0.newDecisionLevel).enqueue (⟨v, false⟩ : CLit)).propagate).2.cancelUntil0.WFp := wfp_cancelUntil0 (((s0.newDecisionLevel).enqueue (⟨v, false⟩ : CLit)).propagate).2 hwfB
  have hwfD : (((((s0.newDecisionLevel).enqueue (⟨v, false⟩ : CLit)).propagate).2.cancelUntil0.newDecisionLevel).enqueue (⟨v, true⟩ : CLit)).WFp := by
    refine wfp_enqueue (((s0.newDecisionLevel).enqueue (⟨v, false⟩ : CLit)).propagate).2.cancelUntil0.newDecisionLevel ⟨v, true⟩
      (wfp_newDecisionLevel (((s0.newDecisionLevel).enqueue (⟨v, false⟩ : CLit)).propagate).2.cancelUntil0 hwfC) hCv ?_
    show v < (((s0.newDecisionLevel).enqueue (⟨v, false⟩ : CLit)).propagate).2.cancelUntil0.numVars
    rw [f3, hnvB]
    exact hv
  have hwfE : ((((((s0.newDecisionLevel).enqueue (⟨v, false⟩ : CLit)).propagate).2.cancelUntil0.newDecisionLevel).enqueue (⟨v, true⟩ : CLit)).propagate).2.WFp :=
    propagateAux_wfp S2.allClauses (fun _ _ h => h) ((((((s0.newDecisionLevel).enqueue (⟨v, false⟩ : CLit)).propagate).2.cancelUntil0.newDecisionLevel).enqueue (⟨v, true⟩ : CLit)).numVars + 1) (((((s0.newDecisionLevel).enqueue (⟨v, false⟩ : CLit)).propagate).2.cancelUntil0.newDecisionLevel).enqueue (⟨v, true⟩ : CLit)) hwfD
  have hElimE : ((((((s0.newDecisionLevel).enqueue (⟨v, false⟩ : CLit)).propagate).2.cancelUntil0.newDecisionLevel).enqueue (⟨v, true⟩ : CLit)).propagate).2.trailLim = [(((s0.newDecisionLevel).enqueue (⟨v, false⟩ : CLit)).propagate).2.cancelUntil0.trail.length] := by
    rw [propagate_trailLim]
    show (((s0.newDecisionLevel).enqueue (⟨v, false⟩ : CLit)).propagate).2.cancelUntil0.trailLim ++ [(((s0.newDecisionLevel).enqueue (⟨v, false⟩ : CLit)).propagate).2.cancelUntil0.trail.length] = _
    rw [f2]
    rfl
  have hD0 : (((((s0.newDecisionLevel).enqueue (⟨v, false⟩ : CLit)).propagate).2.cancelUntil0.newDecisionLevel).enqueue (⟨v, true⟩ : CLit)).assigns.getD x none = none := by
    show ((((s0.newDecisionLevel).enqueue (⟨v, false⟩ : CLit)).propagate).2.cancelUntil0.assigns.set v (some false)).getD x none = none
    rw [listGetD_set_ne _ _ _ _ _ (fun he => hxv he.symm)]
    exact hCx
  obtain ⟨ext2, hext2, hm2⟩ :=
    propagateAux_new_on_trail S2.allClauses ((((((s0.newDecisionLevel).enqueue (⟨v, false⟩ : CLit)).propagate).2.cancelUntil0.newDecisionLevel).enqueue (⟨v, true⟩ : CLit)).numVars + 1) (((((s0.newDecisionLevel).enqueue (⟨v, false⟩ : CLit)).propagate).2.cancelUntil0.newDecisionLevel).enqueue (⟨v, true⟩ : CLit)) x b hD0 hx2
  have hext2' : ((((((s0.newDecisionLevel).enqueue (⟨v, false⟩ : CLit)).propagate).2.cancelUntil0.newDecisionLevel).enqueue (⟨v, true⟩ : CLit)).propagate).2.trail = (((((s0.newDecisionLevel).enqueue (⟨v, false⟩ : CLit)).propagate).2.cancelUntil0.newDecisionLevel).enqueue (⟨v, true⟩ : CLit)).trail ++ ext2 := hext2
  have hseg2 : ((((((s0.newDecisionLevel).enqueue (⟨v, false⟩ : CLit)).propagate).2.cancelUntil0.newDecisionLevel).enqueue (⟨v, true⟩ : CLit)).propagate).2.trail.drop (((s0.newDecisionLevel).enqueue (⟨v, false⟩ : CLit)).propagate).2.cancelUntil0.trail.length = (⟨v, true⟩ : CLit) :: ext2 := by
    rw [hext2']
    show (((((s0.newDecisionLevel).enqueue (⟨v, false⟩ : CLit)).propagate).2.cancelUntil0.trail ++ [(⟨v, true⟩ : CLit)]) ++ ext2).drop (((s0.newDecisionLevel).enqueue (⟨v, false⟩ : CLit)).propagate).2.cancelUntil0.trail.length = _
    rw [List.append_assoc, List.drop_left]
    rfl
  have hxseg2 : x ∈ (((((((s0.newDecisionLevel).enqueue (⟨v, false⟩ : CLit)).propagate).2.cancelUntil0.newDecisionLevel).enqueue (⟨v, true⟩ : CLit)).propagate).2.trail.drop (((s0.newDecisionLevel).enqueue (⟨v, false⟩ : CLit)).propagate).2.cancelUntil0.trail.length).map CLit.v := by
    refine List.mem_map.mpr ⟨⟨x, !b⟩, ?_, rfl⟩
    rw [hseg2]
    exact List.mem_cons_of_mem _ hm2
  rw [tryBoth_eq_success s0 ⟨v, false⟩ ⟨v, true⟩ hok1 hok2]
  have hfin := tryBothSuccessEnd_spec ((((((s0.newDecisionLevel).enqueue (⟨v, false⟩ : CLit)).propagate).2.cancelUntil0.newDecisionLevel).enqueue (⟨v, true⟩ : CLit)).propagate).2 ⟨v, false⟩ ⟨v, true⟩ (((((s0.newDecisionLevel).enqueue (⟨v, false⟩ : CLit)).propagate).2.trail.drop ((((s0.newDecisionLevel).enqueue (⟨v, false⟩ : CLit)).propagate).2.trailLim.getD 0 0)).foldl (fun a l => a.set l.v true) (List.replicate s0.numVars false)) (((((s0.newDecisionLevel).enqueue (⟨v, false⟩ : CLit)).propagate).2.trail.drop ((((s0.newDecisionLevel).enqueue (⟨v, false⟩ : CLit)).propagate).2.trailLim.getD 0 0)).foldl (fun a l => a.set l.v (((((s0.newDecisionLevel).enqueue (⟨v, false⟩ : CLit)).propagate).2.assigns.getD l.v none).getD false)) (List.replicate s0.numVars false)) x b
    (((s0.newDecisionLevel).enqueue (⟨v, false⟩ : CLit)).propagate).2.cancelUntil0.trail.length hwfE hElimE hx2 hxseg2 hpgC hpvC
  exact hfin

/-- Witness for C1: on `exC1` (clauses `(¬x0 ∨ x1)` and `(x0 ∨ x1)`), both
probes of `x0` succeed and force `x1 = true`, so `tryBoth` fixes `x1` true
at level 0. -/
theorem C1_witness :
    (exC1.tryBoth ⟨0, false⟩ ⟨0, true⟩).2.assigns.getD 1 none = some true
    ∧ (exC1.tryBoth ⟨0, false⟩ ⟨0, true⟩).2.trailLim = [] := by
  have h := C1_tryBoth_bothSame_enqueued_level0 exC1 0 1 true
    ⟨by decide, by decide, by decide, by decide⟩
    (by decide) (by decide) (by decide) (by decide)
    (by decide) (by decide) (by decide) (by decide)
  exact ⟨h.1, h.2.1⟩

end CS2

/-- C3: evaluation of `removeUselessBinaries(L)` on `ex3`.  The clause
`(¬L ∨ B)` is removed even though `B` is in no `H_M` (`H` being the one-hop
set of `L` and `H_M` the full binary-propagation set of `M ∈ H`), i.e. the
code removes a binary clause the claimed criterion never removes — and the
genuinely redundant `(¬L ∨ A)` (chain `L → B → A`) is kept. -/
theorem C3_removeUselessBinaries_removes_nonredundant_clause :
    ((CS2.removeUselessBinaries ⟨0, false⟩ CS2.ex3 (List.replicate 6 false)).2.1.bins
        = [(⟨0, true⟩, ⟨1, false⟩), (⟨2, true⟩, ⟨1, false⟩)])
    ∧ ((⟨0, true⟩, (⟨2, false⟩ : CS2.CLit)) ∈ CS2.ex3.bins)
    ∧ ((⟨0, true⟩, (⟨2, false⟩ : CS2.CLit)) ∉
        (CS2.removeUselessBinaries ⟨0, false⟩ CS2.ex3 (List.replicate 6 false)).2.1.bins)
    ∧ (∀ m ∈ CS2.specOneHopSet CS2.ex3 ⟨0, false⟩,
        (⟨2, false⟩ : CS2.CLit) ∉ CS2.specBinReachSet CS2.ex3 m)
    ∧ ((⟨1, false⟩ : CS2.CLit) ∈ CS2.specOneHopSet CS2.ex3 ⟨0, false⟩
        ∧ (⟨1, false⟩ : CS2.CLit) ∈ CS2.specBinReachSet CS2.ex3 ⟨2, false⟩
        ∧ (⟨2, false⟩ : CS2.CLit) ∈ CS2.specOneHopSet CS2.ex3 ⟨0, false⟩) := by
  decide

namespace CS3

theorem getD_concat_self (A : List Clause3) (c : Clause3) (d : Clause3) :
    (A ++ [c]).getD A.length d = c := by
  unfold List.getD
  rw [List.get?_append_right (Nat.le_refl _)]
  simp

theorem sumSizesA_append_arena (A : List Clause3) (c : Clause3) (L : List Nat)
    (h : ∀ i ∈ L, i < A.length) :
    sumSizesA (A ++ [c]) L = sumSizesA A L := by
  unfold sumSizesA
  congr 1
  apply List.map_eq_map_iff.mpr
  intro i hi
  rw [List.getD_append _ _ _ _ (h i hi)]

theorem sumSizesA_snoc (A : List Clause3) (L : List Nat) (j : Nat) :
    sumSizesA A (L ++ [j]) = sumSizesA A L + (A.getD j ⟨[], false⟩).lits.length := by
  unfold sumSizesA
  rw [List.map_append, List.sum_append]
  rfl

theorem sumSizesA_erase (A : List Clause3) :
    ∀ (L : List Nat) (i : Nat), i ∈ L →
      sumSizesA A (L.erase i) + (A.getD i ⟨[], false⟩).lits.length = sumSizesA A L := by
  intro L
  induction L with
  | nil => intro i h; cases h
  | cons a rest ih =>
    intro i h
    by_cases ha : a = i
    · rw [ha, List.erase_cons_head]
      unfold sumSizesA
      rw [List.map_cons, List.sum_cons]
      omega
    · rw [List.erase_cons, if_neg (by simpa using ha)]
      have hrest : i ∈ rest := by
        rcases List.mem_cons.mp h with h1 | h2
        · exact absurd h1.symm ha
        · exact h2
      have hr := ih i hrest
      unfold sumSizesA at hr ⊢
      rw [List.map_cons, List.map_cons, List.sum_cons, List.sum_cons]
      omega

theorem applyOp3_preserves (s : St3) (op : Op3)
    (hc1 : s.irredBins * 2 + s.irredTris * 3 + sumSizesA s.arena s.longIrredCls
            = s.irredLits)
    (hc2 : s.redBins * 2 + s.redTris * 3 + sumSizesA s.arena s.longRedCls = s.redLits)
    (ho1 : ∀ i ∈ s.longIrredCls, i < s.arena.length)
    (ho2 : ∀ i ∈ s.longRedCls, i < s.arena.length)
    (hval : op.valid s = true) :
    checkStats3 (applyOp3 s op) ∧ offsetsOk (applyOp3 s op) := by
  cases op with
  | attachBin l1 l2 lrnt =>
    cases lrnt with
    | false =>
      refine ⟨⟨?_, ?_⟩, ho1, ho2⟩
      · show (s.irredBins + 1) * 2 + s.irredTris * 3
            + sumSizesA s.arena s.longIrredCls = s.irredLits + 2
        omega
      · show s.redBins * 2 + s.redTris * 3 + sumSizesA s.arena s.longRedCls = s.redLits
        omega
    | true =>
      refine ⟨⟨?_, ?_⟩, ho1, ho2⟩
      · show s.irredBins * 2 + s.irredTris * 3
            + sumSizesA s.arena s.longIrredCls = s.irredLits
        omega
      · show (s.redBins + 1) * 2 + s.redTris * 3
            + sumSizesA s.arena s.longRedCls = s.redLits + 2
        omega
  | detachBin l1 l2 lrnt =>
    cases lrnt with
    | false =>
      have hb : 1 ≤ s.irredBins := by simpa [Op3.valid] using hval
      refine ⟨⟨?_, ?_⟩, ho1, ho2⟩
      · show (s.irredBins - 1) * 2 + s.irredTris * 3
            + sumSizesA s.arena s.longIrredCls = s.irredLits - 2
        omega
      · show s.redBins * 2 + s.redTris * 3 + sumSizesA s.arena s.longRedCls = s.redLits
        omega
    | true =>
      have hb : 1 ≤ s.redBins := by simpa [Op3.valid] using hval
      refine ⟨⟨?_, ?_⟩, ho1, ho2⟩
      · show s.irredBins * 2 + s.irredTris * 3
            + sumSizesA s.arena s.longIrredCls = s.irredLits
        omega
      · show (s.redBins - 1) * 2 + s.redTris * 3
            + sumSizesA s.arena s.longRedCls = s.redLits - 2
        omega
  | attachTri l1 l2 l3 lrnt =>
    cases lrnt with
    | false =>
      refine ⟨⟨?_, ?_⟩, ho1, ho2⟩
      · show s.irredBins * 2 + (s.irredTris + 1) * 3
            + sumSizesA s.arena s.longIrredCls = s.irredLits + 3
        omega
      · show s.redBins * 2 + s.redTris * 3 + sumSizesA s.arena s.longRedCls = s.redLits
        omega
    | true =>
      refine ⟨⟨?_, ?_⟩, ho1, ho2⟩
      · show s.irredBins * 2 + s.irredTris * 3
            + sumSizesA s.arena s.longIrredCls = s.irredLits
        omega
      · show s.redBins * 2 + (s.redTris + 1) * 3
            + sumSizesA s.arena s.longRedCls = s.redLits + 3
        omega
  | detachTri l1 l2 l3 lrnt =>
    cases lrnt with
    | false =>
      have hb : 1 ≤ s.irredTris := by simpa [Op3.valid] using hval
      refine ⟨⟨?_, ?_⟩, ho1, ho2⟩
      · show s.irredBins * 2 + (s.irredTris - 1) * 3
            + sumSizesA s.arena s.longIrredCls = s.irredLits - 3
        omega
      · show s.redBins * 2 + s.redTris * 3 + sumSizesA s.arena s.longRedCls = s.redLits
        omega
    | true =>
      have hb : 1 ≤ s.redTris := by simpa [Op3.valid] using hval
      refine ⟨⟨?_, ?_⟩, ho1, ho2⟩
      · show s.irredBins * 2 + s.irredTris * 3
            + sumSizesA s.arena s.longIrredCls = s.irredLits
        omega
      · show s.redBins * 2 + (s.redTris - 1) * 3
            + sumSizesA s.arena s.longRedCls = s.redLits - 3
        omega
  | addLong lits lrnt =>
    have hga : (s.arena ++ [Clause3.mk lits lrnt]).getD s.arena.length ⟨[], false⟩
        = Clause3.mk lits lrnt := getD_concat_self _ _ _
    have hsi := sumSizesA_append_arena s.arena (Clause3.mk lits lrnt) s.longIrredCls ho1
    have hsr := sumSizesA_append_arena s.arena (Clause3.mk lits lrnt) s.longRedCls ho2
    have hof1 : ∀ i ∈ s.longIrredCls,
        i < (s.arena ++ [Clause3.mk lits lrnt]).length := by
      intro i hi
      rw [List.length_append]
      have := ho1 i hi
      omega
    have hof2 : ∀ i ∈ s.longRedCls,
        i < (s.arena ++ [Clause3.mk lits lrnt]).length := by
      intro i hi
      rw [List.length_append]
      have := ho2 i hi
      omega
    have hlenA : s.arena.length < (s.arena ++ [Clause3.mk lits lrnt]).length := by
      rw [List.length_append]
      simp
    cases lrnt with
    | false =>
      unfold applyOp3 attachClause3 checkStats3 offsetsOk
      simp only [hga, Bool.false_eq_true, if_false]
      refine ⟨⟨?_, ?_⟩, ?_, ?_⟩
      · rw [sumSizesA_snoc, hsi, hga]
        have hk : (Clause3.mk lits false).lits.length = lits.length := rfl
        omega
      · rw [hsr]
        omega
      · intro i hi
        rcases List.mem_append.mp hi with h1 | h2
        · exact hof1 i h1
        · rw [List.mem_singleton] at h2
          rw [h2]
          exact hlenA
      · intro i hi
        exact hof2 i hi
    | true =>
      unfold applyOp3 attachClause3 checkStats3 offsetsOk
      simp only [hga, if_true]
      refine ⟨⟨?_, ?_⟩, ?_, ?_⟩
      · rw [hsi]
        omega
      · rw [sumSizesA_snoc, hsr, hga]
        have hk : (Clause3.mk lits true).lits.length = lits.length := rfl
        omega
      · intro i hi
        exact hof1 i hi
      · intro i hi
        rcases List.mem_append.mp hi with h1 | h2
        · exact hof2 i h1
        · rw [List.mem_singleton] at h2
          rw [h2]
          exact hlenA
  | remLong idx =>
    have hval2 : idx < s.arena.length ∧
        (if (s.arena.getD idx ⟨[], false⟩).learnt
         then s.longRedCls.count idx = 1
         else s.longIrredCls.count idx = 1) := by
      simpa [Op3.valid] using hval
    cases hl : (s.arena.getD idx ⟨[], false⟩).learnt with
    | false =>
      have hcount : s.longIrredCls.count idx = 1 := by
        have h2 := hval2.2
        rw [hl] at h2
        simpa using h2
      have hmem : idx ∈ s.longIrredCls := by
        rw [← List.count_pos_iff_mem]
        omega
      have hse := sumSizesA_erase s.arena s.longIrredCls idx hmem
      have hsz : (s.arena.getD idx ⟨[], false⟩).lits.length
          ≤ sumSizesA s.arena s.longIrredCls := by
        omega
      unfold applyOp3 detachClause3 checkStats3 offsetsOk
      simp only [hl, Bool.false_eq_true, if_false]
      refine ⟨⟨?_, ?_⟩, ?_, ?_⟩
      · omega
      · omega
      · intro i hi
        exact ho1 i (List.mem_of_mem_erase hi)
      · intro i hi
        exact ho2 i hi
    | true =>
      have hcount : s.longRedCls.count idx = 1 := by
        have h2 := hval2.2
        rw [hl] at h2
        simpa using h2
      have hmem : idx ∈ s.longRedCls := by
        rw [← List.count_pos_iff_mem]
        omega
      have hse := sumSizesA_erase s.arena s.longRedCls idx hmem
      have hsz : (s.arena.getD idx ⟨[], false⟩).lits.length
          ≤ sumSizesA s.arena s.longRedCls := by
        omega
      unfold applyOp3 detachClause3 checkStats3 offsetsOk
      simp only [hl, if_true]
      refine ⟨⟨?_, ?_⟩, ?_, ?_⟩
      · omega
      · omega
      · intro i hi
        exact ho1 i hi
      · intro i hi
        exact ho2 i (List.mem_of_mem_erase hi)

end CS3

namespace CS3

theorem applyOps3_preserves : ∀ (ops : List Op3) (s : St3),
    checkStats3 s → offsetsOk s → validOps3 s ops = true →
    checkStats3 (applyOps3 s ops) ∧ offsetsOk (applyOps3 s ops) := by
  intro ops
  induction ops with
  | nil => intro s h1 h2 _; exact ⟨h1, h2⟩
  | cons op rest ih =>
    intro s h1 h2 hv
    have hv2 : op.valid s = true ∧ validOps3 (applyOp3 s op) rest = true := by
      simpa [validOps3, Bool.and_eq_true] using hv
    have hstep := applyOp3_preserves s op h1.1 h1.2 h2.1 h2.2 hv2.1
    have htail := ih (applyOp3 s op) hstep.1 hstep.2 hv2.2
    simpa [applyOps3, List.foldl_cons] using htail

theorem validOps3_of_append : ∀ (pre suf : List Op3) (s : St3),
    validOps3 s (pre ++ suf) = true → validOps3 s pre = true := by
  intro pre
  induction pre with
  | nil => intro suf s _; rfl
  | cons op rest ih =>
    intro suf s hv
    have hv2 : op.valid s = true ∧ validOps3 (applyOp3 s op) (rest ++ suf) = true := by
      simpa [validOps3, Bool.and_eq_true] using hv
    have := ih suf (applyOp3 s op) hv2.2
    simp [validOps3, Bool.and_eq_true]
    exact ⟨hv2.1, this⟩

theorem checkStats3_mkSt3 (n : Nat) : checkStats3 (mkSt3 n) := ⟨rfl, rfl⟩

theorem offsetsOk_mkSt3 (n : Nat) : offsetsOk (mkSt3 n) :=
  ⟨fun i hi => absurd hi (List.not_mem_nil i), fun i hi => absurd hi (List.not_mem_nil i)⟩

end CS3

/-- C4: along any valid sequence of clause-database operations (binary/ternary
attach and detach, long-clause add and remove) started from a fresh solver
state, the `Solver::checkStats` counter invariant holds at every intermediate
point: `irredBins * 2 + irredTris * 3 + Σ|c|` over attached irredundant long
clauses equals `irredLits`, and likewise for the learnt counters. -/
theorem C4_checkStats_invariant (n : Nat) (ops pre suf : List CS3.Op3)
    (hsplit : ops = pre ++ suf)
    (hval : CS3.validOps3 (CS3.mkSt3 n) ops = true) :
    CS3.checkStats3 (CS3.applyOps3 (CS3.mkSt3 n) pre) := by
  rw [hsplit] at hval
  have hpre := CS3.validOps3_of_append pre suf (CS3.mkSt3 n) hval
  exact (CS3.applyOps3_preserves pre (CS3.mkSt3 n) (CS3.checkStats3_mkSt3 n)
    (CS3.offsetsOk_mkSt3 n) hpre).1

/-- Witness for C4 at a concrete operation sequence: attach a binary, an
irredundant 4-clause and a learnt ternary, then detach the binary; the
invariant holds after the first three operations. -/
theorem C4_witness :
    ([CS3.Op3.attachBin ⟨0, false⟩ ⟨1, false⟩ false,
      CS3.Op3.addLong [⟨0, false⟩, ⟨1, true⟩, ⟨2, false⟩, ⟨3, false⟩] false,
      CS3.Op3.attachTri ⟨1, false⟩ ⟨2, true⟩ ⟨3, false⟩ true,
      CS3.Op3.detachBin ⟨0, false⟩ ⟨1, false⟩ false] : List CS3.Op3)
      = [CS3.Op3.attachBin ⟨0, false⟩ ⟨1, false⟩ false,
         CS3.Op3.addLong [⟨0, false⟩, ⟨1, true⟩, ⟨2, false⟩, ⟨3, false⟩] false,
         CS3.Op3.attachTri ⟨1, false⟩ ⟨2, true⟩ ⟨3, false⟩ true]
        ++ [CS3.Op3.detachBin ⟨0, false⟩ ⟨1, false⟩ false]
    ∧ CS3.validOps3 (CS3.mkSt3 4)
        [CS3.Op3.attachBin ⟨0, false⟩ ⟨1, false⟩ false,
         CS3.Op3.addLong [⟨0, false⟩, ⟨1, true⟩, ⟨2, false⟩, ⟨3, false⟩] false,
         CS3.Op3.attachTri ⟨1, false⟩ ⟨2, true⟩ ⟨3, false⟩ true,
         CS3.Op3.detachBin ⟨0, false⟩ ⟨1, false⟩ false] = true
    ∧ CS3.checkStats3 (CS3.applyOps3 (CS3.mkSt3 4)
        [CS3.Op3.attachBin ⟨0, false⟩ ⟨1, false⟩ false,
         CS3.Op3.addLong [⟨0, false⟩, ⟨1, true⟩, ⟨2, false⟩, ⟨3, false⟩] false,
         CS3.Op3.attachTri ⟨1, false⟩ ⟨2, true⟩ ⟨3, false⟩ true]) :=
  ⟨by decide, by decide,
   C4_checkStats_invariant 4
     [CS3.Op3.attachBin ⟨0, false⟩ ⟨1, false⟩ false,
      CS3.Op3.addLong [⟨0, false⟩, ⟨1, true⟩, ⟨2, false⟩, ⟨3, false⟩] false,
      CS3.Op3.attachTri ⟨1, false⟩ ⟨2, true⟩ ⟨3, false⟩ true,
      CS3.Op3.detachBin ⟨0, false⟩ ⟨1, false⟩ false]
     [CS3.Op3.attachBin ⟨0, false⟩ ⟨1, false⟩ false,
      CS3.Op3.addLong [⟨0, false⟩, ⟨1, true⟩, ⟨2, false⟩, ⟨3, false⟩] false,
      CS3.Op3.attachTri ⟨1, false⟩ ⟨2, true⟩ ⟨3, false⟩ true]
     [CS3.Op3.detachBin ⟨0, false⟩ ⟨1, false⟩ false]
     (by decide) (by decide)⟩

namespace CS3

theorem solveLoop_not_undef (simplify burst : St3 → LB3 × St3)
    (fuel : Nat) (status : LB3) (s : St3) (h : status ≠ LB3.undef) :
    solveLoop simplify burst fuel status s = (status, s) := by
  cases fuel with
  | zero => rfl
  | succ k => simp [solveLoop, h]

end CS3

/-- C5: when the solver-state flag `ok` is false, every public operation
short-circuits to the UNSAT answer without touching the formula:
`addClause` returns false via `addClauseHelper` with the state unchanged,
and `solve` answers `l_False` after only the clean-limit/assumption
initialisation — for arbitrary simplification and search functions, which
are therefore never consulted. -/
theorem C5_ok_false_short_circuits (s : CS3.St3) (lits : List CS3.L3)
    (simplify burst : CS3.St3 → CS3.LB3 × CS3.St3) (fuel : Nat)
    (assumps : Option (List CS3.L3)) (hok : s.ok = false) :
    CS3.addClause s lits = (false, s)
    ∧ CS3.solve simplify burst fuel s assumps
        = (CS3.LB3.f, { s with
            nextCleanLimitInc := s.startClean
            nextCleanLimit := s.nextCleanLimit + s.startClean
            assumptions := assumps.getD s.assumptions }) := by
  constructor
  · unfold CS3.addClause CS3.addClauseHelper
    rw [hok]
    rfl
  · unfold CS3.solve
    cases assumps with
    | none =>
      simp only [Option.getD]
      rw [CS3.solveLoop_not_undef]
      · simp [hok]
      · simp [hok]
    | some a =>
      simp only [Option.getD]
      rw [CS3.solveLoop_not_undef]
      · simp [hok]
      · simp [hok]

/-- Witness for C5: a one-variable state with `ok = false`; adding a unit
clause fails without touching the state, and solving answers `l_False`. -/
theorem C5_witness :
    CS3.exOkFalse.ok = false
    ∧ (CS3.addClause CS3.exOkFalse [⟨0, false⟩] = (false, CS3.exOkFalse)
      ∧ CS3.solve (fun t => (CS3.LB3.undef, t)) (fun t => (CS3.LB3.undef, t)) 2
          CS3.exOkFalse (some [⟨0, true⟩])
        = (CS3.LB3.f, { CS3.exOkFalse with
            nextCleanLimitInc := CS3.exOkFalse.startClean
            nextCleanLimit := CS3.exOkFalse.nextCleanLimit + CS3.exOkFalse.startClean
            assumptions := (some [⟨0, true⟩] : Option (List CS3.L3)).getD
              CS3.exOkFalse.assumptions })) :=
  ⟨rfl, C5_ok_false_short_circuits CS3.exOkFalse [⟨0, false⟩] _ _ 2
    (some [⟨0, true⟩]) rfl⟩


namespace CS3

theorem propagate3Aux_frame (fuel : Nat) : ∀ s : St3,
    (propagate3Aux fuel s).2.arena = s.arena
    ∧ (propagate3Aux fuel s).2.binWatch = s.binWatch
    ∧ (propagate3Aux fuel s).2.triWatch = s.triWatch
    ∧ (propagate3Aux fuel s).2.longWatches = s.longWatches
    ∧ (propagate3Aux fuel s).2.longIrredCls = s.longIrredCls
    ∧ (propagate3Aux fuel s).2.longRedCls = s.longRedCls
    ∧ ∃ t, (propagate3Aux fuel s).2.trail = s.trail ++ t := by
  induction fuel with
  | zero =>
    intro s
    exact ⟨rfl, rfl, rfl, rfl, rfl, rfl, [], by simp [propagate3Aux]⟩
  | succ k ih =>
    intro s
    unfold propagate3Aux
    cases h : firstUnitConfl3 s (attachedClauses3 s) with
    | none => exact ⟨rfl, rfl, rfl, rfl, rfl, rfl, [], by simp⟩
    | some o =>
      cases o with
      | none => exact ⟨rfl, rfl, rfl, rfl, rfl, rfl, [], by simp⟩
      | some l =>
        have he := ih (s.enqueue l)
        refine ⟨he.1, he.2.1, he.2.2.1, he.2.2.2.1, he.2.2.2.2.1, he.2.2.2.2.2.1, ?_⟩
        obtain ⟨t, ht⟩ := he.2.2.2.2.2.2
        exact ⟨l :: t, by simpa [St3.enqueue] using ht⟩

end CS3

/-- C6: length dispatch of `addClauseInt` after the level-0 literal clean-up:
an empty result sets `ok := false`; a unit result is enqueued immediately and
never stored (arena and watch lists untouched); a 2-literal result goes only
to the binary watch index, a 3-literal result only to the ternary watch
index, leaving the arena unchanged; a result of length ≥ 4 is stored in the
arena and, when attach is requested, watched by its offset — and in every
case of length ≤ 3 the returned clause pointer is `NULL` (`none`). -/
theorem C6_addClauseInt_length_dispatch (st : CS3.St3) (lits qs : List CS3.L3)
    (learnt attach : Bool) (hclean : CS3.cleanPs st lits = some qs) :
    (qs = [] →
      CS3.addClauseInt st lits learnt attach = (none, [], { st with ok := false }))
    ∧ (∀ l, qs = [l] →
        (CS3.addClauseInt st lits learnt attach).1 = none
        ∧ (CS3.addClauseInt st lits learnt attach).2.1 = [l]
        ∧ (CS3.addClauseInt st lits learnt attach).2.2.arena = st.arena
        ∧ (CS3.addClauseInt st lits learnt attach).2.2.binWatch = st.binWatch
        ∧ (CS3.addClauseInt st lits learnt attach).2.2.triWatch = st.triWatch
        ∧ ∃ t, (CS3.addClauseInt st lits learnt attach).2.2.trail
            = st.trail ++ l :: t)
    ∧ (∀ l1 l2, qs = [l1, l2] →
        CS3.addClauseInt st lits learnt attach
          = (none, [l1, l2], CS3.attachBinClause3 l1 l2 learnt st)
        ∧ (CS3.attachBinClause3 l1 l2 learnt st).arena = st.arena)
    ∧ (∀ l1 l2 l3, qs = [l1, l2, l3] →
        CS3.addClauseInt st lits learnt attach
          = (none, [l1, l2, l3], CS3.attachTriClause3 l1 l2 l3 learnt st)
        ∧ (CS3.attachTriClause3 l1 l2 l3 learnt st).arena = st.arena)
    ∧ (∀ l1 l2 l3 l4 rest, qs = l1 :: l2 :: l3 :: l4 :: rest →
        (CS3.addClauseInt st lits learnt attach).1 = some st.arena.length
        ∧ (CS3.addClauseInt st lits learnt attach).2.1 = qs
        ∧ (CS3.addClauseInt st lits learnt attach).2.2.arena
            = st.arena ++ [⟨qs, learnt⟩]
        ∧ (attach = true →
            (CS3.addClauseInt st lits learnt attach).2.2.longWatches
              = st.longWatches ++ [(l1, st.arena.length), (l2, st.arena.length)])) := by
  refine ⟨?_, ?_, ?_, ?_, ?_⟩
  · intro h
    subst h
    unfold CS3.addClauseInt
    rw [hclean]
  · intro l h
    subst h
    unfold CS3.addClauseInt
    rw [hclean]
    cases attach with
    | false =>
      exact ⟨rfl, rfl, rfl, rfl, rfl, [], by simp [CS3.St3.enqueue]⟩
    | true =>
      have hf := CS3.propagate3Aux_frame ((st.enqueue l).nv + 1) (st.enqueue l)
      refine ⟨rfl, rfl, ?_, ?_, ?_, ?_⟩
      · show (CS3.propagate3 (st.enqueue l)).2.arena = st.arena
        exact hf.1
      · show (CS3.propagate3 (st.enqueue l)).2.binWatch = st.binWatch
        exact hf.2.1
      · show (CS3.propagate3 (st.enqueue l)).2.triWatch = st.triWatch
        exact hf.2.2.1
      · obtain ⟨t, ht⟩ := hf.2.2.2.2.2.2
        refine ⟨t, ?_⟩
        show (CS3.propagate3Aux ((st.enqueue l).nv + 1) (st.enqueue l)).2.trail
            = st.trail ++ l :: t
        rw [ht]
        simp [CS3.St3.enqueue]
  · intro l1 l2 h
    subst h
    unfold CS3.addClauseInt
    rw [hclean]
    exact ⟨rfl, by cases learnt <;> rfl⟩
  · intro l1 l2 l3 h
    subst h
    unfold CS3.addClauseInt
    rw [hclean]
    exact ⟨rfl, by cases learnt <;> rfl⟩
  · intro l1 l2 l3 l4 rest h
    subst h
    have hga : (st.arena ++ [CS3.Clause3.mk (l1 :: l2 :: l3 :: l4 :: rest) learnt]).getD
        st.arena.length ⟨[], false⟩
        = CS3.Clause3.mk (l1 :: l2 :: l3 :: l4 :: rest) learnt :=
      CS3.getD_concat_self _ _ _
    unfold CS3.addClauseInt
    rw [hclean]
    cases attach with
    | false =>
      cases learnt with
      | false => exact ⟨rfl, rfl, rfl, by intro hc; cases hc⟩
      | true => exact ⟨rfl, rfl, rfl, by intro hc; cases hc⟩
    | true =>
      refine ⟨rfl, rfl, ?_, ?_⟩
      · show (CS3.attachClause3 st.arena.length
            { st with arena := st.arena
              ++ [⟨l1 :: l2 :: l3 :: l4 :: rest, learnt⟩] }).arena
            = st.arena ++ [⟨l1 :: l2 :: l3 :: l4 :: rest, learnt⟩]
        simp only [CS3.attachClause3, hga]
        cases learnt <;> simp
      · intro _
        show (CS3.attachClause3 st.arena.length
            { st with arena := st.arena
              ++ [⟨l1 :: l2 :: l3 :: l4 :: rest, learnt⟩] }).longWatches
            = st.longWatches ++ [(l1, st.arena.length), (l2, st.arena.length)]
        simp only [CS3.attachClause3, hga]
        cases learnt <;> simp [List.getD]

/-- Witness for C6 at a four-literal clause over a fresh five-variable
state: the clean-up sorts the literals, and the clause is stored in the
arena at the first offset. -/
theorem C6_witness :
    CS3.cleanPs CS3.exC6st CS3.exC6lits = some CS3.exC6qs
    ∧ (CS3.addClauseInt CS3.exC6st CS3.exC6lits false true).1
        = some CS3.exC6st.arena.length
    ∧ (CS3.addClauseInt CS3.exC6st CS3.exC6lits false true).2.2.arena
        = CS3.exC6st.arena ++ [⟨CS3.exC6qs, false⟩] :=
  ⟨by decide,
   ((C6_addClauseInt_length_dispatch CS3.exC6st CS3.exC6lits CS3.exC6qs false true
      (by decide)).2.2.2.2 ⟨0, false⟩ ⟨1, false⟩ ⟨2, false⟩ ⟨3, false⟩ [] (by decide)).1,
   ((C6_addClauseInt_length_dispatch CS3.exC6st CS3.exC6lits CS3.exC6qs false true
      (by decide)).2.2.2.2 ⟨0, false⟩ ⟨1, false⟩ ⟨2, false⟩ ⟨3, false⟩ [] (by decide)).2.2.1⟩

namespace CS3

theorem L3.toNat_inj {a b : L3} (h : L3.toNat a = L3.toNat b) : a = b := by
  cases a with
  | mk av asgn =>
    cases b with
    | mk bv bsgn =>
      cases asgn <;> cases bsgn <;> simp [L3.toNat] at h ⊢ <;> omega

theorem L3.neg_ne (l : L3) : l.neg ≠ l := by
  cases l with
  | mk v sgn => cases sgn <;> simp [L3.neg]

theorem L3.neg_involutive (l : L3) : l.neg.neg = l := by
  cases l with
  | mk v sgn => simp [L3.neg]

theorem L3.toNat_neg_of_sgn_false (l : L3) (h : l.sgn = false) :
    L3.toNat l.neg = L3.toNat l + 1 := by
  cases l with
  | mk v sgn =>
    simp at h
    subst h
    simp [L3.toNat, L3.neg]

theorem value3_neg (s : St3) (l : L3) :
    s.value l.neg = (s.value l).map Bool.not := by
  cases l with
  | mk v sgn =>
    simp only [St3.value, L3.neg]
    cases hg : s.assigns.getD v none with
    | none => rfl
    | some b => cases b <;> cases sgn <;> rfl

theorem value3_none_of_neg_none (s : St3) (l : L3) (h : s.value l.neg = none) :
    s.value l = none := by
  rw [value3_neg] at h
  cases hv : s.value l with
  | none => rfl
  | some b => rw [hv] at h; cases h

theorem scanPs_none_of_true (s : St3) :
    ∀ (xs : List L3) (p : Option L3), (∃ l ∈ xs, s.value l = some true) →
      scanPs s xs p = none := by
  intro xs
  induction xs with
  | nil =>
    intro p h
    obtain ⟨l, hl, _⟩ := h
    cases hl
  | cons x rest ih =>
    intro p hex
    obtain ⟨l, hl, hv⟩ := hex
    unfold scanPs
    by_cases hc : s.value x = some true ∨ some x = p.map L3.neg
    · rw [if_pos hc]
    · rw [if_neg hc]
      have hlr : l ∈ rest := by
        rcases List.mem_cons.mp hl with h1 | h2
        · exact absurd (Or.inl (h1 ▸ hv)) hc
        · exact h2
      by_cases hk : s.value x ≠ some false ∧ some x ≠ p
      · rw [if_pos hk, ih (some x) ⟨l, hlr, hv⟩]
      · rw [if_neg hk]
        exact ih p ⟨l, hlr, hv⟩

theorem scanPs_none_taut_aux (s : St3) (y : L3) (hsgn : y.sgn = false)
    (hyn : s.value y.neg = none) :
    ∀ xs : List L3, xs.Pairwise (fun a b => L3.toNat a ≤ L3.toNat b) →
      y.neg ∈ xs → (∀ z ∈ xs, L3.toNat y ≤ L3.toNat z) →
      scanPs s xs (some y) = none := by
  intro xs
  induction xs with
  | nil =>
    intro _ hmem _
    cases hmem
  | cons x rest ih =>
    intro hpw hmem hge
    unfold scanPs
    by_cases hx : x = y.neg
    · rw [if_pos]
      right
      rw [hx]
      rfl
    · have hmr : y.neg ∈ rest := by
        rcases List.mem_cons.mp hmem with h1 | h2
        · exact absurd h1.symm hx
        · exact h2
      have hle : L3.toNat x ≤ L3.toNat y.neg := (List.pairwise_cons.mp hpw).1 y.neg hmr
      have hgex : L3.toNat y ≤ L3.toNat x := hge x (List.mem_cons_self x rest)
      have hnn := L3.toNat_neg_of_sgn_false y hsgn
      have hxy : x = y := by
        have hcases : L3.toNat x = L3.toNat y ∨ L3.toNat x = L3.toNat y.neg := by omega
        rcases hcases with h1 | h2
        · exact L3.toNat_inj h1
        · exact absurd (L3.toNat_inj h2) hx
      subst hxy
      have hvx : s.value x = none := value3_none_of_neg_none s x hyn
      rw [if_neg]
      · rw [if_neg]
        · exact ih (List.pairwise_cons.mp hpw).2 hmr
            (fun z hz => hge z (List.mem_cons_of_mem x hz))
        · intro hk
          exact hk.2 rfl
      · rintro (hc | hc)
        · rw [hvx] at hc
          cases hc
        · have : x = x.neg := by simpa using hc
          exact (L3.neg_ne x) this.symm

theorem scanPs_none_taut (s : St3) (y : L3) (hsgn : y.sgn = false)
    (hvy : s.value y = none) :
    ∀ (xs : List L3) (p : Option L3),
      xs.Pairwise (fun a b => L3.toNat a ≤ L3.toNat b) →
      y ∈ xs → y.neg ∈ xs →
      scanPs s xs p = none := by
  have hyn : s.value y.neg = none := by
    rw [value3_neg, hvy]
    rfl
  intro xs
  induction xs with
  | nil =>
    intro p _ hm _
    cases hm
  | cons x rest ih =>
    intro p hpw hmy hmyn
    have hynney : y ≠ y.neg := fun h => (L3.neg_ne y) h.symm
    by_cases hxyn : x = y.neg
    · exfalso
      have hyr : y ∈ rest := by
        rcases List.mem_cons.mp hmy with h1 | h2
        · exact absurd (h1.trans hxyn) hynney
        · exact h2
      have hle : L3.toNat x ≤ L3.toNat y := (List.pairwise_cons.mp hpw).1 y hyr
      have hnn := L3.toNat_neg_of_sgn_false y hsgn
      rw [hxyn] at hle
      omega
    · have hynr : y.neg ∈ rest := by
        rcases List.mem_cons.mp hmyn with h1 | h2
        · exact absurd h1.symm hxyn
        · exact h2
      unfold scanPs
      by_cases hc : s.value x = some true ∨ some x = p.map L3.neg
      · rw [if_pos hc]
      · rw [if_neg hc]
        by_cases hxy : x = y
        · subst hxy
          by_cases hk : s.value x ≠ some false ∧ some x ≠ p
          · rw [if_pos hk, scanPs_none_taut_aux s x hsgn hyn rest
              (List.pairwise_cons.mp hpw).2 hynr
              (fun z hz => (List.pairwise_cons.mp hpw).1 z hz)]
          · rw [if_neg hk]
            have hp : p = some x := by
              rcases Decidable.not_and_iff_or_not.mp hk with hf | hpp
              · exact absurd hvy (Decidable.not_not.mp hf ▸ (by simp))
              · exact (Decidable.not_not.mp hpp).symm
            rw [hp]
            exact scanPs_none_taut_aux s x hsgn hyn rest
              (List.pairwise_cons.mp hpw).2 hynr
              (fun z hz => (List.pairwise_cons.mp hpw).1 z hz)
        · have hyr : y ∈ rest := by
            rcases List.mem_cons.mp hmy with h1 | h2
            · exact absurd h1.symm hxy
            · exact h2
          by_cases hk : s.value x ≠ some false ∧ some x ≠ p
          · rw [if_pos hk, ih (some x) (List.pairwise_cons.mp hpw).2 hyr hynr]
          · rw [if_neg hk]
            exact ih p (List.pairwise_cons.mp hpw).2 hyr hynr

end CS3

namespace CS3

theorem scanPs_eq_spec (s : St3) :
    ∀ (xs : List L3) (p : Option L3),
      (∀ l ∈ xs, s.value l ≠ some true) →
      (∀ q, p = some q → q.neg ∉ xs) →
      (∀ l ∈ xs, l.neg ∉ xs) →
      scanPs s xs p
        = some (dedupAdj (xs.filter (fun l => decide (¬ s.value l = some false))) p) := by
  intro xs
  induction xs with
  | nil =>
    intro p _ _ _
    rfl
  | cons x rest ih =>
    intro p h1 h2 h3
    have h1r : ∀ l ∈ rest, s.value l ≠ some true :=
      fun l hl => h1 l (List.mem_cons_of_mem x hl)
    have h3r : ∀ l ∈ rest, l.neg ∉ rest :=
      fun l hl hn => h3 l (List.mem_cons_of_mem x hl) (List.mem_cons_of_mem x hn)
    unfold scanPs
    have hnt : ¬ (s.value x = some true ∨ some x = p.map L3.neg) := by
      rintro (hc | hc)
      · exact h1 x (List.mem_cons_self x rest) hc
      · cases p with
        | none => cases hc
        | some q =>
          have hxq : x = q.neg := by simpa using hc
          exact h2 q rfl (hxq ▸ List.mem_cons_self x rest)
    rw [if_neg hnt]
    by_cases hk : s.value x ≠ some false ∧ some x ≠ p
    · have hrec := ih (some x)
        h1r
        (fun q hq hm => by
          injection hq with hq
          subst hq
          exact h3 x (List.mem_cons_self x rest) (List.mem_cons_of_mem x hm))
        h3r
      rw [if_pos hk]
      simp only [hrec]
      have hfilter : List.filter (fun l => decide (¬ s.value l = some false)) (x :: rest)
          = x :: List.filter (fun l => decide (¬ s.value l = some false)) rest := by
        simp [List.filter_cons, hk.1]
      rw [hfilter]
      simp only [dedupAdj]
      rw [if_neg hk.2]
    · rw [if_neg hk]
      by_cases hfv : s.value x = some false
      · have hrec := ih p h1r
          (fun q hq hm => h2 q hq (List.mem_cons_of_mem x hm))
          h3r
        rw [hrec]
        have hfilter : List.filter (fun l => decide (¬ s.value l = some false)) (x :: rest)
            = List.filter (fun l => decide (¬ s.value l = some false)) rest := by
          simp [List.filter_cons, hfv]
        rw [hfilter]
      · have hpx : some x = p := by
          by_contra hne
          exact hk ⟨hfv, hne⟩
        have hrec := ih p h1r
          (fun q hq hm => h2 q hq (List.mem_cons_of_mem x hm))
          h3r
        rw [hrec]
        have hfilter : List.filter (fun l => decide (¬ s.value l = some false)) (x :: rest)
            = x :: List.filter (fun l => decide (¬ s.value l = some false)) rest := by
          simp [List.filter_cons, hfv]
        rw [hfilter]
        simp only [dedupAdj]
        rw [if_pos hpx]

theorem sortL3_pairwise (lits : List L3) :
    (sortL3 lits).Pairwise (fun a b => L3.toNat a ≤ L3.toNat b) :=
  List.sorted_insertionSort (fun a b : L3 => L3.toNat a ≤ L3.toNat b) lits

theorem mem_sortL3 (lits : List L3) (x : L3) : x ∈ sortL3 lits ↔ x ∈ lits :=
  (List.perm_insertionSort (fun a b : L3 => L3.toNat a ≤ L3.toNat b) lits).mem_iff

end CS3

/-- C10: `addClauseInt` silently drops satisfied and tautological clauses —
for any input containing a literal true at level 0 or both a literal and its
negation, it returns `NULL` (`none`) with the state (clause database, watch
lists and counters included) unchanged; for all other inputs, the clean-up
step computes exactly the spec's final literal set: the sorted input with
level-0-false literals and duplicate literals removed. -/
theorem C10_addClauseInt_drops_satisfied_and_tautological
    (st : CS3.St3) (lits : List CS3.L3) (learnt attach : Bool) :
    ((∃ l ∈ lits, st.value l = some true) ∨ (∃ l ∈ lits, CS3.L3.neg l ∈ lits) →
      CS3.addClauseInt st lits learnt attach = (none, [], st))
    ∧ ((∀ l ∈ lits, st.value l ≠ some true) → (∀ l ∈ lits, CS3.L3.neg l ∉ lits) →
      CS3.cleanPs st lits = some (CS3.specCleanLits st lits)) := by
  constructor
  · intro hdrop
    have hnone : CS3.cleanPs st lits = none := by
      unfold CS3.cleanPs
      rcases hdrop with ⟨l, hl, hv⟩ | ⟨l, hl, hln⟩
      · exact CS3.scanPs_none_of_true st (CS3.sortL3 lits) none
          ⟨l, (CS3.mem_sortL3 lits l).mpr hl, hv⟩
      · have hy : ∃ y : CS3.L3, y.sgn = false ∧ y ∈ lits ∧ CS3.L3.neg y ∈ lits := by
          cases hsg : l.sgn with
          | false => exact ⟨l, hsg, hl, hln⟩
          | true =>
            refine ⟨l.neg, ?_, hln, ?_⟩
            · cases l with
              | mk v sgn => simp at hsg; subst hsg; rfl
            · rw [CS3.L3.neg_involutive]
              exact hl
        obtain ⟨y, hsgn, hyl, hynl⟩ := hy
        cases hv : st.value y with
        | none =>
          exact CS3.scanPs_none_taut st y hsgn hv (CS3.sortL3 lits) none
            (CS3.sortL3_pairwise lits)
            ((CS3.mem_sortL3 lits y).mpr hyl)
            ((CS3.mem_sortL3 lits y.neg).mpr hynl)
        | some b =>
          cases b with
          | true =>
            exact CS3.scanPs_none_of_true st (CS3.sortL3 lits) none
              ⟨y, (CS3.mem_sortL3 lits y).mpr hyl, hv⟩
          | false =>
            have hvn : st.value y.neg = some true := by
              rw [CS3.value3_neg, hv]
              rfl
            exact CS3.scanPs_none_of_true st (CS3.sortL3 lits) none
              ⟨y.neg, (CS3.mem_sortL3 lits y.neg).mpr hynl, hvn⟩
    unfold CS3.addClauseInt
    rw [hnone]
  · intro h1 h3
    unfold CS3.cleanPs CS3.specCleanLits
    exact CS3.scanPs_eq_spec st (CS3.sortL3 lits) none
      (fun l hl => h1 l ((CS3.mem_sortL3 lits l).mp hl))
      (fun q hq => by cases hq)
      (fun l hl hn => h3 l ((CS3.mem_sortL3 lits l).mp hl)
        ((CS3.mem_sortL3 lits l.neg).mp hn))

/-- Witness for C10: a tautological binary clause is dropped with the state
untouched, and on a clause with a false literal and a duplicate the clean-up
equals the spec's sorted/filtered/deduplicated literal set. -/
theorem C10_witness :
    CS3.addClauseInt (CS3.mkSt3 2) [⟨0, false⟩, ⟨0, true⟩] false true
      = (none, [], CS3.mkSt3 2)
    ∧ CS3.cleanPs CS3.exC10st CS3.exC10lits
      = some (CS3.specCleanLits CS3.exC10st CS3.exC10lits) :=
  ⟨(C10_addClauseInt_drops_satisfied_and_tautological (CS3.mkSt3 2)
      [⟨0, false⟩, ⟨0, true⟩] false true).1 (Or.inr (by decide)),
   (C10_addClauseInt_drops_satisfied_and_tautological CS3.exC10st
      CS3.exC10lits false true).2 (by decide) (by decide)⟩

/-- C9: evaluation of `dumpIrredClauses` on `exDump`.  The two clause lines
of the equivalence section (`x1 = x0`, printed as `(¬x0 ∨ x1)` and
`(x0 ∨ ¬x1)`) end in `2` and `-2` — the `os << litP1 << " " << litP2 << endl`
statements at source lines 1757-1758 omit the DIMACS terminator — while
every line of the unit, binary, long and blocked sections does end in `0`;
so the claim that every emitted clause line is `0`-terminated is false. -/
theorem C9_dumpIrredClauses_equivalence_lines_unterminated :
    CS3.dumpEquivLines CS3.exDump = [[-1, 2], [1, -2]]
    ∧ [-1, 2] ∈ CS3.dumpIrredClauses CS3.exDump
    ∧ ([-1, 2] : List Int).getLast? = some 2
    ∧ ([1, -2] : List Int).getLast? = some (-2)
    ∧ (∀ line ∈ CS3.dumpUnitLines CS3.exDump, line.getLast? = some 0)
    ∧ (∀ line ∈ CS3.dumpBinClauses false true CS3.exDump, line.getLast? = some 0)
    ∧ (∀ line ∈ CS3.dumpLongLines CS3.exDump, line.getLast? = some 0)
    ∧ (∀ line ∈ CS3.dumpBlockedLines CS3.exDump, line.getLast? = some 0) := by
  decide

namespace CS2

theorem frameOk_refl (s : S2) : s.frameOk s := ⟨rfl, rfl, rfl, rfl, rfl⟩

theorem frameOk_trans {s t u : S2} (h1 : s.frameOk t) (h2 : t.frameOk u) :
    s.frameOk u :=
  ⟨h2.1.trans h1.1, h2.2.1.trans h1.2.1, h2.2.2.1.trans h1.2.2.1,
   h2.2.2.2.1.trans h1.2.2.2.1, h2.2.2.2.2.trans h1.2.2.2.2⟩

theorem heapH_of_frameOk {s t : S2} (h : s.frameOk t) (hH : s.heapH) : t.heapH := by
  intro x hx hd
  rw [h.2.2.2.2] at hx hd
  rw [h.2.2.2.1]
  exact hH x hx hd

theorem frameOk_enqueue (s : S2) (l : CLit) : s.frameOk (s.enqueue l) :=
  ⟨rfl, rfl, rfl, rfl, rfl⟩

theorem frameOk_newDecisionLevel (s : S2) : s.frameOk s.newDecisionLevel :=
  ⟨rfl, rfl, rfl, rfl, rfl⟩

theorem frameOk_propagateAux (g : S2 → List (List CLit)) (fuel : Nat) (s : S2) :
    s.frameOk (propagateAux g fuel s).2 := by
  have h := propagateAux_frame g fuel s
  exact ⟨h.2.2.2.2.2.2.1, h.2.2.2.2.2.2.2.1, h.2.2.2.2.2.2.2.2.1,
    h.2.2.2.2.2.2.2.2.2.1, h.2.2.2.2.2.2.2.2.2.2.1⟩

theorem frameOk_propagate (s : S2) : s.frameOk s.propagate.2 :=
  frameOk_propagateAux S2.allClauses (s.numVars + 1) s

theorem frameOk_propagateBin (s : S2) : s.frameOk s.propagateBin.2 :=
  frameOk_propagateAux S2.binOnly (s.numVars + 1) s

theorem cancelStep_frame (s : S2) (l : CLit) (hH : s.heapH) :
    s.frameOk (s.cancelStep l) := by
  unfold S2.cancelStep S2.insertVarOrder
  by_cases hd : s.decisionVar.getD l.v false = true
  · have hlt : l.v < s.decisionVar.length := by
      by_contra hge
      rw [List.getD_eq_default _ _ (Nat.le_of_not_lt hge)] at hd
      cases hd
    have hmem := hH l.v hlt hd
    rw [if_neg]
    · exact ⟨rfl, rfl, rfl, rfl, rfl⟩
    · simp [hmem]
  · rw [if_neg]
    · exact ⟨rfl, rfl, rfl, rfl, rfl⟩
    · simp [Bool.not_eq_true] at hd
      simp [hd]

theorem cancelFold_frame :
    ∀ (ls : List CLit) (s : S2), s.heapH →
      s.frameOk (ls.foldl S2.cancelStep s) := by
  intro ls
  induction ls with
  | nil => intro s _; exact frameOk_refl s
  | cons l rest ih =>
    intro s hH
    have h1 := cancelStep_frame s l hH
    exact frameOk_trans h1 (ih (s.cancelStep l) (heapH_of_frameOk h1 hH))

theorem cancelUntil0_frame (s : S2) (hH : s.heapH) : s.frameOk s.cancelUntil0 := by
  unfold S2.cancelUntil0
  cases hl : s.trailLim with
  | nil => exact frameOk_refl s
  | cons k tl =>
    have h := cancelFold_frame (s.trail.drop k) s hH
    exact ⟨h.1, h.2.1, h.2.2.1, h.2.2.2.1, h.2.2.2.2⟩

theorem enqueueFold_frame :
    ∀ (ps : List (Nat × Bool)) (s : S2),
      s.frameOk (ps.foldl (fun t p => t.enqueue ⟨p.1, p.2⟩) s) := by
  intro ps
  induction ps with
  | nil => intro s; exact frameOk_refl s
  | cons p rest ih =>
    intro s
    exact frameOk_trans (frameOk_enqueue s ⟨p.1, p.2⟩) (ih (s.enqueue ⟨p.1, p.2⟩))

theorem tryBothFailStep_frame (s1 : S2) (l : CLit) (hH : s1.heapH) :
    s1.frameOk (tryBothFailStep s1 l).2 := by
  unfold tryBothFailStep
  have h1 := cancelUntil0_frame s1 hH
  have h2 : s1.cancelUntil0.frameOk
      ({ s1.cancelUntil0 with numFailed := s1.cancelUntil0.numFailed + 1 } : S2) :=
    ⟨rfl, rfl, rfl, rfl, rfl⟩
  have h3 := frameOk_enqueue
    ({ s1.cancelUntil0 with numFailed := s1.cancelUntil0.numFailed + 1 } : S2) l.neg
  have h4 := frameOk_propagate
    (({ s1.cancelUntil0 with numFailed := s1.cancelUntil0.numFailed + 1 } : S2).enqueue l.neg)
  have h := frameOk_trans h1 (frameOk_trans h2 (frameOk_trans h3 h4))
  exact ⟨h.1, h.2.1, h.2.2.1, h.2.2.2.1, h.2.2.2.2⟩

theorem successState_frame (sE : S2) (l1 l2 : CLit) (pr pv : List Bool)
    (hH : sE.heapH) : sE.frameOk (successState sE l1 l2 pr pv) := by
  unfold successState
  have h1 := cancelUntil0_frame sE hH
  have h2 : sE.cancelUntil0.frameOk
      ({ sE.cancelUntil0 with replaceQueue := sE.cancelUntil0.replaceQueue
          ++ (walkResults sE l1 l2 pr pv).2.2 } : S2) :=
    ⟨rfl, rfl, rfl, rfl, rfl⟩
  have h3 := enqueueFold_frame (walkResults sE l1 l2 pr pv).2.1
    ({ sE.cancelUntil0 with replaceQueue := sE.cancelUntil0.replaceQueue
        ++ (walkResults sE l1 l2 pr pv).2.2 } : S2)
  have h := frameOk_trans h1 (frameOk_trans h2 h3)
  exact ⟨h.1, h.2.1, h.2.2.1, h.2.2.2.1, h.2.2.2.2⟩

theorem tryBothSuccessEnd_frame (sE : S2) (l1 l2 : CLit) (pr pv : List Bool)
    (hH : sE.heapH) : sE.frameOk (tryBothSuccessEnd sE l1 l2 pr pv).2 := by
  unfold tryBothSuccessEnd
  have h1 := successState_frame sE l1 l2 pr pv hH
  have h2 := frameOk_propagate (successState sE l1 l2 pr pv)
  have h := frameOk_trans h1 h2
  exact ⟨h.1, h.2.1, h.2.2.1, h.2.2.2.1, h.2.2.2.2⟩

theorem tryBoth_frame (s0 : S2) (l1 l2 : CLit) (hH : s0.heapH) :
    s0.frameOk (s0.tryBoth l1 l2).2 := by
  have hA : s0.frameOk (((s0.newDecisionLevel).enqueue l1).propagate).2 :=
    frameOk_trans (frameOk_newDecisionLevel s0)
      (frameOk_trans (frameOk_enqueue s0.newDecisionLevel l1)
        (frameOk_propagate ((s0.newDecisionLevel).enqueue l1)))
  have hHA := heapH_of_frameOk hA hH
  cases h1 : (((s0.newDecisionLevel).enqueue l1).propagate).1 with
  | true =>
    rw [tryBoth_eq_fail1 s0 l1 l2 h1]
    exact frameOk_trans hA
      (tryBothFailStep_frame (((s0.newDecisionLevel).enqueue l1).propagate).2 l1 hHA)
  | false =>
    have hB : (((s0.newDecisionLevel).enqueue l1).propagate).2.frameOk
        (((((((s0.newDecisionLevel).enqueue l1).propagate).2.cancelUntil0).newDecisionLevel).enqueue
            l2).propagate).2 := by
      have hc := cancelUntil0_frame (((s0.newDecisionLevel).enqueue l1).propagate).2 hHA
      exact frameOk_trans hc
        (frameOk_trans (frameOk_newDecisionLevel _)
          (frameOk_trans (frameOk_enqueue _ l2) (frameOk_propagate _)))
    have hHB := heapH_of_frameOk hB hHA
    cases h2 :
        (((((((s0.newDecisionLevel).enqueue l1).propagate).2.cancelUntil0).newDecisionLevel).enqueue
            l2).propagate).1 with
    | true =>
      rw [tryBoth_eq_fail2 s0 l1 l2 h1 h2]
      exact frameOk_trans hA (frameOk_trans hB (tryBothFailStep_frame _ l2 hHB))
    | false =>
      rw [tryBoth_eq_success s0 l1 l2 h1 h2]
      exact frameOk_trans hA (frameOk_trans hB (tryBothSuccessEnd_frame _ l1 l2 _ _ hHB))

end CS2

namespace CS2

theorem addClauseInt2_frame (s : S2) (c : List CLit) :
    s.frameOk (addClauseInt2 s c).2 := by
  unfold addClauseInt2
  cases hc : cleanClause2 s c with
  | none => exact frameOk_refl s
  | some q =>
    match q with
    | [] => exact ⟨rfl, rfl, rfl, rfl, rfl⟩
    | [l] =>
      have h := frameOk_trans (frameOk_enqueue s l) (frameOk_propagate (s.enqueue l))
      exact ⟨h.1, h.2.1, h.2.2.1, h.2.2.2.1, h.2.2.2.2⟩
    | [l1, l2] => exact ⟨rfl, rfl, rfl, rfl, rfl⟩
    | q1 :: q2 :: q3 :: qr => exact ⟨rfl, rfl, rfl, rfl, rfl⟩

theorem readdLoop_frame :
    ∀ (cs kept : List (List CLit)) (s : S2), s.frameOk (readdLoop s cs kept).2 := by
  intro cs
  induction cs with
  | nil => intro kept s; exact frameOk_refl s
  | cons c rest ih =>
    intro kept s
    have h1 := addClauseInt2_frame s c
    unfold readdLoop
    by_cases hok : (addClauseInt2 s c).2.ok = true
    · rw [if_pos hok]
      exact frameOk_trans h1 (ih _ (addClauseInt2 s c).2)
    · rw [if_neg hok]
      exact h1

theorem readdRemovedLearnts_frame (s : S2) :
    s.frameOk (readdRemovedLearnts s).2 := by
  unfold readdRemovedLearnts
  have h := readdLoop_frame s.removedLearnts [] s
  exact ⟨h.1, h.2.1, h.2.2.1, h.2.2.2.1, h.2.2.2.2⟩

theorem searchPre_frame (s : S2) : s.frameOk (searchPre s).2 := by
  unfold searchPre
  by_cases hro : s.readdOldLearnts = true
  · rw [if_pos hro]
    exact readdRemovedLearnts_frame s
  · rw [if_neg hro]
    exact frameOk_refl s

theorem searchMid_frame (s : S2) : s.frameOk (searchMid s) :=
  ⟨rfl, rfl, rfl, rfl, rfl⟩

end CS2


namespace CS2

theorem orderLitsLoop_frame (oldProps : Nat) :
    ∀ (fuel : Nat) (s : S2), s.heapH →
      s.frameOk (orderLitsLoop oldProps fuel s).2 := by
  intro fuel
  induction fuel with
  | zero => intro s _; exact frameOk_refl s
  | succ k ih =>
    intro s hH
    have h0 : s.frameOk ({ s with randStream := s.randStream.tail } : S2) :=
      ⟨rfl, rfl, rfl, rfl, rfl⟩
    have hH0 := heapH_of_frameOk h0 hH
    have h1 : s.frameOk ({ s with randStream := s.randStream.tail.tail } : S2) :=
      ⟨rfl, rfl, rfl, rfl, rfl⟩
    have hH1 := heapH_of_frameOk h1 hH
    have hpb : ∀ rl : CLit, s.frameOk
        (((({ s with randStream := s.randStream.tail.tail } : S2).newDecisionLevel).enqueue
            rl).propagateBin).2 := by
      intro rl
      exact frameOk_trans h1 (frameOk_trans (frameOk_newDecisionLevel _)
        (frameOk_trans (frameOk_enqueue _ rl) (frameOk_propagateBin _)))
    have hpr : ∀ rl : CLit, s.frameOk
        ((((((({ s with randStream := s.randStream.tail.tail } : S2).newDecisionLevel).enqueue
            rl).propagateBin).2.cancelUntil0).enqueue rl.neg).propagate).2 := by
      intro rl
      have hc := cancelUntil0_frame _ (heapH_of_frameOk (hpb rl) hH)
      exact frameOk_trans (hpb rl) (frameOk_trans hc
        (frameOk_trans (frameOk_enqueue _ rl.neg) (frameOk_propagate _)))
    have hpr4 : ∀ (rl : CLit) (b : Bool), s.frameOk
        ({ (((((({ s with randStream := s.randStream.tail.tail } : S2).newDecisionLevel).enqueue
            rl).propagateBin).2.cancelUntil0).enqueue rl.neg).propagate.2 with ok := b } : S2) := by
      intro rl b
      have h := hpr rl
      exact ⟨h.1, h.2.1, h.2.2.1, h.2.2.2.1, h.2.2.2.2⟩
    have hs3 : ∀ (rl : CLit) (deg : List Nat), s.frameOk
        ({ ((({ s with randStream := s.randStream.tail.tail } : S2).newDecisionLevel).enqueue
            rl).propagateBin.2 with litDegrees := deg } : S2) := by
      intro rl deg
      have h := hpb rl
      exact ⟨h.1, h.2.1, h.2.2.1, h.2.2.2.1, h.2.2.2.2⟩
    have hlast : ∀ (rl : CLit) (deg : List Nat),
        s.frameOk (({ ((({ s with randStream := s.randStream.tail.tail } : S2).newDecisionLevel).enqueue
            rl).propagateBin.2 with litDegrees := deg } : S2).cancelUntil0) := by
      intro rl deg
      exact frameOk_trans (hs3 rl deg)
        (cancelUntil0_frame _ (heapH_of_frameOk (hs3 rl deg) hH))
    simp only [orderLitsLoop]
    split
    · exact frameOk_refl s
    · split
      · exact frameOk_trans h0 (ih _ hH0)
      · split
        · split
          · exact hpr4 _ _
          · exact frameOk_trans (hpr4 _ _) (ih _ (heapH_of_frameOk (hpr4 _ _) hH))
        · exact frameOk_trans (hlast _ _) (ih _ (heapH_of_frameOk (hlast _ _) hH))

end CS2

namespace CS2

theorem orderLits_frame (s : S2) (hH : s.heapH) : s.frameOk (orderLits s).2 := by
  unfold orderLits
  cases hr : orderLitsLoop s.props 1000000 s with
  | mk b s1 =>
    have h := orderLitsLoop_frame s.props 1000000 s hH
    rw [hr] at h
    cases b with
    | false => exact h
    | true => exact ⟨h.1, h.2.1, h.2.2.1, h.2.2.2.1, h.2.2.2.2⟩

theorem searchLoop_frame (origProps numProps : Nat) :
    ∀ (fuel var : Nat) (s : S2), s.heapH →
      s.frameOk (searchLoop origProps numProps fuel var s) := by
  intro fuel
  induction fuel with
  | zero => intro var s _; exact frameOk_refl s
  | succ k ih =>
    intro var s hH
    simp only [searchLoop]
    split
    · split
      · exact ⟨rfl, rfl, rfl, rfl, rfl⟩
      · split
        · exact frameOk_trans (tryBoth_frame s _ _ hH)
            (ih _ _ (heapH_of_frameOk (tryBoth_frame s _ _ hH) hH))
        · exact tryBoth_frame s _ _ hH
    · exact ih _ s hH

theorem searchEnd_spec (rac det rol : S2 → S2) (oh ot : Nat) (bH : List Nat)
    (bP : List Bool) (bA : List Nat) (bV : Nat) (s : S2) :
    (searchEnd rac det rol oh ot bH bP bA bV s).2.varInc = bV
    ∧ (searchEnd rac det rol oh ot bH bP bA bV s).2.activity = bA
    ∧ (searchEnd rac det rol oh ot bH bP bA bV s).2.polarity = bP
    ∧ (searchEnd rac det rol oh ot bH bP bA bV s).2.orderHeap
        = bH.filter (fun v =>
            ((searchEnd rac det rol oh ot bH bP bA bV s).2.assigns.getD v none == none)
              && (searchEnd rac det rol oh ot bH bP bA bV s).2.decisionVar.getD v false) :=
  ⟨rfl, rfl, rfl, rfl⟩

end CS2

namespace CS2

theorem search_eq_preFail (rac det rol : S2 → S2) (n : Nat) (s : S2)
    (h : (searchPre s).1 = false) :
    search rac det rol n s
      = searchEnd rac det rol s.orderHeap.length (searchPre s).2.trail.length
          s.orderHeap s.polarity s.activity s.varInc (searchPre s).2 := by
  unfold search
  simp [h]

theorem search_eq_noExtra (rac det rol : S2 → S2) (n : Nat) (s : S2)
    (h1 : (searchPre s).1 = true)
    (h2 : (searchMid (searchPre s).2).addExtraBins = false) :
    search rac det rol n s
      = searchMain rac det rol
          (scaledNumProps n (searchMid (searchPre s).2).numPropsMultiplier)
          s.orderHeap.length (searchMid (searchPre s).2).trail.length
          (searchMid (searchPre s).2).props s.orderHeap s.polarity s.activity
          s.varInc (searchMid (searchPre s).2) := by
  unfold search
  simp [h1, h2]

theorem search_eq_extraFail (rac det rol : S2 → S2) (n : Nat) (s : S2)
    (h1 : (searchPre s).1 = true)
    (h2 : (searchMid (searchPre s).2).addExtraBins = true)
    (h3 : (orderLits (searchMid (searchPre s).2)).1 = false) :
    search rac det rol n s
      = (false, (orderLits (searchMid (searchPre s).2)).2) := by
  unfold search
  simp only [h1, Bool.not_true, Bool.false_eq_true, if_false, h2, if_true]
  cases ho : orderLits (searchMid (searchPre s).2) with
  | mk b sD =>
    rw [ho] at h3
    cases b with
    | false => rfl
    | true => cases h3
  
theorem search_eq_extraOk (rac det rol : S2 → S2) (n : Nat) (s : S2)
    (h1 : (searchPre s).1 = true)
    (h2 : (searchMid (searchPre s).2).addExtraBins = true)
    (h3 : (orderLits (searchMid (searchPre s).2)).1 = true) :
    search rac det rol n s
      = searchMain rac det rol
          (scaledNumProps n (searchMid (searchPre s).2).numPropsMultiplier)
          s.orderHeap.length (searchMid (searchPre s).2).trail.length
          (searchMid (searchPre s).2).props s.orderHeap s.polarity s.activity
          s.varInc (orderLits (searchMid (searchPre s).2)).2 := by
  unfold search
  simp only [h1, Bool.not_true, Bool.false_eq_true, if_false, h2, if_true]
  cases ho : orderLits (searchMid (searchPre s).2) with
  | mk b sD =>
    rw [ho] at h3
    cases b with
    | false => cases h3
    | true => rfl

theorem searchMain_spec (rac det rol : S2 → S2) (n2 oh ot op : Nat)
    (bH : List Nat) (bP : List Bool) (bA : List Nat) (bV : Nat) (sD : S2) :
    (searchMain rac det rol n2 oh ot op bH bP bA bV sD).2.varInc = bV
    ∧ (searchMain rac det rol n2 oh ot op bH bP bA bV sD).2.activity = bA
    ∧ (searchMain rac det rol n2 oh ot op bH bP bA bV sD).2.polarity = bP
    ∧ (searchMain rac det rol n2 oh ot op bH bP bA bV sD).2.orderHeap
        = bH.filter (fun v =>
            ((searchMain rac det rol n2 oh ot op bH bP bA bV sD).2.assigns.getD
                v none == none)
              && (searchMain rac det rol n2 oh ot op bH bP bA bV
                  sD).2.decisionVar.getD v false) :=
  ⟨rfl, rfl, rfl, rfl⟩

end CS2

/-- C7: `FailedVarSearcher::search` backs up the order heap, the polarities,
the activities and `var_inc` at entry and restores them on exit: for every
return path, `var_inc`, `activity` and `polarity` equal their entry values,
and the order heap either is untouched (the `orderLits` early-return path,
which under the heap invariant never grows the heap) or equals the entry
heap filtered to the variables still unassigned-and-decision at exit. -/
theorem C7_search_restores_branching_state
    (rac det rol : CS2.S2 → CS2.S2) (numProps : Nat) (s : CS2.S2)
    (hH : s.heapH) :
    (CS2.search rac det rol numProps s).2.varInc = s.varInc
    ∧ (CS2.search rac det rol numProps s).2.activity = s.activity
    ∧ (CS2.search rac det rol numProps s).2.polarity = s.polarity
    ∧ ((CS2.search rac det rol numProps s).2.orderHeap = s.orderHeap
      ∨ (CS2.search rac det rol numProps s).2.orderHeap
          = s.orderHeap.filter (fun v =>
              ((CS2.search rac det rol numProps s).2.assigns.getD v none == none)
                && (CS2.search rac det rol numProps s).2.decisionVar.getD v false)) := by
  by_cases h1 : (CS2.searchPre s).1 = true
  · by_cases h2 : (CS2.searchMid (CS2.searchPre s).2).addExtraBins = true
    · cases h3 : (CS2.orderLits (CS2.searchMid (CS2.searchPre s).2)).1 with
      | false =>
        rw [CS2.search_eq_extraFail rac det rol numProps s h1 h2 h3]
        have ha := CS2.searchPre_frame s
        have hb := CS2.searchMid_frame (CS2.searchPre s).2
        have hab := CS2.frameOk_trans ha hb
        have hc := CS2.orderLits_frame (CS2.searchMid (CS2.searchPre s).2)
          (CS2.heapH_of_frameOk hab hH)
        have hfr := CS2.frameOk_trans hab hc
        exact ⟨hfr.2.2.1, hfr.1, hfr.2.1, Or.inl hfr.2.2.2.1⟩
      | true =>
        rw [CS2.search_eq_extraOk rac det rol numProps s h1 h2 h3]
        have hs := CS2.searchMain_spec rac det rol
          (CS2.scaledNumProps numProps (CS2.searchMid (CS2.searchPre s).2).numPropsMultiplier)
          s.orderHeap.length (CS2.searchMid (CS2.searchPre s).2).trail.length
          (CS2.searchMid (CS2.searchPre s).2).props s.orderHeap s.polarity
          s.activity s.varInc (CS2.orderLits (CS2.searchMid (CS2.searchPre s).2)).2
        exact ⟨hs.1, hs.2.1, hs.2.2.1, Or.inr hs.2.2.2⟩
    · have h2f : (CS2.searchMid (CS2.searchPre s).2).addExtraBins = false := by
        simpa using h2
      rw [CS2.search_eq_noExtra rac det rol numProps s h1 h2f]
      have hs := CS2.searchMain_spec rac det rol
        (CS2.scaledNumProps numProps (CS2.searchMid (CS2.searchPre s).2).numPropsMultiplier)
        s.orderHeap.length (CS2.searchMid (CS2.searchPre s).2).trail.length
        (CS2.searchMid (CS2.searchPre s).2).props s.orderHeap s.polarity
        s.activity s.varInc (CS2.searchMid (CS2.searchPre s).2)
      exact ⟨hs.1, hs.2.1, hs.2.2.1, Or.inr hs.2.2.2⟩
  · have h1f : (CS2.searchPre s).1 = false := by
      simpa using h1
    rw [CS2.search_eq_preFail rac det rol numProps s h1f]
    have hs := CS2.searchEnd_spec rac det rol s.orderHeap.length
      (CS2.searchPre s).2.trail.length s.orderHeap s.polarity s.activity
      s.varInc (CS2.searchPre s).2
    exact ⟨hs.1, hs.2.1, hs.2.2.1, Or.inr hs.2.2.2⟩

/-- Witness for C7: on a fresh two-variable instance with no clauses (and
identity clean-up functions) `search` probes both variables and returns with
`var_inc`, activities and polarities equal to their entry values. -/
theorem C7_witness :
    (CS2.mkS2 2 [] []).heapH
    ∧ (CS2.search id id id 10 (CS2.mkS2 2 [] [])).2.varInc = (CS2.mkS2 2 [] []).varInc
    ∧ (CS2.search id id id 10 (CS2.mkS2 2 [] [])).2.activity
        = (CS2.mkS2 2 [] []).activity
    ∧ (CS2.search id id id 10 (CS2.mkS2 2 [] [])).2.polarity
        = (CS2.mkS2 2 [] []).polarity :=
  ⟨by unfold CS2.S2.heapH; decide,
   (C7_search_restores_branching_state id id id 10 (CS2.mkS2 2 [] [])
     (by unfold CS2.S2.heapH; decide)).1,
   (C7_search_restores_branching_state id id id 10 (CS2.mkS2 2 [] [])
     (by unfold CS2.S2.heapH; decide)).2.1,
   (C7_search_restores_branching_state id id id 10 (CS2.mkS2 2 [] [])
     (by unfold CS2.S2.heapH; decide)).2.2.1⟩
